import Mathlib

/-!
# cc2_pingpong: descriptor exchange, connection state machine, ring scheduler

A shallow embedding of `libibverbs/examples/cc2_pingpong.c`.

Conventions of the embedding
* C integers are natural numbers (or `Int` for return values), reduced modulo
  `2 ^ width` at the places where the C code converts or stores them.
* C strings are `List Char` without the terminating NUL; raw buffers are
  `List Char` that may contain `'\x00'`.
* Fixed-size C arrays indexed by ring position are lists.
* Calls into libc, the socket layer and the verbs library are answered by an
  explicit environment record; every call is appended to a trace.
* Counters of type `int` are unbounded integers: no run considered here comes
  near `2 ^ 31`.
* The program is compiled with `USE_RDMA` and `CALC_SUPPORT` defined (lines 15-18).
* In `parser` the `long` results of `strtol` are converted to the width of the variable they are
  assigned to, and a signed overflow of `iters * 2` is an outcome of its own.
-/

namespace CC2Pingpong

/-! ## Constants -/

/-- Source: `#define MAX_NODE_NUM (8)`. -/
def MAX_NODE_NUM : Nat := 8

/-- Source: `#define KEY_GID_MSG_SIZE (50 + (sizeof "00000000000000000000000000000000"))`;
the string literal has 32 characters and a terminator. -/
def KEY_GID_MSG_SIZE : Nat := 50 + (32 + 1)

/-- Source: `struct pingpong_dest`. Every integer field holds the bit pattern of the C object
(`int` and `unsigned` are 32 bits, `unsigned long long` 64 bits, `gid` 16 bytes, `mac` 6 bytes). -/
structure pingpong_dest where
  lid : Nat
  out_reads : Nat
  qpn : Nat
  psn : Nat
  rkey : Nat
  vaddr : Nat
  gid : List Nat
  mac : List Nat
deriving DecidableEq

/-! ## Hexadecimal text, as produced by `sprintf` and consumed by `sscanf` -/

/-- Lower-case hexadecimal digit of a value below 16, as printed by `%x`. -/
def hexChar : Nat → Char
  | 0 => '0' | 1 => '1' | 2 => '2' | 3 => '3' | 4 => '4' | 5 => '5' | 6 => '6' | 7 => '7'
  | 8 => '8' | 9 => '9' | 10 => 'a' | 11 => 'b' | 12 => 'c' | 13 => 'd' | 14 => 'e' | 15 => 'f'
  | _ => '?'

/-- Value of a hexadecimal digit as accepted by `%x` (both cases). -/
def hexVal (c : Char) : Option Nat :=
  if c = '0' then some 0 else if c = '1' then some 1 else if c = '2' then some 2
  else if c = '3' then some 3 else if c = '4' then some 4 else if c = '5' then some 5
  else if c = '6' then some 6 else if c = '7' then some 7 else if c = '8' then some 8
  else if c = '9' then some 9
  else if c = 'a' ∨ c = 'A' then some 10 else if c = 'b' ∨ c = 'B' then some 11
  else if c = 'c' ∨ c = 'C' then some 12 else if c = 'd' ∨ c = 'D' then some 13
  else if c = 'e' ∨ c = 'E' then some 14 else if c = 'f' ∨ c = 'F' then some 15
  else none

/-- The C locale `isspace`. -/
def isSpace (c : Char) : Bool :=
  c = ' ' || c = '\t' || c = '\n' || c = '\x0b' || c = '\x0c' || c = '\r'

/-- The `k` low hexadecimal digits of `n`, most significant first. -/
def fixedHex : Nat → Nat → List Char
  | 0, _ => []
  | k + 1, n => hexChar (n / 16 ^ k % 16) :: fixedHex k n

/-- Number of hexadecimal digits of `n` (at least one), for values of at most `fuel` digits. -/
def hexLen : Nat → Nat → Nat
  | 0, _ => 1
  | fuel + 1, n => if n < 16 then 1 else 1 + hexLen fuel (n / 16)

/-- The conversion `%0<w>x` of `printf` applied to an unsigned value of at most 64 bits:
all digits of the value, zero-padded on the left to at least `w` digits. -/
def fmt_0wx (w n : Nat) : List Char := fixedHex (max w (hexLen 16 n)) n

/-- The digit loop of a `%x` conversion of `scanf`: consumes hexadecimal digits while the
remaining field width allows. Returns the value, the number of digits and the unread input. -/
def scanDigits : Nat → List Char → Nat → Nat → Nat × Nat × List Char
  | 0, s, acc, cnt => (acc, cnt, s)
  | _ + 1, [], acc, cnt => (acc, cnt, [])
  | w + 1, c :: cs, acc, cnt =>
    match hexVal c with
    | some v => scanDigits w cs (acc * 16 + v) (cnt + 1)
    | none => (acc, cnt, c :: cs)

/-- The conversion `%<w>x` of `scanf` storing into an unsigned object of `bits` bits, as the C
library the program runs with performs it: white space is skipped, an optional sign and an
optional `0x` prefix count towards the field width, then hexadecimal digits are taken. The `0`
of a consumed prefix counts as a digit of the number, so a prefix that no hexadecimal digit
follows converts as 0, with the prefix consumed (ISO C 7.21.6.2 calls that input a matching
failure). `none` is an input failure or a matching failure. -/
def scan_x (w bits : Nat) (s : List Char) : Option (Nat × List Char) :=
  match s.dropWhile isSpace with
  | [] => none
  | c :: cs =>
    let signed : Bool × Nat × List Char :=
      if c = '-' then (true, w - 1, cs)
      else if c = '+' then (false, w - 1, cs)
      else (false, w, c :: cs)
    let body : Bool × Nat × List Char :=
      match signed.2.1, signed.2.2 with
      | w1 + 2, z :: x :: rest =>
        if z = '0' ∧ (x = 'x' ∨ x = 'X') then (true, w1, rest)
        else (false, w1 + 2, z :: x :: rest)
      | w1, rest => (false, w1, rest)
    match scanDigits body.2.1 body.2.2 0 0 with
    | (_, 0, rest) => if body.1 then some (0, rest) else none
    | (v, _ + 1, rest) =>
      some (if signed.1 then (2 ^ bits - v % 2 ^ bits) % 2 ^ bits else v % 2 ^ bits, rest)

/-- The conversion `%s` of `scanf`: white space is skipped, then the longest run of
non-white-space characters is taken. `none` is an input failure (end of input). -/
def scan_s (s : List Char) : Option (List Char × List Char) :=
  match s.dropWhile isSpace with
  | [] => none
  | c :: cs => some ((c :: cs).takeWhile (fun x => !isSpace x), (c :: cs).dropWhile (fun x => !isSpace x))

/-- One directive of a `scanf` format. -/
inductive Directive where
  | hex (w bits : Nat)
  | lit (c : Char)
  | str
deriving DecidableEq

/-- One converted value of a `scanf` call. -/
inductive ScanVal where
  | num (n : Nat)
  | text (s : List Char)
deriving DecidableEq

/-- The conversions `sscanf` performs on `s`, in order; it stops at the first directive that fails.
The return value of `sscanf` is the length of this list. -/
def runScan : List Directive → List Char → List ScanVal
  | [], _ => []
  | Directive.lit c :: ds, s =>
    match s with
    | [] => []
    | x :: xs => if x = c then runScan ds xs else []
  | Directive.hex w bits :: ds, s =>
    match scan_x w bits s with
    | some (v, r) => ScanVal.num v :: runScan ds r
    | none => []
  | Directive.str :: ds, s =>
    match scan_s s with
    | some (t, r) => ScanVal.text t :: runScan ds r
    | none => []

/-- Source: `#define KEY_GID_PRINT_FMT "%04x:%04x:%06x:%06x:%08x:%016Lx:%s"`, read by `sscanf`:
the digits after `%` are a maximum field width; `L` selects a 64-bit object. -/
def KEY_GID_SCAN_FMT : List Directive :=
  [Directive.hex 4 32, Directive.lit ':', Directive.hex 4 32, Directive.lit ':',
   Directive.hex 6 32, Directive.lit ':', Directive.hex 6 32, Directive.lit ':',
   Directive.hex 8 32, Directive.lit ':', Directive.hex 16 64, Directive.lit ':',
   Directive.str]

/-- The content of a character buffer read as a C string: everything before the first NUL (the
whole buffer when it holds no NUL, where the C code would read on past its end). -/
def cstr (buf : List Char) : List Char := buf.takeWhile (fun c => c ≠ '\x00')

/-- A lower-case hexadecimal digit: `0` to `9` or `a` to `f`. -/
def is_lower_hex (c : Char) : Bool :=
  (decide ('0' ≤ c) && decide (c ≤ '9')) || (decide ('a' ≤ c) && decide (c ≤ 'f'))

/-! ## Global address wire form -/

/-- Four bytes of memory read as a `uint32_t` on a little-endian (`le = true`) or big-endian
host. -/
def load32 (le : Bool) (b0 b1 b2 b3 : Nat) : Nat :=
  if le then b0 % 256 + b1 % 256 * 2 ^ 8 + b2 % 256 * 2 ^ 16 + b3 % 256 * 2 ^ 24
  else b0 % 256 * 2 ^ 24 + b1 % 256 * 2 ^ 16 + b2 % 256 * 2 ^ 8 + b3 % 256

/-- The four bytes a `uint32_t` occupies in memory on the host. -/
def store32 (le : Bool) (v : Nat) : List Nat :=
  if le then [v % 256, v / 2 ^ 8 % 256, v / 2 ^ 16 % 256, v / 2 ^ 24 % 256]
  else [v / 2 ^ 24 % 256, v / 2 ^ 16 % 256, v / 2 ^ 8 % 256, v % 256]

/-- Byte swap of a 32-bit value. -/
def bswap32 (v : Nat) : Nat :=
  v % 256 * 2 ^ 24 + v / 2 ^ 8 % 256 * 2 ^ 16 + v / 2 ^ 16 % 256 * 2 ^ 8 + v / 2 ^ 24 % 256

/-- The libc `htobe32`: a byte swap on a little-endian host, the identity otherwise. -/
def htobe32 (le : Bool) (v : Nat) : Nat := if le then bswap32 v else v % 2 ^ 32

/-- The libc `be32toh`. -/
def be32toh (le : Bool) (v : Nat) : Nat := if le then bswap32 v else v % 2 ^ 32

/-- Source: `my_gid_to_wire_gid`. The 16 bytes are copied into four `uint32_t`, each is printed
with `%08x` after `htobe32`. The result is the string left in `wgid`. -/
def my_gid_to_wire_gid (le : Bool) (gid : List Nat) : List Char :=
  let word (i : Nat) : Nat :=
    load32 le (gid.getD (4 * i) 0) (gid.getD (4 * i + 1) 0) (gid.getD (4 * i + 2) 0)
      (gid.getD (4 * i + 3) 0)
  fmt_0wx 8 (htobe32 le (word 0)) ++ fmt_0wx 8 (htobe32 le (word 1))
    ++ fmt_0wx 8 (htobe32 le (word 2)) ++ fmt_0wx 8 (htobe32 le (word 3))

/-- One round of the loop of `my_wire_gid_to_gid`: `memcpy(tmp, wgid + i * 8, 8)` with
`tmp[8] = 0`, then `sscanf(tmp, "%x", &v32)`; `v32` keeps its value when nothing is converted. -/
def wire_word (wgid : List Char) (i : Nat) (v32 : Nat) : Nat :=
  let tmp := cstr ((wgid.drop (i * 8)).take 8)
  match runScan [Directive.hex tmp.length 32] tmp with
  | [ScanVal.num v] => v
  | _ => v32

/-- Source: `my_wire_gid_to_gid`. `v32` is the indeterminate initial content of the local `v32`;
`wgid` is the content of the character buffer handed in. -/
def my_wire_gid_to_gid (le : Bool) (v32 : Nat) (wgid : List Char) : List Nat :=
  let v0 := wire_word wgid 0 v32
  let v1 := wire_word wgid 1 v0
  let v2 := wire_word wgid 2 v1
  let v3 := wire_word wgid 3 v2
  store32 le (be32toh le v0) ++ store32 le (be32toh le v1)
    ++ store32 le (be32toh le v2) ++ store32 le (be32toh le v3)

/-! ## Descriptor records -/

/-- The text `sprintf(msg, KEY_GID_PRINT_FMT, lid, out_reads, qpn, psn, rkey, vaddr, gid)`
produces, as in `pp_client_exch_dest` and `pp_server_exch_dest`; `wgid` is the wire form of the
global address. -/
def sprintf_KEY_GID (d : pingpong_dest) (wgid : List Char) : List Char :=
  fmt_0wx 4 (d.lid % 2 ^ 32) ++ ':' :: fmt_0wx 4 (d.out_reads % 2 ^ 32)
    ++ ':' :: fmt_0wx 6 (d.qpn % 2 ^ 32) ++ ':' :: fmt_0wx 6 (d.psn % 2 ^ 32)
    ++ ':' :: fmt_0wx 8 (d.rkey % 2 ^ 32) ++ ':' :: fmt_0wx 16 (d.vaddr % 2 ^ 64)
    ++ ':' :: wgid

/-- The `sizeof msg` bytes handed to `write` after the record was printed into `msg`: the text
and its terminator. The text has at least 82 characters; when a field exceeds its printed width
the C code writes past the end of `msg`, and the model keeps the first `KEY_GID_MSG_SIZE` bytes. -/
def msg_bytes (text : List Char) : List Char := (text ++ ['\x00']).take KEY_GID_MSG_SIZE

/-- Serialization as done by the client (lines 478-487): the wire form of the descriptor's own
global address, then the record. -/
def serialize (le : Bool) (d : pingpong_dest) : List Char :=
  msg_bytes (sprintf_KEY_GID d (my_gid_to_wire_gid le d.gid))

/-- The effect of `sscanf(msg, KEY_GID_PRINT_FMT, &d->lid, &d->out_reads, &d->qpn, &d->psn,
&d->rkey, &d->vaddr, gid)` on the descriptor `d` and on the buffer `gid`: every converted value is
stored, the objects of the conversions that did not take place keep their content. A token of
more than 32 characters overruns `char gid[33]` in C; the model lets the buffer grow. -/
def sscanf_KEY_GID (msg : List Char) (d : pingpong_dest) (gid : List Char) :
    pingpong_dest × List Char :=
  let vals := runScan KEY_GID_SCAN_FMT (cstr msg)
  let num (i : Nat) (old : Nat) : Nat :=
    match vals.get? i with
    | some (ScanVal.num v) => v
    | _ => old
  ({ d with
      lid := num 0 d.lid, out_reads := num 1 d.out_reads, qpn := num 2 d.qpn,
      psn := num 3 d.psn, rkey := num 4 d.rkey, vaddr := num 5 d.vaddr },
   match vals.get? 6 with
   | some (ScanVal.text t) => t ++ '\x00' :: gid.drop (t.length + 1)
   | _ => gid)

/-- Deserialization as done by both exchange functions (lines 510-518, 607-615): `sscanf` into
the freshly allocated descriptor `fresh`, then `my_wire_gid_to_gid` on the buffer `gid`. The
return value of `sscanf` is not looked at. -/
def deserialize (le : Bool) (v32 : Nat) (msg : List Char) (fresh : pingpong_dest)
    (gid : List Char) : pingpong_dest × List Char :=
  let r := sscanf_KEY_GID msg fresh gid
  ({ r.1 with gid := my_wire_gid_to_gid le v32 r.2 }, r.2)

/-- The call `sscanf(msg, KEY_GID_PRINT_FMT, ..., gid)` stays inside the objects it is given: the
buffer `msg` holds a NUL, so the input string ends inside `msg`, and the token `%s` stores, if
any, has at most 32 characters, so it fits `char gid[33]` with its terminator. Outside this
domain the C code reads past `msg` or writes past `gid`, and `cstr` and `sscanf_KEY_GID` do not
describe it. -/
def scan_defined (msg : List Char) : Bool :=
  msg.contains '\x00' &&
    (match (runScan KEY_GID_SCAN_FMT (cstr msg)).get? 6 with
     | some (ScanVal.text t) => decide (t.length ≤ 32)
     | _ => true)

/-- A descriptor every field of which fits its printed width. -/
def valid_dest (d : pingpong_dest) : Prop :=
  d.lid < 2 ^ 16 ∧ d.out_reads < 2 ^ 16 ∧ d.qpn < 2 ^ 24 ∧ d.psn < 2 ^ 24 ∧ d.rkey < 2 ^ 32 ∧
    d.vaddr < 2 ^ 64 ∧ d.gid.length = 16 ∧ ∀ b ∈ d.gid, b < 256

instance (d : pingpong_dest) : Decidable (valid_dest d) := by
  unfold valid_dest; infer_instance

/-! ## Auxiliary text forms used in the proofs -/

/-- The 32-bit value whose big-endian bytes are `b0 b1 b2 b3`. -/
def beWord (b0 b1 b2 b3 : Nat) : Nat :=
  b0 % 256 * 2 ^ 24 + b1 % 256 * 2 ^ 16 + b2 % 256 * 2 ^ 8 + b3 % 256

/-- The record text of six numbers and a global-address token, every number printed with exactly
its field width. -/
def recordText (a b c e f g : Nat) (W : List Char) : List Char :=
  fixedHex 4 a ++ ':' :: (fixedHex 4 b ++ ':' :: (fixedHex 6 c ++ ':' :: (fixedHex 6 e
    ++ ':' :: (fixedHex 8 f ++ ':' :: (fixedHex 16 g ++ ':' :: W)))))

/-- The wire form of a global address given by its bytes. -/
def wireText (b : Nat → Nat) : List Char :=
  fixedHex 8 (beWord (b 0) (b 1) (b 2) (b 3)) ++ (fixedHex 8 (beWord (b 4) (b 5) (b 6) (b 7))
    ++ (fixedHex 8 (beWord (b 8) (b 9) (b 10) (b 11))
    ++ fixedHex 8 (beWord (b 12) (b 13) (b 14) (b 15))))

/-! ## Verbs data -/

/-- Queue-pair states of `enum ibv_qp_state` that the program uses. -/
inductive ibv_qp_state where
  | IBV_QPS_RESET | IBV_QPS_INIT | IBV_QPS_RTR | IBV_QPS_RTS
deriving DecidableEq

/-- Attribute mask bits of `enum ibv_qp_attr_mask` that the program uses. -/
inductive ibv_qp_attr_mask where
  | IBV_QP_STATE | IBV_QP_AV | IBV_QP_PATH_MTU | IBV_QP_DEST_QPN | IBV_QP_RQ_PSN
  | IBV_QP_MAX_DEST_RD_ATOMIC | IBV_QP_MIN_RNR_TIMER | IBV_QP_TIMEOUT | IBV_QP_RETRY_CNT
  | IBV_QP_RNR_RETRY | IBV_QP_SQ_PSN | IBV_QP_MAX_QP_RD_ATOMIC
deriving DecidableEq

/-- The fields of `struct ibv_global_route` that `pp_connect_ctx` sets. -/
structure ibv_global_route where
  dgid : List Nat
  sgid_index : Nat
  hop_limit : Nat
deriving DecidableEq

/-- The fields of `struct ibv_ah_attr` that `pp_connect_ctx` sets. -/
structure ibv_ah_attr where
  grh : ibv_global_route
  dlid : Nat
  sl : Nat
  src_path_bits : Nat
  is_global : Nat
  port_num : Nat
deriving DecidableEq

/-- The fields of `struct ibv_qp_attr` that `pp_connect_ctx` sets; all others are zero. -/
structure ibv_qp_attr where
  qp_state : ibv_qp_state
  path_mtu : Nat
  dest_qp_num : Nat
  rq_psn : Nat
  sq_psn : Nat
  max_rd_atomic : Nat
  max_dest_rd_atomic : Nat
  min_rnr_timer : Nat
  timeout : Nat
  retry_cnt : Nat
  rnr_retry : Nat
  ah_attr : ibv_ah_attr
deriving DecidableEq

/-- Source: `struct ibv_sge`. -/
structure ibv_sge where
  addr : Nat
  length : Nat
  lkey : Nat
deriving DecidableEq

/-- Work-request opcodes the program uses. -/
inductive ibv_wr_opcode where
  | IBV_WR_CQE_WAIT | IBV_WR_RDMA_WRITE_WITH_IMM | IBV_WR_SEND
deriving DecidableEq

/-- The bits of `send_flags` the program uses. -/
structure send_flags where
  IBV_SEND_SIGNALED : Bool
  IBV_SEND_WAIT_EN_LAST : Bool
  IBV_SEND_VECTOR_CALC : Bool
deriving DecidableEq

/-- The union `wr` of `struct ibv_send_wr`. -/
inductive wr_union where
  | zero
  | rdma (remote_addr rkey : Nat)
  | cqe_wait (cq cq_count : Nat)
deriving DecidableEq

/-- The member `vector_calc` of `struct ibv_send_wr`. -/
structure ibv_vector_calc where
  op : Nat
  operand_type : Nat
  operand_size : Nat
  tag_type : Nat
  tag_size : Nat
  tag_exist : Nat
  little_endian : Nat
  chunk_size : Nat
  vector_count : Nat
deriving DecidableEq

/-- Source: `struct ibv_send_wr` as filled by the program (`next` is always `NULL`);
`sg_list` is the list of the `num_sge` entries it points to. -/
structure ibv_send_wr where
  wr_id : Nat
  sg_list : List ibv_sge
  num_sge : Nat
  opcode : ibv_wr_opcode
  flags : send_flags
  wr : wr_union
  vector_calc : ibv_vector_calc
deriving DecidableEq

/-- Source: `enum { PP_RECV_WRID = 1, PP_SEND_WRID = 2, PP_CQE_WAIT = 3 }`. -/
def PP_RECV_WRID : Nat := 1
def PP_SEND_WRID : Nat := 2
def PP_CQE_WAIT : Nat := 3

/-- The disabled calc opcode; the usage text of the program (`-c`: "0-disabled") gives its
value. -/
def IBV_CALC_OP_NA : Nat := 0

/-- Source: `struct pingpong_calc_ctx` (the fields the scheduler reads). -/
structure pingpong_calc_ctx where
  opcode : Nat
  operand_type : Nat
  operand_size : Nat
  vector_count : Nat
deriving DecidableEq

/-- Source: `struct pingpong_context`, the fields the modelled functions read. Queue pairs and
completion queues are named by their ring index; `net_buf` holds the buffer addresses,
`mr_lkey` the local keys of `mr[k]`, `rx_cq` the handles of `rx_cq_s[k].cq`, `mr_rkey` the remote
keys of `mr[k]`, `qp_num` the numbers `qp[k]->qp_num`, `size` the field `int size`. -/
structure pingpong_context where
  net_buf : List Nat
  mr_lkey : List Nat
  rx_cq : List Nat
  calc_op : pingpong_calc_ctx
  mr_rkey : List Nat := []
  qp_num : List Nat := []
  size : Int := 0
deriving DecidableEq

/-! ## Environment, trace and control flow -/

/-- One call into the environment together with its result. -/
inductive Event where
  | accept (nodeind : Nat) (fd : Int)
  | close (fd : Int)
  | read (fd : Int) (ret : Int)
  | write (fd : Int) (data : List Char) (ret : Int)
  | modify_qp (qp : Nat) (attr : ibv_qp_attr) (mask : List ibv_qp_attr_mask) (ret : Int)
  | post_send (qp : Nat) (wr : ibv_send_wr) (ret : Int)
  | stderr (text : String)
  | poll_cq (ne : Int) (status : Nat)
deriving DecidableEq

/-- The answers of everything outside the program.
* `le`: the host is little-endian.
* `asprintf`, `getaddrinfo`: return values of these calls; `sockfd`: the descriptor left by the
  socket/connect (client) or socket/bind (server) loop, negative when no address worked.
* `accept k`: result of the `k`-th `accept`.
* `read fd n`: return value of the `read` on `fd` and the buffer content it leaves; `n = 0` is
  the read of a descriptor record, `n = 1` the read of the acknowledgment (server) or of the
  notification (client). Every one of these reads is made at most once per descriptor in a run.
* `write fd n data`: return value of the `write` of `data` on `fd`; `n = 0` is the write of a
  descriptor record, `n = 1` the write of "done" (client) or of "ready" (server).
* `malloc_dest k`: the `k`-th `malloc(sizeof(struct pingpong_dest))`: `none` is `NULL`, otherwise
  the indeterminate content of the fresh block.
* `v32 k`, `stack_gid`: indeterminate initial content of the local `v32` of the `k`-th call of
  `my_wire_gid_to_gid` and of the local `char gid[33]` of `pp_server_exch_dest`.
* `wild j`: what slot `j` of the pointer array `rem_dest` refers to while it has never been
  assigned (`malloc` does not clear the array): `none` when reading through it faults.
* `ibv_modify_qp qp attr`, `ibv_post_send n qp wr`: return values of the verbs calls (`n` counts
  the `ibv_post_send` calls made so far). -/
structure Env where
  le : Bool
  asprintf : Int
  getaddrinfo : Int
  sockfd : Int
  accept : Nat → Int
  read : Int → Nat → Int × List Char
  write : Int → Nat → List Char → Int
  malloc_dest : Nat → Option pingpong_dest
  v32 : Nat → Nat
  stack_gid : List Char
  wild : Nat → Option pingpong_dest
  ibv_modify_qp : Nat → ibv_qp_attr → Int
  ibv_post_send : Nat → Nat → ibv_send_wr → Int

/-- The observable state: the calls made so far, the state of every queue pair as the transport
sees it, and the number of `ibv_post_send` calls made. -/
structure World where
  trace : List Event
  qp_state : List ibv_qp_state
  posted : Nat
deriving DecidableEq

/-- Appends one event to the trace. -/
def World.log (w : World) (e : Event) : World := { w with trace := w.trace ++ [e] }

/-- How a loop body ends: it falls through to the next round, or it leaves the loop (a `goto`
or a `return` inside the body). -/
inductive Step (σ : Type) where
  | next (s : σ)
  | out (s : σ)

/-- The loop `for (k = k0; k < k0 + cnt; k++) body`. -/
def forRange {σ : Type} : Nat → Nat → (Nat → σ → Step σ) → σ → Step σ
  | 0, _, _, s => Step.next s
  | cnt + 1, k, body, s =>
    match body k s with
    | Step.next s1 => forRange cnt (k + 1) body s1
    | Step.out s1 => Step.out s1

/-- The state a loop is left with, however it ended. -/
def Step.state {σ : Type} : Step σ → σ
  | Step.next s => s
  | Step.out s => s

/-! ## Connection state machine -/

/-- All-zero descriptor (the content `memset` gives `my_dest[0]`). -/
def zero_dest : pingpong_dest :=
  { lid := 0, out_reads := 0, qpn := 0, psn := 0, rkey := 0, vaddr := 0,
    gid := List.replicate 16 0, mac := List.replicate 6 0 }

/-- The test `dest->gid.global.interface_id` of `pp_connect_ctx`: the second eight bytes of the
global address, read as one 64-bit value, are not zero. -/
def interface_id_nonzero (d : pingpong_dest) : Bool :=
  ((d.gid.drop 8).take 8).any (fun b => b % 256 != 0)

/-- The attribute set of the first `ibv_modify_qp` of `pp_connect_ctx` (lines 380-400). The
integer arguments are converted to the width of the field they are stored in. -/
def rtr_attr (port : Int) (mtu : Nat) (sl : Int) (dest : pingpong_dest) (sgid_idx : Int) :
    ibv_qp_attr :=
  let ah : ibv_ah_attr :=
    { grh := { dgid := List.replicate 16 0, sgid_index := 0, hop_limit := 0 },
      dlid := dest.lid % 2 ^ 16, sl := (sl % 256).toNat, src_path_bits := 0, is_global := 0,
      port_num := (port % 256).toNat }
  { qp_state := ibv_qp_state.IBV_QPS_RTR, path_mtu := mtu, dest_qp_num := dest.qpn % 2 ^ 32,
    rq_psn := dest.psn % 2 ^ 32, sq_psn := 0, max_rd_atomic := 0, max_dest_rd_atomic := 1,
    min_rnr_timer := 12, timeout := 0, retry_cnt := 0, rnr_retry := 0,
    ah_attr :=
      if interface_id_nonzero dest then
        { ah with
          is_global := 1,
          grh := { dgid := dest.gid, sgid_index := (sgid_idx % 256).toNat, hop_limit := 1 } }
      else ah }

/-- The attribute set of the second `ibv_modify_qp` of `pp_connect_ctx` (lines 414-419): the same
object with five more fields assigned. -/
def rts_attr (port : Int) (my_psn : Nat) (mtu : Nat) (sl : Int) (dest : pingpong_dest)
    (sgid_idx : Int) : ibv_qp_attr :=
  { rtr_attr port mtu sl dest sgid_idx with
    qp_state := ibv_qp_state.IBV_QPS_RTS, timeout := 14, retry_cnt := 7, rnr_retry := 7,
    sq_psn := my_psn % 2 ^ 32, max_rd_atomic := 1 }

def RTR_MASK : List ibv_qp_attr_mask :=
  [ibv_qp_attr_mask.IBV_QP_STATE, ibv_qp_attr_mask.IBV_QP_AV, ibv_qp_attr_mask.IBV_QP_PATH_MTU,
   ibv_qp_attr_mask.IBV_QP_DEST_QPN, ibv_qp_attr_mask.IBV_QP_RQ_PSN,
   ibv_qp_attr_mask.IBV_QP_MAX_DEST_RD_ATOMIC, ibv_qp_attr_mask.IBV_QP_MIN_RNR_TIMER]

def RTS_MASK : List ibv_qp_attr_mask :=
  [ibv_qp_attr_mask.IBV_QP_STATE, ibv_qp_attr_mask.IBV_QP_TIMEOUT,
   ibv_qp_attr_mask.IBV_QP_RETRY_CNT, ibv_qp_attr_mask.IBV_QP_RNR_RETRY,
   ibv_qp_attr_mask.IBV_QP_SQ_PSN, ibv_qp_attr_mask.IBV_QP_MAX_QP_RD_ATOMIC]

/-- The call `ibv_modify_qp(qp, &attr, mask)`: the transport answers; when it answers 0 the queue
pair is in the requested state. -/
def ibv_modify_qp (env : Env) (w : World) (qp : Nat) (attr : ibv_qp_attr)
    (mask : List ibv_qp_attr_mask) : Int × World :=
  let ret := env.ibv_modify_qp qp attr
  (ret,
   { (w.log (Event.modify_qp qp attr mask ret)) with
     qp_state := if ret = 0 then w.qp_state.set qp attr.qp_state else w.qp_state })

/-- Source: `pp_connect_ctx` (lines 376-434). -/
def pp_connect_ctx (env : Env) (w : World) (qp : Nat) (port : Int) (my_psn : Nat) (mtu : Nat)
    (sl : Int) (dest : pingpong_dest) (sgid_idx : Int) : Int × World :=
  let r1 := ibv_modify_qp env w qp (rtr_attr port mtu sl dest sgid_idx) RTR_MASK
  if r1.1 ≠ 0 then
    (1, r1.2.log (Event.stderr "pp_connect_ctx: Failed to modify QP to RTR"))
  else
    let r2 := ibv_modify_qp env r1.2 qp (rts_attr port my_psn mtu sl dest sgid_idx) RTS_MASK
    if r2.1 ≠ 0 then
      (1, r2.2.log (Event.stderr "pp_connect_ctx: Failed to modify QP to RTS"))
    else (0, r2.2)

/-! ## Descriptor exchange -/

/-- One entry of the pointer array `rem_dest`: never assigned, `NULL`, or pointing to a
descriptor. -/
inductive Slot where
  | uninit
  | null
  | ptr (d : pingpong_dest)
deriving DecidableEq

/-- The bytes of `write(fd, "done", sizeof "done")`: the literal and its terminator. -/
def DONE_MSG : List Char := ['d', 'o', 'n', 'e', '\x00']

/-- The bytes of `write(fd, "ready", sizeof "ready")`: the literal and its terminator. -/
def READY_MSG : List Char := ['r', 'e', 'a', 'd', 'y', '\x00']

/-- Source: `pp_client_exch_dest` (lines 436-525). Returns the pointer array (`none` is `NULL`),
the value left in `*sockfd_ret` (`main` initialises it to 0) and the world. The allocation of the
one-entry pointer array is taken to succeed; the code does not test it. -/
def pp_client_exch_dest (env : Env) (w : World) (my_dest : pingpong_dest) :
    Option (List Slot) × Int × World :=
  if env.asprintf < 0 then (none, 0, w)
  else if env.getaddrinfo < 0 then (none, 0, w.log (Event.stderr "getaddrinfo failed"))
  else if env.sockfd < 0 then (none, 0, w.log (Event.stderr "Couldn't connect"))
  else
    let wgid := my_gid_to_wire_gid env.le my_dest.gid
    let msg := msg_bytes (sprintf_KEY_GID my_dest wgid)
    let n1 := env.write env.sockfd 0 msg
    let w1 := w.log (Event.write env.sockfd msg n1)
    if n1 ≠ KEY_GID_MSG_SIZE then
      (some [Slot.uninit], env.sockfd, w1.log (Event.stderr "Couldn't send local address"))
    else
      let r := env.read env.sockfd 0
      let w2 := w1.log (Event.read env.sockfd r.1)
      if r.1 ≠ KEY_GID_MSG_SIZE then
        (some [Slot.uninit], env.sockfd, w2.log (Event.stderr "Couldn't read remote address"))
      else
        let n3 := env.write env.sockfd 1 DONE_MSG
        let w3 := w2.log (Event.write env.sockfd DONE_MSG n3)
        if n3 ≠ DONE_MSG.length then
          (some [Slot.uninit], env.sockfd,
            w3.log (Event.stderr "Couldn't send done to local address"))
        else
          match env.malloc_dest 0 with
          | none => (some [Slot.null], env.sockfd, w3)
          | some fresh =>
            (some [Slot.ptr (deserialize env.le (env.v32 0) r.2 fresh (wgid ++ ['\x00'])).1],
              env.sockfd, w3)

/-- The state of `pp_server_exch_dest` while it walks the ring. -/
structure ExchState where
  w : World
  rem_dest : Option (List Slot)
  gid : List Char

/-- The body of the third loop of `pp_server_exch_dest` (lines 592-646) for ring member
`nodeind`. `Step.out` is `goto out`. -/
def server_member (env : Env) (ib_port : Int) (mtu : Nat) (sl : Int)
    (my_dest : List pingpong_dest) (sgid_idx : Int) (connfd : List Int) (nodeind : Nat)
    (s : ExchState) : Step ExchState :=
  let fd := connfd.getD nodeind (-1)
  let r := env.read fd 0
  let w1 := s.w.log (Event.read fd r.1)
  if r.1 ≠ KEY_GID_MSG_SIZE then
    Step.out { s with w := w1.log (Event.stderr "Couldn't read remote address") }
  else
    match env.malloc_dest nodeind with
    | none =>
      Step.out { s with w := w1, rem_dest := s.rem_dest.map (fun a => a.set nodeind Slot.null) }
    | some fresh =>
      let p := deserialize env.le (env.v32 nodeind) r.2 fresh s.gid
      let c := pp_connect_ctx env w1 nodeind ib_port (my_dest.getD nodeind zero_dest).psn mtu sl
        p.1 sgid_idx
      if c.1 ≠ 0 then
        Step.out { w := c.2.log (Event.stderr "Couldn't connect to remote QP of node"),
                   rem_dest := none, gid := p.2 }
      else
        let wgid := my_gid_to_wire_gid env.le (my_dest.getD 0 zero_dest).gid
        let gid2 := wgid ++ '\x00' :: p.2.drop 33
        let msg := msg_bytes (sprintf_KEY_GID (my_dest.getD nodeind zero_dest) wgid)
        let n2 := env.write fd 0 msg
        let w2 := c.2.log (Event.write fd msg n2)
        if n2 ≠ KEY_GID_MSG_SIZE then
          Step.out { w := w2.log (Event.stderr "Couldn't send local address to node"),
                     rem_dest := none, gid := gid2 }
        else
          Step.next { w := w2.log (Event.read fd (env.read fd 1).1),
                      rem_dest := s.rem_dest.map (fun a => a.set nodeind (Slot.ptr p.1)),
                      gid := gid2 }

/-- The first loop of `pp_server_exch_dest` (lines 578-582): `num_of_nodes` calls of `accept`. -/
def accept_all (env : Env) (num_of_nodes : Nat) (w : World) : List Int × World :=
  ((List.range num_of_nodes).map env.accept,
   { w with
     trace := w.trace ++ (List.range num_of_nodes).map (fun k => Event.accept k (env.accept k)) })

/-- Source: `pp_server_exch_dest` (lines 527-654). Returns the pointer array (`none` is `NULL`),
the descriptors copied to `connfd_ret` (nothing on the early returns) and the world. The
allocation of the pointer array is taken to succeed; the code does not test it. -/
def pp_server_exch_dest (env : Env) (w : World) (ib_port : Int) (mtu : Nat) (sl : Int)
    (my_dest : List pingpong_dest) (sgid_idx : Int) (num_of_nodes : Nat) :
    Option (List Slot) × List Int × World :=
  if env.asprintf < 0 then (none, [], w)
  else if env.getaddrinfo < 0 then (none, [], w.log (Event.stderr "getaddrinfo failed"))
  else if env.sockfd < 0 then (none, [], w.log (Event.stderr "Couldn't listen to port"))
  else
    let a := accept_all env num_of_nodes w
    let w1 := a.2.log (Event.close env.sockfd)
    if a.1.any (fun fd => decide (fd < 0)) then
      (none, [], w1.log (Event.stderr "accept() failed for node"))
    else
      let s := (forRange num_of_nodes 0 (server_member env ib_port mtu sl my_dest sgid_idx a.1)
        { w := w1, rem_dest := some (List.replicate num_of_nodes Slot.uninit),
          gid := env.stack_gid }).state
      (s.rem_dest, a.1, s.w)

/-! ## The successful run of the server exchange, member by member -/

/-- The content of the block the `k`-th descriptor allocation returns. -/
def fresh_block (env : Env) (k : Nat) : pingpong_dest := (env.malloc_dest k).getD zero_dest

/-- The content of the buffer `gid` of `pp_server_exch_dest` when member `k` is about to be
processed (all members before it having been processed to the end of the loop body). -/
def server_gid (env : Env) (my_dest : List pingpong_dest) : Nat → List Char
  | 0 => env.stack_gid
  | k + 1 =>
    my_gid_to_wire_gid env.le (my_dest.getD 0 zero_dest).gid ++ '\x00' ::
      (deserialize env.le (env.v32 k) (env.read (env.accept k) 0).2 (fresh_block env k)
        (server_gid env my_dest k)).2.drop 33

/-- The descriptor `pp_server_exch_dest` builds from the record read on the `k`-th accepted
connection. -/
def received (env : Env) (my_dest : List pingpong_dest) (k : Nat) : pingpong_dest :=
  (deserialize env.le (env.v32 k) (env.read (env.accept k) 0).2 (fresh_block env k)
    (server_gid env my_dest k)).1

/-- The bytes `pp_server_exch_dest` writes to member `k` (lines 625-636). -/
def server_record (env : Env) (my_dest : List pingpong_dest) (k : Nat) : List Char :=
  msg_bytes (sprintf_KEY_GID (my_dest.getD k zero_dest)
    (my_gid_to_wire_gid env.le (my_dest.getD 0 zero_dest).gid))

/-- Every checked step of member `k` succeeds: the read of its record, the allocation of its
descriptor, the two modifies, the write-back. -/
def member_ok (env : Env) (ib_port : Int) (mtu : Nat) (sl : Int) (my_dest : List pingpong_dest)
    (sgid_idx : Int) (k : Nat) : Prop :=
  (env.read (env.accept k) 0).1 = KEY_GID_MSG_SIZE ∧
  (env.malloc_dest k).isSome = true ∧
  env.ibv_modify_qp k (rtr_attr ib_port mtu sl (received env my_dest k) sgid_idx) = 0 ∧
  env.ibv_modify_qp k
    (rts_attr ib_port (my_dest.getD k zero_dest).psn mtu sl (received env my_dest k) sgid_idx)
    = 0 ∧
  env.write (env.accept k) 0 (server_record env my_dest k) = KEY_GID_MSG_SIZE

instance (env : Env) (ib_port : Int) (mtu : Nat) (sl : Int) (my_dest : List pingpong_dest)
    (sgid_idx : Int) (k : Nat) : Decidable (member_ok env ib_port mtu sl my_dest sgid_idx k) := by
  unfold member_ok; infer_instance

/-- The calls `pp_server_exch_dest` makes for member `k` when every checked step succeeds, in
order: read of the record, RTR modify, RTS modify, write-back, read of the acknowledgment. -/
def member_events (env : Env) (ib_port : Int) (mtu : Nat) (sl : Int)
    (my_dest : List pingpong_dest) (sgid_idx : Int) (k : Nat) : List Event :=
  [Event.read (env.accept k) KEY_GID_MSG_SIZE,
   Event.modify_qp k (rtr_attr ib_port mtu sl (received env my_dest k) sgid_idx) RTR_MASK 0,
   Event.modify_qp k
     (rts_attr ib_port (my_dest.getD k zero_dest).psn mtu sl (received env my_dest k) sgid_idx)
     RTS_MASK 0,
   Event.write (env.accept k) (server_record env my_dest k) KEY_GID_MSG_SIZE,
   Event.read (env.accept k) (env.read (env.accept k) 1).1]

/-- The state of `pp_server_exch_dest` after `k` members were processed successfully, starting
the member loop in world `w1`. -/
def exch_state_ok (env : Env) (ib_port : Int) (mtu : Nat) (sl : Int)
    (my_dest : List pingpong_dest) (sgid_idx : Int) (w1 : World) (N : Nat) : Nat → ExchState
  | 0 => { w := w1, rem_dest := some (List.replicate N Slot.uninit), gid := env.stack_gid }
  | k + 1 =>
    { w := { trace := (exch_state_ok env ib_port mtu sl my_dest sgid_idx w1 N k).w.trace
                ++ member_events env ib_port mtu sl my_dest sgid_idx k,
             qp_state := ((exch_state_ok env ib_port mtu sl my_dest sgid_idx w1 N k).w.qp_state.set
                k ibv_qp_state.IBV_QPS_RTR).set k ibv_qp_state.IBV_QPS_RTS,
             posted := (exch_state_ok env ib_port mtu sl my_dest sgid_idx w1 N k).w.posted },
      rem_dest := (exch_state_ok env ib_port mtu sl my_dest sgid_idx w1 N k).rem_dest.map
        (fun a => a.set k (Slot.ptr (received env my_dest k))),
      gid := server_gid env my_dest (k + 1) }

/-- The world in which the member loop of `pp_server_exch_dest` starts: all accepts made, the
listening socket closed. -/
def world_accepted (env : Env) (N : Nat) (w : World) : World :=
  (accept_all env N w).2.log (Event.close env.sockfd)

/-- An event that concerns ring member `k`: a read or write on its control connection, a modify
of its queue pair, or an error message. -/
def member_event (env : Env) (k : Nat) : Event → Prop
  | Event.read fd _ => fd = env.accept k
  | Event.write fd _ _ => fd = env.accept k
  | Event.modify_qp qp _ _ _ => qp = k
  | Event.stderr _ => True
  | _ => False

/-- The calls of `accept`. -/
def is_accept : Event → Bool
  | Event.accept _ _ => true
  | _ => false

/-- World `w1` continues world `w` by calls none of which is an `accept`. -/
def extends_without_accept (w w1 : World) : Prop :=
  ∃ ev, w1.trace = w.trace ++ ev ∧ ∀ e ∈ ev, is_accept e = false

/-! ## Ring scheduler -/

/-- The state of `server_pre_post_wqes`: the world, the local `ret`, and whether the process was
stopped by the integer division by a zero `vector_count` (line 1434). -/
structure SchedState where
  w : World
  ret : Int
  fault : Bool
deriving DecidableEq

/-- The call `ibv_post_send(ctx->qp[qp], &wr, &bad_wr)`. -/
def ibv_post_send (env : Env) (w : World) (qp : Nat) (wr : ibv_send_wr) : Int × World :=
  let ret := env.ibv_post_send w.posted qp wr
  (ret, { (w.log (Event.post_send qp wr ret)) with posted := w.posted + 1 })

def zero_vector_calc : ibv_vector_calc :=
  { op := 0, operand_type := 0, operand_size := 0, tag_type := 0, tag_size := 0, tag_exist := 0,
    little_endian := 0, chunk_size := 0, vector_count := 0 }

/-- The wait request of iteration `i` for member `j` (lines 1344-1365). -/
def wait_wr (ctx : pingpong_context) (iters : Int) (num_of_nodes i j : Nat) : ibv_send_wr :=
  { wr_id := PP_CQE_WAIT, sg_list := [], num_sge := 0,
    opcode := ibv_wr_opcode.IBV_WR_CQE_WAIT,
    flags := { IBV_SEND_SIGNALED := decide ((i : Int) = iters - 1),
               IBV_SEND_WAIT_EN_LAST := true, IBV_SEND_VECTOR_CALC := false },
    wr := wr_union.cqe_wait (ctx.rx_cq.getD ((j + 1) % num_of_nodes) 0) 1,
    vector_calc := zero_vector_calc }

/-- The forward request of iteration `i` for member `j` (lines 1377-1438); `size` is
`user_param.size`. -/
def send_wr (ctx : pingpong_context) (size : Nat) (iters : Int)
    (rem_dest : List pingpong_dest) (num_of_nodes i j : Nat) : ibv_send_wr :=
  let list : ibv_sge :=
    { addr := ctx.net_buf.getD ((j + 1) % num_of_nodes) 0, length := size % 2 ^ 32,
      lkey := ctx.mr_lkey.getD ((j + 1) % num_of_nodes) 0 }
  let tagged : Bool := ctx.calc_op.opcode != IBV_CALC_OP_NA
  { wr_id := PP_SEND_WRID,
    sg_list :=
      [if tagged then { list with length := list.length / (ctx.calc_op.vector_count % 256) }
       else list],
    num_sge := 1,
    opcode := ibv_wr_opcode.IBV_WR_RDMA_WRITE_WITH_IMM,
    flags := { IBV_SEND_SIGNALED := decide ((i : Int) = iters - 1),
               IBV_SEND_WAIT_EN_LAST := false, IBV_SEND_VECTOR_CALC := tagged },
    wr := wr_union.rdma ((rem_dest.getD j zero_dest).vaddr % 2 ^ 64)
      ((rem_dest.getD j zero_dest).rkey % 2 ^ 32),
    vector_calc :=
      if tagged then
        { op := ctx.calc_op.opcode, operand_type := ctx.calc_op.operand_type,
          operand_size := ctx.calc_op.operand_size, tag_type := 0, tag_size := 0, tag_exist := 0,
          little_endian := 1, chunk_size := 0, vector_count := ctx.calc_op.vector_count % 256 }
      else zero_vector_calc }

/-- The body of the first inner loop (lines 1342-1373). `Step.out` is `return -1`. -/
def wait_body (env : Env) (ctx : pingpong_context) (iters : Int) (num_of_nodes i j : Nat)
    (s : SchedState) : Step SchedState :=
  let r := ibv_post_send env s.w j (wait_wr ctx iters num_of_nodes i j)
  if r.1 ≠ 0 then
    Step.out { s with
      w := r.2.log (Event.stderr "-E- ibv_post_send verb wait_cqe failed"), ret := -1 }
  else Step.next { s with w := r.2, ret := r.1 }

/-- The body of the second inner loop (lines 1375-1445). `Step.out` is `return -1`, or the
division by zero. -/
def send_body (env : Env) (ctx : pingpong_context) (size : Nat) (iters : Int)
    (rem_dest : List pingpong_dest) (num_of_nodes i j : Nat) (s : SchedState) :
    Step SchedState :=
  if (ctx.calc_op.opcode != IBV_CALC_OP_NA) && (ctx.calc_op.vector_count % 256 == 0) then
    Step.out { s with fault := true }
  else
    let r := ibv_post_send env s.w j (send_wr ctx size iters rem_dest num_of_nodes i j)
    if r.1 ≠ 0 then
      Step.out { s with
        w := r.2.log (Event.stderr "-E- ibv_post_send verb send failed"), ret := -1 }
    else Step.next { s with w := r.2, ret := r.1 }

/-- The body of the outer loop (lines 1341-1446): all waits of the iteration, then all
forwards. -/
def iter_body (env : Env) (ctx : pingpong_context) (size : Nat) (iters : Int)
    (rem_dest : List pingpong_dest) (num_of_nodes i : Nat) (s : SchedState) : Step SchedState :=
  match forRange num_of_nodes 0 (wait_body env ctx iters num_of_nodes i) s with
  | Step.out s1 => Step.out s1
  | Step.next s1 =>
    forRange num_of_nodes 0 (send_body env ctx size iters rem_dest num_of_nodes i) s1

/-- Source: `server_pre_post_wqes` (lines 1333-1449). `rem_dest` holds the descriptors the
pointer array refers to. The result carries the return value in `ret`. -/
def server_pre_post_wqes (env : Env) (ctx : pingpong_context) (size : Nat) (w : World)
    (iters : Int) (rem_dest : List pingpong_dest) (num_of_nodes : Nat) : SchedState :=
  (forRange iters.toNat 0 (iter_body env ctx size iters rem_dest num_of_nodes)
    { w := w, ret := 0, fault := false }).state

/-- The text `server_pre_post_wqes` prints when a wait request (`true`) or a forward request
(`false`) is rejected. -/
def post_error (is_wait : Bool) : String :=
  if is_wait then "-E- ibv_post_send verb wait_cqe failed"
  else "-E- ibv_post_send verb send failed"

/-- The wait request (`is_wait = true`) or the forward request of iteration `i` for member `j`. -/
def request (ctx : pingpong_context) (size : Nat) (iters : Int) (rem_dest : List pingpong_dest)
    (num_of_nodes i j : Nat) (is_wait : Bool) : ibv_send_wr :=
  if is_wait then wait_wr ctx iters num_of_nodes i j
  else send_wr ctx size iters rem_dest num_of_nodes i j

/-- The requests of one iteration in the order of the two inner loops: the waits of members
`0 .. num_of_nodes - 1`, then the forwards of members `0 .. num_of_nodes - 1`. Every entry is the
queue pair, the request and its kind. -/
def schedule_iter (ctx : pingpong_context) (size : Nat) (iters : Int)
    (rem_dest : List pingpong_dest) (num_of_nodes i : Nat) : List (Nat × ibv_send_wr × Bool) :=
  (List.range num_of_nodes).map
      (fun j => (j, request ctx size iters rem_dest num_of_nodes i j true, true))
    ++ (List.range num_of_nodes).map
      (fun j => (j, request ctx size iters rem_dest num_of_nodes i j false, false))

/-- The full schedule: the requests of iterations `0 .. iters - 1` in the order of the outer
loop. -/
def schedule (ctx : pingpong_context) (size : Nat) (iters : Int) (rem_dest : List pingpong_dest)
    (num_of_nodes : Nat) : List (Nat × ibv_send_wr × Bool) :=
  (List.range iters.toNat).flatMap (schedule_iter ctx size iters rem_dest num_of_nodes)

/-- The position in the schedule of the wait (`is_wait = true`) or forward request of iteration
`i` for member `j`. -/
def position (num_of_nodes i j : Nat) (is_wait : Bool) : Nat :=
  2 * num_of_nodes * i + (if is_wait then j else num_of_nodes + j)

/-- The configuration does not divide by zero: a configured calc opcode comes with a vector count
that is not zero in its 8-bit field. -/
def no_div_zero (ctx : pingpong_context) : Prop :=
  ctx.calc_op.opcode = IBV_CALC_OP_NA ∨ ctx.calc_op.vector_count % 256 ≠ 0

instance (ctx : pingpong_context) : Decidable (no_div_zero ctx) := by
  unfold no_div_zero; infer_instance

/-- Posting a list of requests in order, stopping at the first rejected one (`Step.out`, with
`ret = -1`). -/
def post_seq (env : Env) : List (Nat × ibv_send_wr × Bool) → SchedState → Step SchedState
  | [], s => Step.next s
  | e :: l, s =>
    if (ibv_post_send env s.w e.1 e.2.1).1 ≠ 0 then
      Step.out { s with
        w := (ibv_post_send env s.w e.1 e.2.1).2.log (Event.stderr (post_error e.2.2)),
        ret := -1 }
    else
      post_seq env l { s with w := (ibv_post_send env s.w e.1 e.2.1).2,
                              ret := (ibv_post_send env s.w e.1 e.2.1).1 }

/-- The event of a post of a schedule entry that the transport answered with `ret`. -/
def post_event (ret : Int) (e : Nat × ibv_send_wr × Bool) : Event :=
  Event.post_send e.1 e.2.1 ret

/-- The posts of a request that carries the signaled flag. -/
def is_signaled_post : Event → Bool
  | Event.post_send _ wr _ => wr.flags.IBV_SEND_SIGNALED
  | _ => false

/-- The posts of a wait request. -/
def is_wait_post : Event → Bool
  | Event.post_send _ wr _ => decide (wr.opcode = ibv_wr_opcode.IBV_WR_CQE_WAIT)
  | _ => false

/-- The posts of a forward request. -/
def is_forward_post : Event → Bool
  | Event.post_send _ wr _ => decide (wr.opcode = ibv_wr_opcode.IBV_WR_RDMA_WRITE_WITH_IMM)
  | _ => false

/-- The algorithm as the specification words it (section 4.4): for iteration `i` in `0..I` and
member `j` in `0..N`, post the wait request of `(i, j)`, then post the forward request of
`(i, j)`. To be compared with `schedule`, the order of the code. -/
def spec_schedule (ctx : pingpong_context) (size : Nat) (iters : Int)
    (rem_dest : List pingpong_dest) (num_of_nodes : Nat) : List (Nat × ibv_send_wr × Bool) :=
  (List.range iters.toNat).flatMap (fun i =>
    (List.range num_of_nodes).flatMap (fun j =>
      [(j, request ctx size iters rem_dest num_of_nodes i j true, true),
       (j, request ctx size iters rem_dest num_of_nodes i j false, false)]))

/-- The entries of a schedule that go to the send queue of member `q`. -/
def on_queue (q : Nat) (l : List (Nat × ibv_send_wr × Bool)) : List (Nat × ibv_send_wr × Bool) :=
  l.filter (fun e => decide (e.1 = q))

/-! ## The runs of `main` -/

/-- Source: `struct perftest_parameters`, the fields the modelled parts of `main` and `parser`
read or write. Objects of enumerated type hold their 32-bit pattern; `size` is the `uint64_t`,
`vector_count` the `uint8_t`. -/
structure perftest_parameters where
  port : Int
  num_of_nodes : Nat
  ib_port : Int
  mtu : Nat
  size : Nat
  iters : Int
  sl : Int
  gid_index : Int
  out_reads : Int := 0
  rx_depth : Int := 0
  tx_depth : Int := 0
  use_event : Int := 0
  verbose : Int := 0
  verify : Int := 0
  calc_data_type : Nat := 0
  calc_data_size : Nat := 0
  calc_opcode : Nat := 0
  vector_count : Nat := 0
  mqe_poll : Int := 0
deriving DecidableEq

/-- How the modelled part of `main` ends: the process exits with a status, it is killed by a
fault (a read through a `NULL` or unusable pointer, a division by zero), it jumps to the label
`out`, or it goes on to the timed phase. -/
inductive MainOutcome where
  | exit (code : Int)
  | fault
  | cleanup
  | running
deriving DecidableEq

/-- What `rem_dest[j]->...` reads in `main`. -/
def deref (env : Env) (j : Nat) : Slot → Option pingpong_dest
  | Slot.ptr d => some d
  | Slot.null => none
  | Slot.uninit => env.wild j

/-- The reads `rem_dest[j]->lid, ...` for `j < num_of_nodes` (lines 2014-2020): the descriptors
read, or `none` when one of the reads faults. -/
def deref_all (env : Env) (slots : List Slot) (num_of_nodes : Nat) : Option (List pingpong_dest) :=
  (List.range num_of_nodes).mapM (fun j => deref env j (slots.getD j Slot.uninit))

/-- The notification loop of the server (lines 2046-2051). -/
def notify_ready (env : Env) (connfd : List Int) (num_of_nodes : Nat) (w : World) : World :=
  (forRange num_of_nodes 0 (fun nodeind w0 =>
    let fd := connfd.getD nodeind (-1)
    let n := env.write fd 1 READY_MSG
    let w1 := w0.log (Event.write fd READY_MSG n)
    let w2 := if n ≠ READY_MSG.length then
      w1.log (Event.stderr "Couldn't write to node with ready notification") else w1
    Step.next (w2.log (Event.close fd))) w).state

/-- Source: `main`, server role, lines 1999-2053: descriptor exchange, the check of its result,
the scheduler, the notification of the ring members. -/
def main_server (env : Env) (ctx : pingpong_context) (user_param : perftest_parameters)
    (my_dest : List pingpong_dest) (w : World) : MainOutcome × World :=
  let x := pp_server_exch_dest env w user_param.ib_port user_param.mtu user_param.sl my_dest
    user_param.gid_index user_param.num_of_nodes
  match x.1 with
  | none => (MainOutcome.exit 1, x.2.2.log (Event.stderr "Failed to exchange dest info"))
  | some slots =>
    match deref_all env slots user_param.num_of_nodes with
    | none => (MainOutcome.fault, x.2.2)
    | some rem_dest =>
      let s := server_pre_post_wqes env ctx user_param.size x.2.2 user_param.iters rem_dest
        user_param.num_of_nodes
      if s.fault then (MainOutcome.fault, s.w)
      else if s.ret ≠ 0 then
        (MainOutcome.exit (-1), s.w.log (Event.stderr "Failed pre posting WQEs"))
      else (MainOutcome.running, notify_ready env x.2.1 user_param.num_of_nodes s.w)

/-- Source: `main`, client role, lines 1999-2065: descriptor exchange, the check of its result,
the connection of `ctx->qp[0]`, the wait for the server's notification. -/
def main_client (env : Env) (user_param : perftest_parameters) (my_dest : List pingpong_dest)
    (w : World) : MainOutcome × World :=
  let x := pp_client_exch_dest env w (my_dest.getD 0 zero_dest)
  match x.1 with
  | none => (MainOutcome.exit 1, x.2.2.log (Event.stderr "Failed to exchange dest info"))
  | some slots =>
    match deref env 0 (slots.getD 0 Slot.uninit) with
    | none => (MainOutcome.fault, x.2.2)
    | some rem =>
      let c := pp_connect_ctx env x.2.2 0 user_param.ib_port (my_dest.getD 0 zero_dest).psn
        user_param.mtu user_param.sl rem user_param.gid_index
      if c.1 ≠ 0 then
        (MainOutcome.exit 1, c.2.log (Event.stderr "client failed to connect to server"))
      else
        let r := env.read x.2.1 1
        let w1 := c.2.log (Event.read x.2.1 r.1)
        if r.1 ≠ READY_MSG.length then
          (MainOutcome.cleanup, w1.log (Event.stderr "client failed to read server msg"))
        else (MainOutcome.running, w1.log (Event.close x.2.1))

/-- One result of `ibv_poll_cq(cq, 1, wc)`: the return value and `wc->status`
(0 is `IBV_WC_SUCCESS`). -/
structure PollResult where
  ne : Int
  status : Nat
deriving DecidableEq

/-- How the completion loop of the server stands after a sequence of poll results. -/
inductive LoopResult where
  | exited (ne_count : Int) (rest : List PollResult)
  | returned (code : Int) (rest : List PollResult)
  | polling (ne_count : Int)
deriving DecidableEq

/-- Source: `main`, server role, the `do ... while` loop of lines 2077-2112 run on the poll
results `polls`, starting with the counter `ne_count`. `exited` is the loop condition turning
false, `returned` a `return 1` inside the loop, `polling` a loop that has consumed all given
results and is still running. -/
def server_poll_loop (num_of_nodes : Nat) (iters : Int) :
    List PollResult → Int → LoopResult
  | [], ne_count => LoopResult.polling ne_count
  | p :: ps, ne_count =>
    if p.ne < 0 then LoopResult.returned 1 ps
    else if p.ne > 0 ∧ p.status ≠ 0 then LoopResult.returned 1 ps
    else
      let c1 := ne_count + p.ne
      let c2 := c1 + p.ne
      if c2 < (num_of_nodes : Int) * iters + num_of_nodes then
        server_poll_loop num_of_nodes iters ps c2
      else LoopResult.exited c2 ps

/-! ## The local descriptors `main` builds -/

/-- The values of `enum ibv_link_layer`. -/
inductive ibv_link_layer where
  | IBV_LINK_LAYER_UNSPECIFIED | IBV_LINK_LAYER_INFINIBAND | IBV_LINK_LAYER_ETHERNET
deriving DecidableEq

/-- The fields of `struct ibv_port_attr` that `pp_get_local_lid` reads. -/
structure ibv_port_attr where
  link_layer : ibv_link_layer
  lid : Nat
deriving DecidableEq

/-- Source: `pp_get_local_lid` (lines 56-74), given the return value of `ibv_query_port` and
the port attributes it delivers: `none` is the return value 1, `some lid` the return value 0
with `*lid` written. -/
def pp_get_local_lid (query : Int × ibv_port_attr) : Option Nat :=
  if query.1 ≠ 0 then none
  else if query.2.link_layer ≠ ibv_link_layer.IBV_LINK_LAYER_ETHERNET ∧ query.2.lid = 0 then none
  else some query.2.lid

/-- What the host answers while `main` builds its descriptors.
* `ibv_query_gid`: return value and the global address delivered.
* `temp_gid`: the indeterminate initial content of the local `temp_gid`.
* `ibv_query_port j`: return value and attributes of the port query made for `my_dest[j]`.
* `lrand48 j`: the value of the call made for `my_dest[j]`.
* `stack_mac j`: the indeterminate content of `my_dest[j].mac` for `j >= 1` (`memset` clears
  `my_dest[0]` only). -/
structure HostEnv where
  ibv_query_gid : Int × List Nat
  temp_gid : List Nat
  ibv_query_port : Nat → Int × ibv_port_attr
  lrand48 : Nat → Nat
  stack_mac : Nat → List Nat

/-- The assignments to `my_dest[j]` (lines 1942-1957 for `j = 0`, 1972-1980 for `j >= 1`);
`buf` is the index of the buffer and memory region advertised; `lid` was written by
`pp_get_local_lid`. -/
def fill_dest (h : HostEnv) (ctx : pingpong_context) (user_param : perftest_parameters)
    (temp_gid : List Nat) (j buf lid : Nat) (mac : List Nat) : pingpong_dest :=
  { lid := lid,
    qpn := ctx.qp_num.getD j 0 % 2 ^ 32,
    psn := h.lrand48 j % 2 ^ 24,
    vaddr := ctx.net_buf.getD buf 0 % 2 ^ 64,
    rkey := ctx.mr_rkey.getD buf 0 % 2 ^ 32,
    out_reads := (user_param.out_reads % 2 ^ 32).toNat,
    gid := temp_gid,
    mac := mac }

/-- The loop of lines 1965-1986 from member `j` on, `cnt` members to go: the descriptors built,
or `none` when a port query fails (`return 1`). -/
def more_dests (h : HostEnv) (ctx : pingpong_context) (user_param : perftest_parameters)
    (temp_gid : List Nat) : Nat → Nat → Option (List pingpong_dest)
  | 0, _ => some []
  | cnt + 1, j =>
    match pp_get_local_lid (h.ibv_query_port j) with
    | none => none
    | some lid =>
      match more_dests h ctx user_param temp_gid cnt (j + 1) with
      | none => none
      | some ds => some (fill_dest h ctx user_param temp_gid j j lid (h.stack_mac j) :: ds)

/-- Source: `main`, lines 1931-1987: the local descriptors `my_dest[0]` (client) or
`my_dest[0 .. num_of_nodes - 1]` (server), or the exit status when a query fails. -/
def main_build_dest (h : HostEnv) (ctx : pingpong_context) (user_param : perftest_parameters)
    (is_client : Bool) : Except Int (List pingpong_dest) :=
  if user_param.gid_index ≠ -1 ∧ h.ibv_query_gid.1 ≠ 0 then Except.error (-1)
  else
    let temp_gid := if user_param.gid_index ≠ -1 then h.ibv_query_gid.2 else h.temp_gid
    match pp_get_local_lid (h.ibv_query_port 0) with
    | none => Except.error 1
    | some lid =>
      let d0 := fill_dest h ctx user_param temp_gid 0 (if is_client then 1 else 0) lid
        (List.replicate 6 0)
      if is_client then Except.ok [d0]
      else
        match more_dests h ctx user_param temp_gid (user_param.num_of_nodes - 1) 1 with
        | none => Except.error 1
        | some ds => Except.ok (d0 :: ds)

/-! ## The benchmark loop of the client -/

/-- Source: `pp_post_send` (lines 1291-1329), the request it builds: a write of `ctx->size` bytes
of `net_buf[0]` to the address and key of the remote descriptor; `send_flags` is left zero. -/
def pp_post_send_wr (ctx : pingpong_context) (rem_dest : pingpong_dest) : ibv_send_wr :=
  { wr_id := PP_SEND_WRID,
    sg_list := [{ addr := ctx.net_buf.getD 0 0, length := (ctx.size % 2 ^ 32).toNat,
                  lkey := ctx.mr_lkey.getD 0 0 }],
    num_sge := 1,
    opcode := ibv_wr_opcode.IBV_WR_RDMA_WRITE_WITH_IMM,
    flags := { IBV_SEND_SIGNALED := false, IBV_SEND_WAIT_EN_LAST := false,
               IBV_SEND_VECTOR_CALC := false },
    wr := wr_union.rdma (rem_dest.vaddr % 2 ^ 64) (rem_dest.rkey % 2 ^ 32),
    vector_calc := zero_vector_calc }

/-- Source: `pp_post_send`: the post on `ctx->qp[0]`; the return value is that of
`ibv_post_send`. -/
def pp_post_send (env : Env) (w : World) (ctx : pingpong_context) (rem_dest : pingpong_dest) :
    Int × World :=
  ibv_post_send env w 0 (pp_post_send_wr ctx rem_dest)

/-- The event of one call `ibv_poll_cq(ctx->cq, 1, wc)`. -/
def poll_event (p : PollResult) : Event := Event.poll_cq p.ne p.status

/-- How the inner `do ... while (comp_count < 1)` loop of the client stands after the given poll
results: it was left with a completion, `main` returned inside it, or it consumed all results
given and is still polling. -/
inductive PollLoop where
  | got (comp_count : Int)
  | returned (code : Int)
  | polling
deriving DecidableEq

/-- Source: `main`, client role, the loop of lines 2128-2148 run on the poll results `polls`.
Returns how the loop stands, the poll results not consumed and the world. -/
def client_poll_loop : List PollResult → World → PollLoop × List PollResult × World
  | [], w => (PollLoop.polling, [], w)
  | p :: ps, w =>
    if p.ne < 0 then
      (PollLoop.returned 1, ps, ((w.log (poll_event p)).log (Event.stderr "poll CQ failed")))
    else if p.ne > 0 ∧ p.status ≠ 0 then
      (PollLoop.returned 1, ps,
        ((w.log (poll_event p)).log (Event.stderr "poll CQ returned with an error")))
    else if p.ne < 1 then client_poll_loop ps (w.log (poll_event p))
    else (PollLoop.got p.ne, ps, w.log (poll_event p))

/-- How the benchmark loop of the client stands: all iterations done, `main` returned inside the
loop, or all poll results given are consumed and the loop is still polling. -/
inductive ClientLoop where
  | finished
  | returned (code : Int)
  | polling
deriving DecidableEq

/-- Source: `main`, client role, the loop of lines 2121-2150 with `n` iterations to go. The
counter `ne_count` is only printed and is left out. -/
def client_loop (env : Env) (ctx : pingpong_context) (rem_dest : pingpong_dest) :
    Nat → List PollResult → World → ClientLoop × List PollResult × World
  | 0, polls, w => (ClientLoop.finished, polls, w)
  | n + 1, polls, w =>
    if (pp_post_send env w ctx rem_dest).1 ≠ 0 then
      (ClientLoop.returned 1, polls,
        (pp_post_send env w ctx rem_dest).2.log (Event.stderr "Couldn't post send"))
    else
      match client_poll_loop polls (pp_post_send env w ctx rem_dest).2 with
      | (PollLoop.got _, rest, w1) => client_loop env ctx rem_dest n rest w1
      | (PollLoop.returned code, rest, w1) => (ClientLoop.returned code, rest, w1)
      | (PollLoop.polling, rest, w1) => (ClientLoop.polling, rest, w1)

/-- Source: `main`, client role, lines 2119-2150: `user_param.iters` iterations. -/
def main_client_loop (env : Env) (ctx : pingpong_context) (rem_dest : pingpong_dest)
    (iters : Int) (polls : List PollResult) (w : World) :
    ClientLoop × List PollResult × World :=
  client_loop env ctx rem_dest iters.toNat polls w

/-- Poll results that delivered nothing (`ibv_poll_cq` returned 0). -/
def empty_polls (zs : List PollResult) : Prop := ∀ z ∈ zs, z.ne = 0

/-- The poll results of one complete cycle: polls that delivered nothing, then one poll that
delivered a completion with status success. Called with one entry, `ibv_poll_cq` delivers at
most one completion. -/
def good_cycle (c : List PollResult) : Prop :=
  ∃ zs p, c = zs ++ [p] ∧ empty_polls zs ∧ 1 ≤ p.ne ∧ p.status = 0

/-- A poll that makes the client give up: the call failed, or it delivered a completion whose
status is not success. -/
def failed_poll (p : PollResult) : Prop := p.ne < 0 ∨ (0 < p.ne ∧ p.status ≠ 0)

/-- The calls of one complete cycle: the accepted post, then the polls. -/
def cycle_events (ctx : pingpong_context) (rem_dest : pingpong_dest) (c : List PollResult) :
    List Event :=
  Event.post_send 0 (pp_post_send_wr ctx rem_dest) 0 :: c.map poll_event

/-- The posts of work requests. -/
def is_post : Event → Bool
  | Event.post_send _ _ _ => true
  | _ => false

/-! ## The option parser -/

/-- Source: `#define DEF_ITERS (1000)`. -/
def DEF_ITERS : Int := 1000

/-- Values of `enum ibv_mtu` in `infiniband/verbs.h`. -/
def IBV_MTU_256 : Nat := 1
def IBV_MTU_512 : Nat := 2
def IBV_MTU_1024 : Nat := 3
def IBV_MTU_2048 : Nat := 4
def IBV_MTU_4096 : Nat := 5

/-- The largest calc opcode, operand type and operand size; the usage text of the program
(`-c`: "7-swap endian", `-t`: "2-float", `-w`: "1-8Bytes") gives their values. -/
def IBV_CALC_OP_SWAP_ENDIAN : Int := 7
def IBV_CALC_OPERAND_TYPE_FLOAT : Int := 2
def IBV_CALC_OPERAND_SIZE_64_BIT : Int := 1

/-- The value is representable in an `int`. -/
def int_ok (v : Int) : Prop := -2 ^ 31 ≤ v ∧ v < 2 ^ 31

instance (v : Int) : Decidable (int_ok v) := by
  unfold int_ok; infer_instance

/-- The conversion of the `long` result of `strtol` to `int` (the value modulo `2 ^ 32`). -/
def to_int (v : Int) : Int := (v + 2 ^ 31) % 2 ^ 32 - 2 ^ 31

/-- The 32-bit pattern of an object of enumerated type that is assigned the value `v`. -/
def to_enum (v : Int) : Nat := (v % 2 ^ 32).toNat

/-- The value of an object of enumerated type in a comparison; `enum_signed` tells whether the
implementation represents the enumerated types by `int` or by `unsigned int`. -/
def enum_val (enum_signed : Bool) (e : Nat) : Int :=
  if enum_signed ∧ 2 ^ 31 ≤ e then (e : Int) - 2 ^ 32 else (e : Int)

/-- Source: `pp_mtu_to_enum` (lines 44-54). -/
def pp_mtu_to_enum (mtu : Int) : Nat :=
  if mtu = 256 then IBV_MTU_256
  else if mtu = 512 then IBV_MTU_512
  else if mtu = 1024 then IBV_MTU_1024
  else if mtu = 2048 then IBV_MTU_2048
  else if mtu = 4096 then IBV_MTU_4096
  else to_enum (-1)

/-- One result of `getopt_long` with the option string of line 1622: the option character, with
the value `strtol(optarg, NULL, 0)` for the options whose argument the parser converts; `other`
is every other return value (an unknown option, a missing argument). -/
inductive Opt where
  | p (v : Int) | d | i (v : Int) | s (v : Int) | m (v : Int) | r (v : Int) | n (v : Int)
  | l (v : Int) | v | V | e | g (v : Int) | t (v : Int) | w (v : Int) | o (v : Int) | c (v : Int)
  | other
deriving DecidableEq

/-- The local variables of `parser` (lines 1565-1588). -/
structure parser_locals where
  port : Int
  ib_port : Int
  size : Int
  gid_index : Int
  mtu : Nat
  rx_depth : Int
  iters : Int
  use_event : Int
  sl : Int
  mqe_poll : Int
  verbose : Int
  verify : Int
  calc_data_type : Nat
  calc_opcode : Nat
  calc_data_size : Nat
  vector_count : Int
deriving DecidableEq

/-- The initial values of the local variables of `parser`. -/
def parser_init : parser_locals :=
  { port := 18515, ib_port := 1, size := 4096, gid_index := -1, mtu := IBV_MTU_1024,
    rx_depth := 8000, iters := DEF_ITERS, use_event := 0, sl := 0, mqe_poll := 0, verbose := 0,
    verify := 0, calc_data_type := 0, calc_opcode := IBV_CALC_OP_NA, calc_data_size := 0,
    vector_count := 2 }

/-- How one round of the option loop ends: it goes on, `parser` returns, or the behaviour is
undefined (signed overflow in `iters * 2`). -/
inductive ParserStep where
  | go (l : parser_locals)
  | ret (code : Int)
  | undefined
deriving DecidableEq

/-- Source: `parser`, the `switch` of lines 1626-1727. The allocation for `-d` is taken to
succeed; the device name is not modelled. -/
def parser_case (enum_signed : Bool) (l : parser_locals) : Opt → ParserStep
  | Opt.p v =>
    if to_int v < 0 ∨ to_int v > 65535 then ParserStep.ret 1
    else ParserStep.go { l with port := to_int v }
  | Opt.d => ParserStep.go l
  | Opt.i v =>
    if to_int v < 0 then ParserStep.ret 1 else ParserStep.go { l with ib_port := to_int v }
  | Opt.s v => ParserStep.go { l with size := to_int v }
  | Opt.m v =>
    if enum_val enum_signed (pp_mtu_to_enum (to_int v)) < 0 then ParserStep.ret 1
    else ParserStep.go { l with mtu := pp_mtu_to_enum (to_int v) }
  | Opt.r v => ParserStep.go { l with rx_depth := to_int v }
  | Opt.n v =>
    if ¬ int_ok (to_int v * 2) then ParserStep.undefined
    else if to_int v * 2 > l.rx_depth then ParserStep.ret (-1)
    else ParserStep.go { l with iters := to_int v }
  | Opt.l v => ParserStep.go { l with sl := to_int v }
  | Opt.v => ParserStep.go { l with verbose := 1 }
  | Opt.V => ParserStep.go { l with verify := 1 }
  | Opt.e => ParserStep.go { l with use_event := l.use_event + 1 }
  | Opt.g v => ParserStep.go { l with gid_index := to_int v }
  | Opt.t v =>
    if enum_val enum_signed (to_enum v) > IBV_CALC_OPERAND_TYPE_FLOAT then ParserStep.ret 1
    else ParserStep.go { l with calc_data_type := to_enum v }
  | Opt.w v =>
    if enum_val enum_signed (to_enum v) > IBV_CALC_OPERAND_SIZE_64_BIT then ParserStep.ret 1
    else ParserStep.go { l with calc_data_size := to_enum v }
  | Opt.o v => ParserStep.go { l with vector_count := to_int v }
  | Opt.c v =>
    if enum_val enum_signed (to_enum v) > IBV_CALC_OP_SWAP_ENDIAN then ParserStep.ret 1
    else ParserStep.go { l with calc_opcode := to_enum v }
  | Opt.other => ParserStep.ret 1

/-- Source: `parser`, the loop of lines 1598-1728 over the results of `getopt_long`. -/
def parser_loop (enum_signed : Bool) : List Opt → parser_locals → ParserStep
  | [], l => ParserStep.go l
  | o :: os, l =>
    match parser_case enum_signed l o with
    | ParserStep.go l1 => parser_loop enum_signed os l1
    | ParserStep.ret code => ParserStep.ret code
    | ParserStep.undefined => ParserStep.undefined

/-- How `parser` ends: it returns `SUCCESS` having filled in the parameters, it returns an error
code, or its behaviour is undefined. -/
inductive ParserResult where
  | SUCCESS (user_param1 : perftest_parameters)
  | error (code : Int)
  | undefined
deriving DecidableEq

/-- Source: `parser` (lines 1563-1756) on the option sequence `opts`. Every modelled field that
`init_perftest_params` sets is assigned again in lines 1733-1753. -/
def parser (enum_signed : Bool) (user_param1 : perftest_parameters) (opts : List Opt) :
    ParserResult :=
  match parser_loop enum_signed opts parser_init with
  | ParserStep.ret code => ParserResult.error code
  | ParserStep.undefined => ParserResult.undefined
  | ParserStep.go l =>
    if ¬ int_ok (2 * l.iters) then ParserResult.undefined
    else
      ParserResult.SUCCESS
        { user_param1 with
          port := l.port, ib_port := l.ib_port, size := (l.size % 2 ^ 64).toNat, mtu := l.mtu,
          rx_depth := l.rx_depth, iters := l.iters, tx_depth := 2 * l.iters, sl := l.sl,
          use_event := l.use_event, verbose := l.verbose, verify := l.verify,
          calc_data_type := l.calc_data_type, calc_data_size := l.calc_data_size,
          calc_opcode := l.calc_opcode, vector_count := (l.vector_count % 256).toNat,
          mqe_poll := l.mqe_poll, gid_index := l.gid_index }

/-- The parameters of an accepted option sequence. -/
def ParserResult.accepted : ParserResult → Option perftest_parameters
  | ParserResult.SUCCESS up => some up
  | _ => none

/-- The content of `user_param` when `main` calls `parser` (lines 1797-1805): cleared, with
`num_of_nodes = 2`. -/
def main_user_param : perftest_parameters :=
  { port := 0, num_of_nodes := 2, ib_port := 0, mtu := 0, size := 0, iters := 0, sl := 0,
    gid_index := 0 }

/-- Source: `struct ibv_qp_cap`, the capacities of a queue pair (32-bit fields). -/
structure ibv_qp_cap where
  max_send_wr : Nat
  max_recv_wr : Nat
  max_send_sge : Nat
  max_recv_sge : Nat
deriving DecidableEq

/-- The capacities `pp_init_ctx_server` (lines 1049-1055) and `pp_init_ctx` (lines 859-865)
request for every queue pair they create. -/
def qp_cap (tx_depth rx_depth : Int) : ibv_qp_cap :=
  { max_send_wr := (tx_depth % 2 ^ 32).toNat, max_recv_wr := (rx_depth % 2 ^ 32).toNat,
    max_send_sge := 1, max_recv_sge := 1 }

/-- Source: `pp_init_ctx_server`, lines 949-956: what the function stores of its arguments in
the context. -/
def pp_init_ctx_server_store (ctx : pingpong_context) (size : Int)
    (calc_op calc_data_type calc_data_size vector_count : Nat) : pingpong_context :=
  { ctx with
    size := size,
    calc_op := { opcode := calc_op, operand_type := calc_data_type,
                 operand_size := calc_data_size, vector_count := vector_count % 256 } }

/-- Source: `main`, lines 1870-1875: the arguments of `pp_init_ctx_server` that end up in the
context. -/
def main_init_server_ctx (user_param : perftest_parameters) (ctx : pingpong_context) :
    pingpong_context :=
  pp_init_ctx_server_store ctx (to_int user_param.size) user_param.calc_opcode
    user_param.calc_data_type user_param.calc_data_size user_param.vector_count

/-! ## Initialisation of the context -/

/-- The answers of the allocator and of the verbs library during initialisation; `true` is an
object delivered, `false` is `NULL`.
* `memalign k`: the `k`-th call of `memalign` (0 is `buf_for_calc_operands`, `1 + i` is
  `net_buf[i]`).
* `ibv_reg_mr i`, `ibv_create_cq_ex i`, `ibv_create_qp i`: the calls for ring index `i`.
* `ibv_create_cq`: the creation of `ctx->cq` (client) or `ctx->tx_cq` (server).
* `ibv_modify_qp i`: the return value of the modify of `qp[i]` to INIT. -/
structure InitEnv where
  memalign : Nat → Bool
  ibv_open_device : Bool
  ibv_create_comp_channel : Bool
  ibv_alloc_pd : Bool
  ibv_alloc_td : Bool
  ibv_alloc_parent_domain : Bool
  ibv_reg_mr : Nat → Bool
  ibv_create_cq : Bool
  ibv_create_cq_ex : Nat → Bool
  ibv_create_qp : Nat → Bool
  ibv_modify_qp : Nat → Int

/-- The labels of the cleanup ladders of `pp_init_ctx` and `pp_init_ctx_server`. -/
inductive CleanupLabel where
  | clean_qp | clean_cq | clean_mr | clean_pd2 | clean_pd1 | clean_pd | clean_comp_channel
  | clean_device | clean_net_buf | clean_buffer | clean_ctx
deriving DecidableEq

/-- How an initialisation function ends: it returns a status, or the process is stopped in the
cleanup ladder. -/
inductive InitResult where
  | returned (code : Int)
  | fault
deriving DecidableEq

/-- The end of an initialisation function and the label it jumped to (`none` when every step
succeeded). -/
structure InitOutcome where
  result : InitResult
  failed_at : Option CleanupLabel
deriving DecidableEq

/-- Source: `pp_init_ctx`, the cleanup ladder of lines 895-916 entered at `l`: every statement
of the ladder frees or destroys an object acquired before the jump, and the ladder ends with
`return 0`. -/
def client_cleanup (l : CleanupLabel) : InitOutcome :=
  { result := InitResult.returned 0, failed_at := some l }

/-- Source: `pp_init_ctx` (lines 746-917). -/
def pp_init_ctx (e : InitEnv) (use_event : Int) : InitOutcome :=
  if !e.memalign 0 then client_cleanup CleanupLabel.clean_ctx
  else if !e.memalign 1 then client_cleanup CleanupLabel.clean_buffer
  else if !e.memalign 2 then client_cleanup CleanupLabel.clean_buffer
  else if !e.ibv_open_device then client_cleanup CleanupLabel.clean_net_buf
  else if use_event ≠ 0 ∧ !e.ibv_create_comp_channel then
    client_cleanup CleanupLabel.clean_device
  else if !e.ibv_alloc_pd then client_cleanup CleanupLabel.clean_comp_channel
  else if !e.ibv_reg_mr 0 then client_cleanup CleanupLabel.clean_pd
  else if !e.ibv_reg_mr 1 then client_cleanup CleanupLabel.clean_pd
  else if !e.ibv_create_cq then client_cleanup CleanupLabel.clean_mr
  else if !e.ibv_create_qp 0 then client_cleanup CleanupLabel.clean_cq
  else if e.ibv_modify_qp 0 ≠ 0 then client_cleanup CleanupLabel.clean_qp
  else { result := InitResult.returned 0, failed_at := none }

/-- Source: `pp_init_ctx_server`, the cleanup ladder of lines 1122-1149 (`CALC_SUPPORT` is
defined) entered at `l`. Entered at `clean_buffer` or `clean_ctx` it frees the work buffer and
the context and ends with `return 0` (line 1178). Entered further up it reaches
`free(ctx->net_buf)`, whose argument is the address of an array inside the context block and
not a pointer obtained from the allocator. -/
def server_cleanup (l : CleanupLabel) : InitOutcome :=
  { result :=
      if l = CleanupLabel.clean_buffer ∨ l = CleanupLabel.clean_ctx then InitResult.returned 0
      else InitResult.fault,
    failed_at := some l }

/-- Source: `pp_init_ctx_server` (lines 928-1179), `num_of_nodes` being
`user_param.num_of_nodes`. -/
def pp_init_ctx_server (e : InitEnv) (use_event : Int) (num_of_nodes : Nat) : InitOutcome :=
  if !e.memalign 0 then server_cleanup CleanupLabel.clean_ctx
  else if (List.range num_of_nodes).any (fun i => !e.memalign (1 + i)) then
    server_cleanup CleanupLabel.clean_buffer
  else if !e.ibv_open_device then server_cleanup CleanupLabel.clean_net_buf
  else if use_event ≠ 0 ∧ !e.ibv_create_comp_channel then
    server_cleanup CleanupLabel.clean_device
  else if !e.ibv_alloc_pd then server_cleanup CleanupLabel.clean_comp_channel
  else if !e.ibv_alloc_td then server_cleanup CleanupLabel.clean_pd1
  else if !e.ibv_alloc_parent_domain then server_cleanup CleanupLabel.clean_pd2
  else if (List.range num_of_nodes).any (fun i => !e.ibv_reg_mr i) then
    server_cleanup CleanupLabel.clean_pd
  else if !e.ibv_create_cq then server_cleanup CleanupLabel.clean_mr
  else
    match (List.range num_of_nodes).find?
        (fun i => !e.ibv_create_cq_ex i || !e.ibv_create_qp i) with
    | some i =>
      if !e.ibv_create_cq_ex i then server_cleanup CleanupLabel.clean_mr
      else server_cleanup CleanupLabel.clean_cq
    | none =>
      if (List.range num_of_nodes).any (fun i => decide (e.ibv_modify_qp i ≠ 0)) then
        server_cleanup CleanupLabel.clean_qp
      else { result := InitResult.returned 0, failed_at := none }

/-- Source: `main`, lines 1858-1879: the call of the initialisation function of the role and the
check `if (ret) return 1`. `MainOutcome.running` stands for `main` going on to `pp_post_recv`. -/
def main_init (e : InitEnv) (is_client : Bool) (use_event : Int) (num_of_nodes : Nat) :
    MainOutcome :=
  match (if is_client then pp_init_ctx e use_event
         else pp_init_ctx_server e use_event num_of_nodes).result with
  | InitResult.returned code => if code ≠ 0 then MainOutcome.exit 1 else MainOutcome.running
  | InitResult.fault => MainOutcome.fault

/-- The result is the return value 0 or the process was stopped. -/
def zero_or_fault (o : InitOutcome) : Bool :=
  match o.result with
  | InitResult.returned code => decide (code = 0)
  | InitResult.fault => true

/-- The events of posting a list of requests in order, the transport answering the calls number
`p`, `p + 1`, ...: every post with the answer it got and, after the first rejected one, the
error message and nothing more. -/
def post_run (env : Env) : List (Nat × ibv_send_wr × Bool) → Nat → List Event
  | [], _ => []
  | e :: l, p =>
    Event.post_send e.1 e.2.1 (env.ibv_post_send p e.1 e.2.1) ::
      (if env.ibv_post_send p e.1 e.2.1 ≠ 0 then [Event.stderr (post_error e.2.2)]
       else post_run env l (p + 1))

/-- The requests the send queue of member `q` received: those of the accepted posts on
`ctx->qp[q]`, in the order of the calls. -/
def queue_posts (q : Nat) (l : List Event) : List ibv_send_wr :=
  l.filterMap (fun e =>
    match e with
    | Event.post_send qp wr ret => if qp = q ∧ ret = 0 then some wr else none
    | _ => none)

/-- The posts on the send queue of member `q`, whatever the transport answered. -/
def posts_on (q : Nat) : Event → Bool
  | Event.post_send qp _ _ => decide (qp = q)
  | _ => false

/-- World `w1` continues world `w` by events that all satisfy `P`. -/
def extends_by (P : Event → Prop) (w w1 : World) : Prop :=
  ∃ ev, w1.trace = w.trace ++ ev ∧ ∀ e ∈ ev, P e

/-- An event that is not a write, or is the write to the control connection of a ring member
`k < N` of the record `pp_server_exch_dest` builds for that member. -/
def write_back_of (env : Env) (my_dest : List pingpong_dest) (connfd : List Int) (N : Nat) :
    Event → Prop
  | Event.write fd data _ =>
    ∃ k, k < N ∧ fd = connfd.getD k (-1) ∧ data = server_record env my_dest k
  | _ => True

/-! ## Concrete inputs used by the witnesses and counterexamples -/

/-- A valid descriptor. -/
def exD : pingpong_dest :=
  { lid := 0x1a, out_reads := 1, qpn := 0x2b3c, psn := 0xabcdef, rkey := 0xdeadbeef,
    vaddr := 0x7f0012345678,
    gid := [0xfe, 0x80, 0, 0, 0, 0, 0, 0, 2, 0x1a, 0x4b, 0xff, 0xfe, 1, 2, 3],
    mac := [0, 0, 0, 0, 0, 0] }

/-- The content of a freshly allocated descriptor in the examples. -/
def junkD : pingpong_dest :=
  { lid := 0x5151, out_reads := 0x5252, qpn := 0x5353, psn := 0x5454, rkey := 0x5555,
    vaddr := 0x5656, gid := [], mac := [7, 7, 7, 7, 7, 7] }

/-- A record with only two of the seven fields, padded with NUL to `KEY_GID_MSG_SIZE` bytes. -/
def shortRecord : List Char :=
  ['0', '0', '0', '1', ':', '0', '0', '0', '2'] ++ List.replicate 74 '\x00'

/-- An environment in which every call succeeds and every read on a socket delivers `rec`
(83 bytes reported). -/
def envAllOk (rec : List Char) : Env :=
  { le := true, asprintf := 0, getaddrinfo := 0, sockfd := 3,
    accept := fun k => 4 + k,
    read := fun _ n => if n = 0 then (83, rec) else (6, READY_MSG),
    write := fun _ _ data => data.length,
    malloc_dest := fun _ => some junkD,
    v32 := fun _ => 0, stack_gid := List.replicate 33 '\x00',
    wild := fun _ => none,
    ibv_modify_qp := fun _ _ => 0,
    ibv_post_send := fun _ _ _ => 0 }

/-- The world when the modelled part of `main` starts: nothing traced, `n` queue pairs in state
INIT, nothing posted. -/
def world0 (n : Nat) : World :=
  { trace := [], qp_state := List.replicate n ibv_qp_state.IBV_QPS_INIT, posted := 0 }

/-- A ring context of two members. -/
def ctx2 : pingpong_context :=
  { net_buf := [0x1000, 0x2000], mr_lkey := [0x11, 0x22], rx_cq := [100, 101],
    calc_op := { opcode := IBV_CALC_OP_NA, operand_type := 0, operand_size := 0,
                 vector_count := 2 } }

/-- Parameters of a run with `n` ring members and `iters` iterations. -/
def params (n : Nat) (iters : Int) : perftest_parameters :=
  { port := 18515, num_of_nodes := n, ib_port := 1, mtu := 3, size := 4096, iters := iters,
    sl := 0, gid_index := -1 }

/-- The client's write of its descriptor fails; a read through the never assigned entry of the
pointer array yields `wild`. -/
def envClientWriteFails (wild : Option pingpong_dest) : Env :=
  { envAllOk (serialize true exD) with write := fun _ _ _ => -1, wild := fun _ => wild }

/-- The first ring member (descriptor 4) sends a valid record; the second (descriptor 5) closes
its connection, so the read on it returns 0. A read through a never assigned entry of the pointer
array yields `wild`. -/
def envSecondReadFails (wild : Option pingpong_dest) : Env :=
  { envAllOk (serialize true exD) with
    read := fun fd n => if fd = 4 then (if n = 0 then (83, serialize true exD) else (5, DONE_MSG))
      else (0, []),
    wild := fun _ => wild }

/-- The transport rejects the sixth `ibv_post_send` call (call number 5) and accepts the
others. -/
def envRejectSixthPost : Env :=
  { envAllOk [] with ibv_post_send := fun n _ _ => if n = 5 then 22 else 0 }

/-- Three clients C, A and B whose control connections are accepted in this order, as
descriptors 7, 5 and 6. The record of C carries lid `0xc`, that of A lid `0xa`, that of B lid
`0xb`. -/
def envCAB : Env :=
  { envAllOk [] with
    accept := fun k => if k = 0 then 7 else if k = 1 then 5 else 6,
    read := fun fd n =>
      if n = 0 then
        (83, serialize true { exD with lid := if fd = 7 then 0xc else if fd = 5 then 0xa else 0xb })
      else (5, DONE_MSG) }

/-- Every read of an acknowledgment fails (returns -1); everything else succeeds. -/
def envAckFails : Env :=
  { envAllOk [] with
    read := fun _ n => if n = 0 then (83, serialize true exD) else (-1, []) }

/-- The transport rejects the RTS modify of queue pair 1; everything else succeeds. -/
def envRtsFails : Env :=
  { envAllOk (serialize true exD) with
    ibv_modify_qp := fun qp attr =>
      if qp = 1 ∧ attr.qp_state = ibv_qp_state.IBV_QPS_RTS then 22 else 0 }

/-- No listening socket can be set up (every `socket` or `bind` fails); everything else would
succeed. -/
def envNoListen : Env := { envAllOk (serialize true exD) with sockfd := -1 }

/-- A ring context of two members with the calc opcode 1 and a vector count of 4. -/
def ctx2Calc : pingpong_context :=
  { ctx2 with calc_op := { opcode := 1, operand_type := 0, operand_size := 0,
                            vector_count := 4 } }

/-- A host whose port has an Ethernet link layer (LID 0), whose `lrand48` returns `2 ^ 24`, and
whose never assigned `temp_gid` holds zero bytes. -/
def hostEthernet : HostEnv :=
  { ibv_query_gid := (0, List.replicate 16 0),
    temp_gid := List.replicate 16 0,
    ibv_query_port := fun _ =>
      (0, { link_layer := ibv_link_layer.IBV_LINK_LAYER_ETHERNET, lid := 0 }),
    lrand48 := fun _ => 2 ^ 24,
    stack_mac := fun _ => List.replicate 6 0 }

/-- A ring context of two members with queue-pair numbers and remote keys. -/
def ctx2Local : pingpong_context :=
  { ctx2 with mr_rkey := [0x33, 0x44], qp_num := [0x105, 0x106] }

/-- A host whose port has an InfiniBand link layer with LID 7 and whose GID table entry is the
global address of `exD`. -/
def hostInfiniband : HostEnv :=
  { ibv_query_gid := (0, exD.gid),
    temp_gid := List.replicate 16 0,
    ibv_query_port := fun _ =>
      (0, { link_layer := ibv_link_layer.IBV_LINK_LAYER_INFINIBAND, lid := 7 }),
    lrand48 := fun j => 0x5123456 + j,
    stack_mac := fun _ => List.replicate 6 0 }

/-- The second descriptor the server builds on `hostInfiniband` with GID index 0. -/
def exLocal1 : pingpong_dest :=
  { lid := 7, out_reads := 0, qpn := 0x106, psn := 0x123457, rkey := 0x44, vaddr := 0x2000,
    gid := exD.gid, mac := List.replicate 6 0 }

/-- A second valid descriptor; it differs from `exD` in every transported field. -/
def exD2 : pingpong_dest :=
  { lid := 0x2b, out_reads := 2, qpn := 0x2b3d, psn := 0x123456, rkey := 0xfeedbeef,
    vaddr := 0x7f0012349000,
    gid := [0xfe, 0x80, 0, 0, 0, 0, 0, 0, 2, 0x1a, 0x4b, 0xff, 0xfe, 9, 9, 9],
    mac := [0, 0, 0, 0, 0, 0] }

/-- A descriptor whose global address has a subnet prefix (bytes 0 to 7) that is not zero and an
interface identifier (bytes 8 to 15) that is zero. -/
def exPrefixOnly : pingpong_dest :=
  { exD with gid := [0xfe, 0x80, 0, 0, 0, 0, 0, 0, 0, 0, 0, 0, 0, 0, 0, 0] }

/-- The context of a client with a payload of 4096 bytes. -/
def ctxClient : pingpong_context := { ctx2 with size := 4096 }

/-- Poll results of three complete cycles: the first completion arrives at the second poll, the
second at once, the third at the third poll. -/
def polls3 : List (List PollResult) :=
  [[⟨0, 0⟩, ⟨1, 0⟩], [⟨1, 0⟩], [⟨0, 5⟩, ⟨0, 0⟩, ⟨1, 0⟩]]

/-- Every allocation and every verbs call of the initialisation succeeds. -/
def initAllOk : InitEnv :=
  { memalign := fun _ => true, ibv_open_device := true, ibv_create_comp_channel := true,
    ibv_alloc_pd := true, ibv_alloc_td := true, ibv_alloc_parent_domain := true,
    ibv_reg_mr := fun _ => true, ibv_create_cq := true, ibv_create_cq_ex := fun _ => true,
    ibv_create_qp := fun _ => true, ibv_modify_qp := fun _ => 0 }

/-- The first allocation (the work buffer) fails. -/
def initNoMemory : InitEnv := { initAllOk with memalign := fun _ => false }

/-- The device cannot be opened. -/
def initNoDevice : InitEnv := { initAllOk with ibv_open_device := false }

/-- The transport rejects the transition of the queue pairs to INIT. -/
def initModifyFails : InitEnv := { initAllOk with ibv_modify_qp := fun _ => 22 }

/-- The transport rejects the `ibv_post_send` call number `n` and accepts the others. -/
def envRejectPost (n : Nat) : Env :=
  { envAllOk [] with ibv_post_send := fun m _ _ => if m = n then 22 else 0 }

/-! ## Facts about hexadecimal text -/

theorem hexChar_facts : ∀ d, d < 16 →
    hexVal (hexChar d) = some d ∧ isSpace (hexChar d) = false ∧ hexChar d ≠ '-' ∧
      hexChar d ≠ '+' ∧ hexChar d ≠ 'x' ∧ hexChar d ≠ 'X' ∧ hexChar d ≠ '\x00' := by
  decide

theorem hexLen_le (fuel : Nat) : ∀ (w n : Nat), 1 ≤ w → n < 16 ^ w → hexLen fuel n ≤ w := by
  induction fuel with
  | zero => intro w n hw _; simpa [hexLen] using hw
  | succ f ih =>
    intro w n hw hn
    unfold hexLen
    split
    · exact hw
    · rename_i h16
      obtain ⟨w1, rfl⟩ : ∃ w1, w = w1 + 1 := ⟨w - 1, by omega⟩
      have hw1 : 1 ≤ w1 := by
        rcases Nat.eq_zero_or_pos w1 with h0 | h0
        · subst h0; simp at hn; omega
        · exact h0
      have : n / 16 < 16 ^ w1 := by
        rw [Nat.div_lt_iff_lt_mul (by norm_num)]
        rw [pow_succ] at hn; exact hn
      have := ih w1 (n / 16) hw1 this
      omega

theorem fmt_0wx_eq (w n : Nat) (hw : 1 ≤ w) (hn : n < 16 ^ w) : fmt_0wx w n = fixedHex w n := by
  unfold fmt_0wx
  rw [Nat.max_eq_left (hexLen_le 16 w n hw hn)]

theorem fixedHex_length (k n : Nat) : (fixedHex k n).length = k := by
  induction k with
  | zero => rfl
  | succ k ih => simp [fixedHex, ih]

theorem scanDigits_fixedHex (k : Nat) : ∀ (n acc cnt : Nat) (rest : List Char),
    scanDigits k (fixedHex k n ++ rest) acc cnt = (acc * 16 ^ k + n % 16 ^ k, cnt + k, rest) := by
  induction k with
  | zero => intro n acc cnt rest; simp [scanDigits, fixedHex, Nat.mod_one]
  | succ k ih =>
    intro n acc cnt rest
    have hd := (hexChar_facts (n / 16 ^ k % 16) (Nat.mod_lt _ (by norm_num))).1
    have h2 : n % 16 ^ (k + 1) = (n / 16 ^ k % 16) * 16 ^ k + n % 16 ^ k := by
      rw [pow_succ, Nat.mod_mul, Nat.mul_comm]; omega
    have h3 : (acc * 16 + n / 16 ^ k % 16) * 16 ^ k + n % 16 ^ k
        = acc * 16 ^ (k + 1) + n % 16 ^ (k + 1) := by
      rw [h2, pow_succ]; ring
    have h4 : cnt + 1 + k = cnt + (k + 1) := by omega
    simp only [fixedHex, List.cons_append, scanDigits, hd]
    have h5 := ih n (acc * 16 + n / 16 ^ k % 16) (cnt + 1) rest
    rw [h3, h4] at h5
    exact h5

theorem scan_x_fixedHex (k bits n : Nat) (rest : List Char) (hb : 16 ^ (k + 2) ≤ 2 ^ bits) :
    scan_x (k + 2) bits (fixedHex (k + 2) n ++ rest) = some (n % 16 ^ (k + 2), rest) := by
  have hs := scanDigits_fixedHex (k + 2) n 0 0 rest
  obtain ⟨-, h0s, h0m, h0p, -, -, -⟩ :=
    hexChar_facts (n / 16 ^ (k + 1) % 16) (Nat.mod_lt _ (by norm_num))
  obtain ⟨-, -, -, -, h1x, h1X, -⟩ := hexChar_facts (n / 16 ^ k % 16) (Nat.mod_lt _ (by norm_num))
  have hlt : n % 16 ^ (k + 2) < 2 ^ bits := lt_of_lt_of_le (Nat.mod_lt _ (by positivity)) hb
  simp only [fixedHex, List.cons_append] at hs ⊢
  unfold scan_x
  simp only [List.dropWhile_cons, h0s, h0m, h0p, h1x, h1X, if_false, Bool.false_eq_true,
    or_self, and_false, hs, zero_mul, zero_add, Nat.mod_eq_of_lt hlt]

theorem fixedHex_plain (k n : Nat) :
    ∀ c ∈ fixedHex k n, c ≠ '\x00' ∧ isSpace c = false := by
  induction k with
  | zero => intro c hc; simp [fixedHex] at hc
  | succ k ih =>
    intro c hc
    simp only [fixedHex, List.mem_cons] at hc
    rcases hc with rfl | hc
    · obtain ⟨-, hs, -, -, -, -, hz⟩ := hexChar_facts (n / 16 ^ k % 16) (Nat.mod_lt _ (by norm_num))
      exact ⟨hz, hs⟩
    · exact ih c hc

theorem cstr_append_nul (l r : List Char) (h : ∀ c ∈ l, c ≠ '\x00') :
    cstr (l ++ '\x00' :: r) = l := by
  induction l with
  | nil => simp [cstr]
  | cons a l ih =>
    have ha : a ≠ '\x00' := h a (List.mem_cons_self _ _)
    have := ih (fun c hc => h c (List.mem_cons_of_mem _ hc))
    simp only [cstr, List.cons_append, List.takeWhile_cons, ha, ne_eq, not_false_eq_true,
      decide_True, if_true] at this ⊢
    rw [this]

theorem cstr_self (l : List Char) (h : ∀ c ∈ l, c ≠ '\x00') : cstr l = l := by
  unfold cstr
  rw [List.takeWhile_eq_self_iff]
  intro c hc
  simpa using h c hc

theorem scan_s_token (l : List Char) (hne : l ≠ []) (h : ∀ c ∈ l, isSpace c = false) :
    scan_s l = some (l, []) := by
  cases l with
  | nil => exact absurd rfl hne
  | cons a l =>
    have ha : isSpace a = false := h a (List.mem_cons_self _ _)
    have h1 : (a :: l).takeWhile (fun x => !isSpace x) = a :: l := by
      rw [List.takeWhile_eq_self_iff]; intro c hc; simp [h c hc]
    have h2 : (a :: l).dropWhile (fun x => !isSpace x) = [] := by
      rw [List.dropWhile_eq_nil_iff]; intro c hc; simp [h c hc]
    have h0 : (a :: l).dropWhile isSpace = a :: l := by
      simp [List.dropWhile_cons, ha]
    unfold scan_s
    rw [h0]
    simp only [h1, h2]

theorem runScan_recordText (a b c e f g : Nat) (W : List Char) (hne : W ≠ [])
    (hW : ∀ x ∈ W, isSpace x = false) :
    runScan KEY_GID_SCAN_FMT (recordText a b c e f g W)
      = [ScanVal.num (a % 16 ^ 4), ScanVal.num (b % 16 ^ 4), ScanVal.num (c % 16 ^ 6),
         ScanVal.num (e % 16 ^ 6), ScanVal.num (f % 16 ^ 8), ScanVal.num (g % 16 ^ 16),
         ScanVal.text W] := by
  have h4 := fun n r => scan_x_fixedHex 2 32 n r (by norm_num)
  have h6 := fun n r => scan_x_fixedHex 4 32 n r (by norm_num)
  have h8 := fun n r => scan_x_fixedHex 6 32 n r (by norm_num)
  have h16 := fun n r => scan_x_fixedHex 14 64 n r (by norm_num)
  simp only [KEY_GID_SCAN_FMT, recordText, runScan, h4, h6, h8, h16, if_true,
    scan_s_token W hne hW]

theorem sprintf_KEY_GID_valid (d : pingpong_dest) (W : List Char) (hd : valid_dest d) :
    sprintf_KEY_GID d W = recordText d.lid d.out_reads d.qpn d.psn d.rkey d.vaddr W := by
  obtain ⟨h1, h2, h3, h4, h5, h6, -, -⟩ := hd
  have e1 : d.lid % 2 ^ 32 = d.lid := Nat.mod_eq_of_lt (by omega)
  have e2 : d.out_reads % 2 ^ 32 = d.out_reads := Nat.mod_eq_of_lt (by omega)
  have e3 : d.qpn % 2 ^ 32 = d.qpn := Nat.mod_eq_of_lt (by omega)
  have e4 : d.psn % 2 ^ 32 = d.psn := Nat.mod_eq_of_lt (by omega)
  have e5 : d.rkey % 2 ^ 32 = d.rkey := Nat.mod_eq_of_lt (by omega)
  have e6 : d.vaddr % 2 ^ 64 = d.vaddr := Nat.mod_eq_of_lt (by omega)
  unfold sprintf_KEY_GID recordText
  rw [e1, e2, e3, e4, e5, e6, fmt_0wx_eq 4 d.lid (by norm_num) (by norm_num; omega),
    fmt_0wx_eq 4 d.out_reads (by norm_num) (by norm_num; omega),
    fmt_0wx_eq 6 d.qpn (by norm_num) (by norm_num; omega),
    fmt_0wx_eq 6 d.psn (by norm_num) (by norm_num; omega),
    fmt_0wx_eq 8 d.rkey (by norm_num) (by norm_num; omega),
    fmt_0wx_eq 16 d.vaddr (by norm_num) (by norm_num; omega)]
  simp only [List.append_assoc, List.cons_append]

/-! ## Facts about the global address wire form -/

theorem bytes4 (x y z t : Nat) (hx : x < 256) (hy : y < 256) (hz : z < 256) (ht : t < 256) :
    (x * 2 ^ 24 + y * 2 ^ 16 + z * 2 ^ 8 + t) % 256 = t ∧
    (x * 2 ^ 24 + y * 2 ^ 16 + z * 2 ^ 8 + t) / 2 ^ 8 % 256 = z ∧
    (x * 2 ^ 24 + y * 2 ^ 16 + z * 2 ^ 8 + t) / 2 ^ 16 % 256 = y ∧
    (x * 2 ^ 24 + y * 2 ^ 16 + z * 2 ^ 8 + t) / 2 ^ 24 % 256 = x ∧
    (x * 2 ^ 24 + y * 2 ^ 16 + z * 2 ^ 8 + t) % 2 ^ 32 = x * 2 ^ 24 + y * 2 ^ 16 + z * 2 ^ 8 + t := by
  simp only [Nat.reducePow]
  refine ⟨?_, ?_, ?_, ?_, ?_⟩ <;> omega

theorem bswap32_bytes (x y z t : Nat) (hx : x < 256) (hy : y < 256) (hz : z < 256)
    (ht : t < 256) :
    bswap32 (x * 2 ^ 24 + y * 2 ^ 16 + z * 2 ^ 8 + t) = t * 2 ^ 24 + z * 2 ^ 16 + y * 2 ^ 8 + x := by
  obtain ⟨h1, h2, h3, h4, -⟩ := bytes4 x y z t hx hy hz ht
  unfold bswap32
  rw [h1, h2, h3, h4]

theorem htobe32_load32 (le : Bool) (b0 b1 b2 b3 : Nat) :
    htobe32 le (load32 le b0 b1 b2 b3) = beWord b0 b1 b2 b3 := by
  have h0 : b0 % 256 < 256 := Nat.mod_lt _ (by norm_num)
  have h1 : b1 % 256 < 256 := Nat.mod_lt _ (by norm_num)
  have h2 : b2 % 256 < 256 := Nat.mod_lt _ (by norm_num)
  have h3 : b3 % 256 < 256 := Nat.mod_lt _ (by norm_num)
  cases le
  · simp only [htobe32, load32, beWord, if_false, Bool.false_eq_true]
    exact (bytes4 _ _ _ _ h0 h1 h2 h3).2.2.2.2
  · simp only [htobe32, load32, beWord, if_true]
    have := bswap32_bytes _ _ _ _ h3 h2 h1 h0
    rw [← this]
    congr 1
    ring

theorem beWord_lt (b0 b1 b2 b3 : Nat) : beWord b0 b1 b2 b3 < 16 ^ 8 := by
  have h0 : b0 % 256 < 256 := Nat.mod_lt _ (by norm_num)
  have h1 : b1 % 256 < 256 := Nat.mod_lt _ (by norm_num)
  have h2 : b2 % 256 < 256 := Nat.mod_lt _ (by norm_num)
  have h3 : b3 % 256 < 256 := Nat.mod_lt _ (by norm_num)
  simp only [beWord, Nat.reducePow]
  omega

theorem store32_be32toh_beWord (le : Bool) (b0 b1 b2 b3 : Nat) :
    store32 le (be32toh le (beWord b0 b1 b2 b3)) = [b0 % 256, b1 % 256, b2 % 256, b3 % 256] := by
  have h0 : b0 % 256 < 256 := Nat.mod_lt _ (by norm_num)
  have h1 : b1 % 256 < 256 := Nat.mod_lt _ (by norm_num)
  have h2 : b2 % 256 < 256 := Nat.mod_lt _ (by norm_num)
  have h3 : b3 % 256 < 256 := Nat.mod_lt _ (by norm_num)
  cases le
  · obtain ⟨e1, e2, e3, e4, e5⟩ := bytes4 _ _ _ _ h0 h1 h2 h3
    simp only [store32, be32toh, beWord, if_false, Bool.false_eq_true, e5, e1, e2, e3, e4]
  · obtain ⟨e1, e2, e3, e4, -⟩ := bytes4 _ _ _ _ h3 h2 h1 h0
    simp only [store32, be32toh, beWord, if_true, bswap32_bytes _ _ _ _ h0 h1 h2 h3, e1, e2, e3,
      e4]

theorem my_gid_to_wire_gid_eq (le : Bool) (gid : List Nat) :
    my_gid_to_wire_gid le gid
      = fixedHex 8 (beWord (gid.getD 0 0) (gid.getD 1 0) (gid.getD 2 0) (gid.getD 3 0))
        ++ (fixedHex 8 (beWord (gid.getD 4 0) (gid.getD 5 0) (gid.getD 6 0) (gid.getD 7 0))
        ++ (fixedHex 8 (beWord (gid.getD 8 0) (gid.getD 9 0) (gid.getD 10 0) (gid.getD 11 0))
        ++ fixedHex 8 (beWord (gid.getD 12 0) (gid.getD 13 0) (gid.getD 14 0)
            (gid.getD 15 0)))) := by
  simp only [my_gid_to_wire_gid, htobe32_load32, List.append_assoc]
  rw [fmt_0wx_eq 8 _ (by norm_num) (beWord_lt _ _ _ _), fmt_0wx_eq 8 _ (by norm_num) (beWord_lt _ _ _ _),
    fmt_0wx_eq 8 _ (by norm_num) (beWord_lt _ _ _ _), fmt_0wx_eq 8 _ (by norm_num) (beWord_lt _ _ _ _)]

theorem wire_word_fixedHex (pre post : List Char) (i w v32 : Nat) (hpre : pre.length = i * 8) :
    wire_word (pre ++ (fixedHex 8 w ++ post)) i v32 = w % 16 ^ 8 := by
  have h1 : ((pre ++ (fixedHex 8 w ++ post)).drop (i * 8)).take 8 = fixedHex 8 w := by
    rw [← hpre, List.drop_left, List.take_left' (fixedHex_length 8 w)]
  have h2 : cstr (fixedHex 8 w) = fixedHex 8 w :=
    cstr_self _ (fun c hc => (fixedHex_plain 8 w c hc).1)
  have h3 := scan_x_fixedHex 6 32 w [] (by norm_num)
  rw [List.append_nil] at h3
  unfold wire_word
  simp only [h1, h2, fixedHex_length, runScan, h3]

theorem my_wire_gid_to_gid_wire (le : Bool) (v32 : Nat) (b : Nat → Nat) (tail : List Char) :
    my_wire_gid_to_gid le v32
      (fixedHex 8 (beWord (b 0) (b 1) (b 2) (b 3)) ++ (fixedHex 8 (beWord (b 4) (b 5) (b 6) (b 7))
        ++ (fixedHex 8 (beWord (b 8) (b 9) (b 10) (b 11))
        ++ fixedHex 8 (beWord (b 12) (b 13) (b 14) (b 15)))) ++ tail)
      = [b 0 % 256, b 1 % 256, b 2 % 256, b 3 % 256, b 4 % 256, b 5 % 256, b 6 % 256, b 7 % 256,
         b 8 % 256, b 9 % 256, b 10 % 256, b 11 % 256, b 12 % 256, b 13 % 256, b 14 % 256,
         b 15 % 256] := by
  have m := fun x y z t => Nat.mod_eq_of_lt (beWord_lt x y z t)
  have w0 := wire_word_fixedHex [] (fixedHex 8 (beWord (b 4) (b 5) (b 6) (b 7))
    ++ (fixedHex 8 (beWord (b 8) (b 9) (b 10) (b 11))
    ++ (fixedHex 8 (beWord (b 12) (b 13) (b 14) (b 15)) ++ tail))) 0
    (beWord (b 0) (b 1) (b 2) (b 3))
  have w1 := wire_word_fixedHex (fixedHex 8 (beWord (b 0) (b 1) (b 2) (b 3)))
    (fixedHex 8 (beWord (b 8) (b 9) (b 10) (b 11))
    ++ (fixedHex 8 (beWord (b 12) (b 13) (b 14) (b 15)) ++ tail)) 1
    (beWord (b 4) (b 5) (b 6) (b 7))
  have w2 := wire_word_fixedHex (fixedHex 8 (beWord (b 0) (b 1) (b 2) (b 3))
    ++ fixedHex 8 (beWord (b 4) (b 5) (b 6) (b 7)))
    (fixedHex 8 (beWord (b 12) (b 13) (b 14) (b 15)) ++ tail) 2
    (beWord (b 8) (b 9) (b 10) (b 11))
  have w3 := wire_word_fixedHex (fixedHex 8 (beWord (b 0) (b 1) (b 2) (b 3))
    ++ (fixedHex 8 (beWord (b 4) (b 5) (b 6) (b 7))
    ++ fixedHex 8 (beWord (b 8) (b 9) (b 10) (b 11)))) tail 3
    (beWord (b 12) (b 13) (b 14) (b 15))
  simp only [List.nil_append, List.append_assoc, List.length_append, fixedHex_length, m,
    List.length_nil] at w0 w1 w2 w3
  unfold my_wire_gid_to_gid
  simp only [List.append_assoc, w0 _ trivial, w1 _ trivial, w2 _ trivial, w3 _ trivial,
    store32_be32toh_beWord, List.cons_append, List.nil_append]

theorem wireText_plain (b : Nat → Nat) : ∀ c ∈ wireText b, c ≠ '\x00' ∧ isSpace c = false := by
  intro c hc
  simp only [wireText, List.mem_append] at hc
  rcases hc with h | h | h | h <;> exact fixedHex_plain _ _ c h

theorem wireText_length (b : Nat → Nat) : (wireText b).length = 32 := by
  simp [wireText, fixedHex_length]

theorem recordText_length (a b c e f g : Nat) (W : List Char) :
    (recordText a b c e f g W).length = 50 + W.length := by
  simp only [recordText, List.length_append, List.length_cons, fixedHex_length]
  omega

theorem recordText_no_nul (a b c e f g : Nat) (W : List Char) (hW : ∀ x ∈ W, x ≠ '\x00') :
    ∀ x ∈ recordText a b c e f g W, x ≠ '\x00' := by
  intro x hx
  simp only [recordText, List.mem_append, List.mem_cons] at hx
  have hc : (':' : Char) ≠ '\x00' := by decide
  rcases hx with h | h | h | h | h | h | h | h | h | h | h | h | h
  all_goals first
    | exact (fixedHex_plain _ _ x h).1
    | (rw [h]; exact hc)
    | exact hW x h

theorem list16 (l : List Nat) (h : l.length = 16) (hb : ∀ x ∈ l, x < 256) :
    [l.getD 0 0 % 256, l.getD 1 0 % 256, l.getD 2 0 % 256, l.getD 3 0 % 256, l.getD 4 0 % 256,
     l.getD 5 0 % 256, l.getD 6 0 % 256, l.getD 7 0 % 256, l.getD 8 0 % 256, l.getD 9 0 % 256,
     l.getD 10 0 % 256, l.getD 11 0 % 256, l.getD 12 0 % 256, l.getD 13 0 % 256,
     l.getD 14 0 % 256, l.getD 15 0 % 256] = l := by
  apply List.ext_getElem
  · simp [h]
  · intro i h1 h2
    have hi : i < 16 := by omega
    have hm : ∀ k (hk : k < l.length), l.getD k 0 % 256 = l[k] := by
      intro k hk
      rw [List.getD_eq_getElem _ _ hk]
      exact Nat.mod_eq_of_lt (hb _ (List.getElem_mem _))
    interval_cases i <;> simp only [List.getElem_cons_zero, List.getElem_cons_succ] <;>
      exact hm _ _

theorem serialize_valid (le : Bool) (d : pingpong_dest) (hd : valid_dest d) :
    serialize le d = recordText d.lid d.out_reads d.qpn d.psn d.rkey d.vaddr
      (wireText (fun i => d.gid.getD i 0)) ++ ['\x00'] := by
  unfold serialize msg_bytes
  rw [sprintf_KEY_GID_valid d _ hd, my_gid_to_wire_gid_eq]
  apply List.take_of_length_le
  have := recordText_length d.lid d.out_reads d.qpn d.psn d.rkey d.vaddr
    (wireText (fun i => d.gid.getD i 0))
  rw [wireText_length] at this
  simp [wireText, KEY_GID_MSG_SIZE] at this ⊢
  omega

theorem deserialize_serialize (le1 le2 : Bool) (v32 : Nat) (d fresh : pingpong_dest)
    (gidbuf : List Char) (hd : valid_dest d) :
    (deserialize le2 v32 (serialize le1 d) fresh gidbuf).1 = { d with mac := fresh.mac } := by
  have hW := wireText_plain (fun i => d.gid.getD i 0)
  have hne : wireText (fun i => d.gid.getD i 0) ≠ [] := by
    intro h; have := wireText_length (fun i => d.gid.getD i 0); rw [h] at this; simp at this
  have hc := cstr_append_nul _ [] (recordText_no_nul d.lid d.out_reads d.qpn d.psn d.rkey d.vaddr
    _ (fun x hx => (hW x hx).1))
  have hr := runScan_recordText d.lid d.out_reads d.qpn d.psn d.rkey d.vaddr _ hne
    (fun x hx => (hW x hx).2)
  obtain ⟨h1, h2, h3, h4, h5, h6, h7, h8⟩ := hd
  have e1 : d.lid % 16 ^ 4 = d.lid := Nat.mod_eq_of_lt (by norm_num; omega)
  have e2 : d.out_reads % 16 ^ 4 = d.out_reads := Nat.mod_eq_of_lt (by norm_num; omega)
  have e3 : d.qpn % 16 ^ 6 = d.qpn := Nat.mod_eq_of_lt (by norm_num; omega)
  have e4 : d.psn % 16 ^ 6 = d.psn := Nat.mod_eq_of_lt (by norm_num; omega)
  have e5 : d.rkey % 16 ^ 8 = d.rkey := Nat.mod_eq_of_lt (by norm_num; omega)
  have e6 : d.vaddr % 16 ^ 16 = d.vaddr := Nat.mod_eq_of_lt (by norm_num; omega)
  rw [e1, e2, e3, e4, e5, e6] at hr
  have hg := my_wire_gid_to_gid_wire le2 v32 (fun i => d.gid.getD i 0)
    ('\x00' :: gidbuf.drop ((wireText (fun i => d.gid.getD i 0)).length + 1))
  rw [list16 d.gid h7 h8] at hg
  unfold deserialize sscanf_KEY_GID
  rw [serialize_valid le1 d ⟨h1, h2, h3, h4, h5, h6, h7, h8⟩, hc, hr]
  simp only [List.get?_eq_getElem?, List.getElem?_cons_zero, List.getElem?_cons_succ]
  simp only [wireText] at hg ⊢
  rw [hg]

/-! ## Facts about deserialization of arbitrary records -/

/-- The fields whose conversion did not take place keep their prior content. -/
theorem deserialize_unconverted (le : Bool) (v32 : Nat) (msg : List Char) (fresh : pingpong_dest)
    (gid : List Char) :
    ((runScan KEY_GID_SCAN_FMT (cstr msg)).length ≤ 0 →
      (deserialize le v32 msg fresh gid).1.lid = fresh.lid) ∧
    ((runScan KEY_GID_SCAN_FMT (cstr msg)).length ≤ 1 →
      (deserialize le v32 msg fresh gid).1.out_reads = fresh.out_reads) ∧
    ((runScan KEY_GID_SCAN_FMT (cstr msg)).length ≤ 2 →
      (deserialize le v32 msg fresh gid).1.qpn = fresh.qpn) ∧
    ((runScan KEY_GID_SCAN_FMT (cstr msg)).length ≤ 3 →
      (deserialize le v32 msg fresh gid).1.psn = fresh.psn) ∧
    ((runScan KEY_GID_SCAN_FMT (cstr msg)).length ≤ 4 →
      (deserialize le v32 msg fresh gid).1.rkey = fresh.rkey) ∧
    ((runScan KEY_GID_SCAN_FMT (cstr msg)).length ≤ 5 →
      (deserialize le v32 msg fresh gid).1.vaddr = fresh.vaddr) ∧
    ((runScan KEY_GID_SCAN_FMT (cstr msg)).length ≤ 6 →
      (deserialize le v32 msg fresh gid).1.gid = my_wire_gid_to_gid le v32 gid) ∧
    (deserialize le v32 msg fresh gid).1.mac = fresh.mac := by
  have key : ∀ i, (runScan KEY_GID_SCAN_FMT (cstr msg)).length ≤ i →
      (runScan KEY_GID_SCAN_FMT (cstr msg)).get? i = none := by
    intro i hi
    rw [List.get?_eq_none]; exact hi
  refine ⟨?_, ?_, ?_, ?_, ?_, ?_, ?_, rfl⟩ <;> intro h <;>
    simp only [deserialize, sscanf_KEY_GID, key _ h]

/-! ## The loops of the scheduler post the schedule in order -/

theorem wait_loop_eq (env : Env) (ctx : pingpong_context) (size : Nat) (iters : Int)
    (rem_dest : List pingpong_dest) (N i : Nat) :
    ∀ (cnt k : Nat) (s : SchedState),
      forRange cnt k (wait_body env ctx iters N i) s
        = post_seq env ((List.range' k cnt).map
            (fun j => (j, request ctx size iters rem_dest N i j true, true))) s := by
  intro cnt
  induction cnt with
  | zero => intro k s; rfl
  | succ cnt ih =>
    intro k s
    simp only [forRange, List.range'_succ, List.map_cons, post_seq, wait_body, request, if_true,
      post_error]
    split_ifs with h
    · rfl
    · exact ih (k + 1) _

theorem send_loop_eq (env : Env) (ctx : pingpong_context) (size : Nat) (iters : Int)
    (rem_dest : List pingpong_dest) (N i : Nat) (hnd : no_div_zero ctx) :
    ∀ (cnt k : Nat) (s : SchedState),
      forRange cnt k (send_body env ctx size iters rem_dest N i) s
        = post_seq env ((List.range' k cnt).map
            (fun j => (j, request ctx size iters rem_dest N i j false, false))) s := by
  have hz : ((ctx.calc_op.opcode != IBV_CALC_OP_NA) && (ctx.calc_op.vector_count % 256 == 0))
      = false := by
    rcases hnd with h | h
    · simp [h]
    · simp [h]
  intro cnt
  induction cnt with
  | zero => intro k s; rfl
  | succ cnt ih =>
    intro k s
    simp only [forRange, List.range'_succ, List.map_cons, post_seq, send_body, request, hz,
      Bool.false_eq_true, if_false, post_error]
    split_ifs with h
    · rfl
    · exact ih (k + 1) _

theorem post_seq_append (env : Env) (l2 : List (Nat × ibv_send_wr × Bool)) :
    ∀ (l1 : List (Nat × ibv_send_wr × Bool)) (s : SchedState),
      post_seq env (l1 ++ l2) s
        = match post_seq env l1 s with
          | Step.next s1 => post_seq env l2 s1
          | Step.out s1 => Step.out s1 := by
  intro l1
  induction l1 with
  | nil => intro s; rfl
  | cons e l1 ih =>
    intro s
    simp only [List.cons_append, post_seq]
    split_ifs with h
    · rfl
    · exact ih _

theorem iter_body_eq (env : Env) (ctx : pingpong_context) (size : Nat) (iters : Int)
    (rem_dest : List pingpong_dest) (N i : Nat) (hnd : no_div_zero ctx) (s : SchedState) :
    iter_body env ctx size iters rem_dest N i s
      = post_seq env (schedule_iter ctx size iters rem_dest N i) s := by
  unfold iter_body schedule_iter
  rw [post_seq_append, wait_loop_eq env ctx size iters rem_dest N i N 0 s,
    List.range_eq_range']
  cases post_seq env (List.map
      (fun j => (j, request ctx size iters rem_dest N i j true, true)) (List.range' 0 N)) s with
  | next s1 => exact send_loop_eq env ctx size iters rem_dest N i hnd N 0 s1
  | out s1 => rfl

theorem outer_loop_eq (env : Env) (ctx : pingpong_context) (size : Nat) (iters : Int)
    (rem_dest : List pingpong_dest) (N : Nat) (hnd : no_div_zero ctx) :
    ∀ (cnt k : Nat) (s : SchedState),
      forRange cnt k (iter_body env ctx size iters rem_dest N) s
        = post_seq env ((List.range' k cnt).flatMap
            (schedule_iter ctx size iters rem_dest N)) s := by
  intro cnt
  induction cnt with
  | zero => intro k s; rfl
  | succ cnt ih =>
    intro k s
    simp only [forRange, List.range'_succ, List.flatMap_cons, post_seq_append,
      iter_body_eq env ctx size iters rem_dest N k hnd s]
    cases post_seq env (schedule_iter ctx size iters rem_dest N k) s with
    | next s1 => exact ih (k + 1) s1
    | out s1 => rfl

/-- The scheduler is the in-order posting of the schedule. -/
theorem server_pre_post_wqes_eq (env : Env) (ctx : pingpong_context) (size : Nat) (w : World)
    (iters : Int) (rem_dest : List pingpong_dest) (N : Nat) (hnd : no_div_zero ctx) :
    server_pre_post_wqes env ctx size w iters rem_dest N
      = (post_seq env (schedule ctx size iters rem_dest N)
          { w := w, ret := 0, fault := false }).state := by
  unfold server_pre_post_wqes schedule
  rw [outer_loop_eq env ctx size iters rem_dest N hnd, List.range_eq_range']

theorem post_seq_fail (env : Env) (e : Nat × ibv_send_wr × Bool)
    (l2 : List (Nat × ibv_send_wr × Bool)) :
    ∀ (l1 : List (Nat × ibv_send_wr × Bool)) (s : SchedState),
      (∀ m e1, l1.get? m = some e1 → env.ibv_post_send (s.w.posted + m) e1.1 e1.2.1 = 0) →
      env.ibv_post_send (s.w.posted + l1.length) e.1 e.2.1 ≠ 0 →
      post_seq env (l1 ++ e :: l2) s
        = Step.out
            { w := { trace := s.w.trace ++ (l1.map (post_event 0)
                        ++ [post_event (env.ibv_post_send (s.w.posted + l1.length) e.1 e.2.1) e,
                            Event.stderr (post_error e.2.2)]),
                     qp_state := s.w.qp_state,
                     posted := s.w.posted + l1.length + 1 },
              ret := -1, fault := s.fault } := by
  intro l1
  induction l1 with
  | nil =>
    intro s _ hrej
    simp only [List.length_nil, Nat.add_zero] at hrej
    simp [post_seq, ibv_post_send, World.log, hrej, post_event]
  | cons a l1 ih =>
    intro s hacc hrej
    have h0 : env.ibv_post_send s.w.posted a.1 a.2.1 = 0 := by
      have := hacc 0 a (by simp)
      simpa using this
    have hacc1 : ∀ m e1, l1.get? m = some e1 →
        env.ibv_post_send (s.w.posted + 1 + m) e1.1 e1.2.1 = 0 := by
      intro m e1 hm
      have := hacc (m + 1) e1 (by simpa using hm)
      rw [show s.w.posted + 1 + m = s.w.posted + (m + 1) by omega]
      exact this
    have hrej1 : env.ibv_post_send (s.w.posted + 1 + l1.length) e.1 e.2.1 ≠ 0 := by
      rw [show s.w.posted + 1 + l1.length = s.w.posted + (a :: l1).length by simp; omega]
      exact hrej
    have := ih { s with w := (ibv_post_send env s.w a.1 a.2.1).2,
                        ret := (ibv_post_send env s.w a.1 a.2.1).1 }
      (by simpa [ibv_post_send, World.log] using hacc1)
      (by simpa [ibv_post_send, World.log] using hrej1)
    simp only [List.cons_append, post_seq, List.append_eq]
    rw [if_neg (by simp [ibv_post_send, h0]), this]
    simp only [ibv_post_send, World.log, h0, List.map_cons, post_event, List.length_cons,
      List.append_assoc, List.singleton_append, List.cons_append, List.nil_append]
    have e1 : s.w.posted + 1 + l1.length = s.w.posted + (l1.length + 1) := by omega
    rw [e1]

theorem post_seq_ok (env : Env) :
    ∀ (l : List (Nat × ibv_send_wr × Bool)) (s : SchedState), s.ret = 0 →
      (∀ m e1, l.get? m = some e1 → env.ibv_post_send (s.w.posted + m) e1.1 e1.2.1 = 0) →
      post_seq env l s
        = Step.next
            { w := { trace := s.w.trace ++ l.map (post_event 0),
                     qp_state := s.w.qp_state,
                     posted := s.w.posted + l.length },
              ret := 0, fault := s.fault } := by
  intro l
  induction l with
  | nil =>
    intro s hr _
    cases s with
    | mk w ret fault =>
      cases w
      simp only at hr
      simp [post_seq, hr]
  | cons a l ih =>
    intro s _ hacc
    have h0 : env.ibv_post_send s.w.posted a.1 a.2.1 = 0 := by
      have := hacc 0 a (by simp)
      simpa using this
    have hacc1 : ∀ m e1, l.get? m = some e1 →
        env.ibv_post_send (s.w.posted + 1 + m) e1.1 e1.2.1 = 0 := by
      intro m e1 hm
      have := hacc (m + 1) e1 (by simpa using hm)
      rw [show s.w.posted + 1 + m = s.w.posted + (m + 1) by omega]
      exact this
    have := ih { s with w := (ibv_post_send env s.w a.1 a.2.1).2,
                        ret := (ibv_post_send env s.w a.1 a.2.1).1 }
      (by simp [ibv_post_send, h0])
      (by simpa [ibv_post_send, World.log] using hacc1)
    simp only [post_seq]
    rw [if_neg (by simp [ibv_post_send, h0]), this]
    simp only [ibv_post_send, World.log, h0, List.map_cons, post_event, List.length_cons,
      List.append_assoc, List.singleton_append, List.cons_append, List.nil_append]
    have e1 : s.w.posted + 1 + l.length = s.w.posted + (l.length + 1) := by omega
    rw [e1]

/-! ## Positions in the schedule -/

theorem flatMap_range_length {α : Type} (f : Nat → List α) (L : Nat)
    (h : ∀ i, (f i).length = L) (n : Nat) : ((List.range n).flatMap f).length = n * L := by
  induction n with
  | zero => simp
  | succ n ih =>
    rw [List.range_succ, List.flatMap_append, List.length_append, ih]
    simp [h, Nat.succ_mul]

theorem flatMap_range_getElem? {α : Type} (f : Nat → List α) (L : Nat)
    (h : ∀ i, (f i).length = L) (n i r : Nat) (hi : i < n) (hr : r < L) :
    ((List.range n).flatMap f)[i * L + r]? = (f i)[r]? := by
  induction n with
  | zero => omega
  | succ n ih =>
    rw [List.range_succ, List.flatMap_append]
    have hlen := flatMap_range_length f L h n
    by_cases hin : i < n
    · have hlt : i * L + r < n * L := by
        have : (i + 1) * L ≤ n * L := Nat.mul_le_mul_right L hin
        rw [Nat.succ_mul] at this
        omega
      rw [List.getElem?_append_left (by rw [hlen]; exact hlt)]
      exact ih hin
    · have hieq : i = n := by omega
      subst hieq
      rw [List.getElem?_append_right (by rw [hlen]; omega), hlen]
      simp

theorem split_at {α : Type} : ∀ (l : List α) (p : Nat) (e : α), l[p]? = some e →
    l = l.take p ++ e :: l.drop (p + 1) := by
  intro l
  induction l with
  | nil => intro p e h; simp at h
  | cons a l ih =>
    intro p e h
    cases p with
    | zero => simp at h; simp [h]
    | succ p =>
      simp only [List.getElem?_cons_succ] at h
      simp only [List.take_succ_cons, List.drop_succ_cons, List.cons_append]
      rw [← ih p e h]

theorem schedule_iter_length (ctx : pingpong_context) (size : Nat) (iters : Int)
    (rem_dest : List pingpong_dest) (N i : Nat) :
    (schedule_iter ctx size iters rem_dest N i).length = 2 * N := by
  simp [schedule_iter]; omega

theorem schedule_length (ctx : pingpong_context) (size : Nat) (iters : Int)
    (rem_dest : List pingpong_dest) (N : Nat) :
    (schedule ctx size iters rem_dest N).length = 2 * N * iters.toNat := by
  unfold schedule
  rw [flatMap_range_length _ (2 * N) (schedule_iter_length ctx size iters rem_dest N)]
  ring

theorem schedule_at (ctx : pingpong_context) (size : Nat) (iters : Int)
    (rem_dest : List pingpong_dest) (N i j : Nat) (is_wait : Bool) (hi : i < iters.toNat)
    (hj : j < N) :
    (schedule ctx size iters rem_dest N)[position N i j is_wait]?
      = some (j, request ctx size iters rem_dest N i j is_wait, is_wait) := by
  unfold schedule position
  have hr : (if is_wait then j else N + j) < 2 * N := by
    cases is_wait <;> simp <;> omega
  rw [Nat.mul_comm (2 * N) i,
    flatMap_range_getElem? _ (2 * N) (schedule_iter_length ctx size iters rem_dest N) _ i _ hi hr]
  cases is_wait
  · simp only [schedule_iter, Bool.false_eq_true, if_false]
    rw [List.getElem?_append_right (by simp)]
    simp [hj]
  · simp only [schedule_iter, if_true]
    rw [List.getElem?_append_left (by simp [hj])]
    simp [hj]

/-! ## Signaled requests of the schedule -/

theorem request_signaled (ctx : pingpong_context) (size : Nat) (iters : Int)
    (rem_dest : List pingpong_dest) (N i j : Nat) (is_wait : Bool) :
    (request ctx size iters rem_dest N i j is_wait).flags.IBV_SEND_SIGNALED
      = decide ((i : Int) = iters - 1) := by
  cases is_wait <;> rfl

theorem schedule_iter_signaled (ctx : pingpong_context) (size : Nat) (iters : Int)
    (rem_dest : List pingpong_dest) (N i : Nat) :
    ((schedule_iter ctx size iters rem_dest N i).map (post_event 0)).countP is_signaled_post
      = if (i : Int) = iters - 1 then 2 * N else 0 := by
  have hall : ∀ a ∈ (schedule_iter ctx size iters rem_dest N i).map (post_event 0),
      is_signaled_post a = decide ((i : Int) = iters - 1) := by
    intro a ha
    simp only [schedule_iter, List.map_append, List.map_map, List.mem_append, List.mem_map,
      Function.comp] at ha
    rcases ha with ⟨j, -, rfl⟩ | ⟨j, -, rfl⟩ <;>
      simp only [post_event, is_signaled_post, request_signaled]
  split_ifs with h
  · have hl : ((schedule_iter ctx size iters rem_dest N i).map (post_event 0)).length = 2 * N := by
      rw [List.length_map, schedule_iter_length]
    rw [← hl, List.countP_eq_length]
    intro a ha
    rw [hall a ha]; simpa using h
  · rw [List.countP_eq_zero]
    intro a ha
    rw [hall a ha]; simpa using h

theorem schedule_prefix_unsignaled (ctx : pingpong_context) (size : Nat) (iters : Int)
    (rem_dest : List pingpong_dest) (N : Nat) :
    ∀ n : Nat, (n : Int) ≤ iters - 1 →
      (((List.range n).flatMap (schedule_iter ctx size iters rem_dest N)).map
        (post_event 0)).countP is_signaled_post = 0 := by
  intro n
  induction n with
  | zero => intro _; simp
  | succ n ih =>
    intro hn
    have hne : ¬ ((n : Int) = iters - 1) := by push_cast at hn; omega
    rw [List.range_succ, List.flatMap_append, List.map_append, List.countP_append,
      ih (by push_cast at hn; omega)]
    simp only [List.flatMap_cons, List.flatMap_nil, List.append_nil, schedule_iter_signaled,
      if_neg hne]

theorem schedule_signaled (ctx : pingpong_context) (size : Nat) (iters : Int)
    (rem_dest : List pingpong_dest) (N : Nat) (hI : 1 ≤ iters) :
    ((schedule ctx size iters rem_dest N).map (post_event 0)).countP is_signaled_post
      = 2 * N := by
  obtain ⟨n, hn⟩ : ∃ n : Nat, iters.toNat = n + 1 := ⟨iters.toNat - 1, by omega⟩
  have hcast : (n : Int) = iters - 1 := by omega
  unfold schedule
  rw [hn, List.range_succ, List.flatMap_append, List.map_append, List.countP_append,
    schedule_prefix_unsignaled ctx size iters rem_dest N n (by omega)]
  simp only [List.flatMap_cons, List.flatMap_nil, List.append_nil, schedule_iter_signaled,
    if_pos hcast, Nat.zero_add]

/-! ## The member loop of the server exchange -/

theorem forRange_next {σ : Type} (body : Nat → σ → Step σ) (g : Nat → σ) :
    ∀ (n k0 : Nat), (∀ k, k < n → body (k0 + k) (g (k0 + k)) = Step.next (g (k0 + k + 1))) →
      forRange n k0 body (g k0) = Step.next (g (k0 + n)) := by
  intro n
  induction n with
  | zero => intro k0 _; rfl
  | succ n ih =>
    intro k0 h
    have h0 := h 0 (by omega)
    simp only [Nat.add_zero] at h0
    simp only [forRange, h0]
    have := ih (k0 + 1) (fun k hk => by
      have := h (k + 1) (by omega)
      rw [show k0 + (k + 1) = k0 + 1 + k by omega] at this
      exact this)
    rw [this, show k0 + 1 + n = k0 + (n + 1) by omega]

theorem forRange_out {σ : Type} (body : Nat → σ → Step σ) (g : Nat → σ) (s1 : σ) :
    ∀ (n k0 m : Nat), m < n →
      (∀ k, k < m → body (k0 + k) (g (k0 + k)) = Step.next (g (k0 + k + 1))) →
      body (k0 + m) (g (k0 + m)) = Step.out s1 →
      forRange n k0 body (g k0) = Step.out s1 := by
  intro n
  induction n with
  | zero => intro k0 m hm; omega
  | succ n ih =>
    intro k0 m hm h hout
    cases m with
    | zero =>
      simp only [Nat.add_zero] at hout
      simp only [forRange, hout]
    | succ m =>
      have h0 := h 0 (by omega)
      simp only [Nat.add_zero] at h0
      simp only [forRange, h0]
      exact ih (k0 + 1) m (by omega)
        (fun k hk => by
          have := h (k + 1) (by omega)
          rw [show k0 + (k + 1) = k0 + 1 + k by omega] at this
          exact this)
        (by rw [show k0 + 1 + m = k0 + (m + 1) by omega]; exact hout)

theorem connfd_getD (env : Env) (N k : Nat) (hk : k < N) :
    ((List.range N).map env.accept).getD k (-1) = env.accept k := by
  simp [List.getD, hk]

theorem server_member_ok (env : Env) (ib_port : Int) (mtu : Nat) (sl : Int)
    (my_dest : List pingpong_dest) (sgid_idx : Int) (N k : Nat) (s : ExchState) (hk : k < N)
    (hok : member_ok env ib_port mtu sl my_dest sgid_idx k)
    (hg : s.gid = server_gid env my_dest k) :
    server_member env ib_port mtu sl my_dest sgid_idx ((List.range N).map env.accept) k s
      = Step.next
          { w := { trace := s.w.trace ++ member_events env ib_port mtu sl my_dest sgid_idx k,
                   qp_state := (s.w.qp_state.set k ibv_qp_state.IBV_QPS_RTR).set k
                     ibv_qp_state.IBV_QPS_RTS,
                   posted := s.w.posted },
            rem_dest := s.rem_dest.map (fun a => a.set k (Slot.ptr (received env my_dest k))),
            gid := server_gid env my_dest (k + 1) } := by
  obtain ⟨hr, hm, h1, h2, hw⟩ := hok
  obtain ⟨fresh, hfresh⟩ := Option.isSome_iff_exists.mp hm
  have hfb : fresh_block env k = fresh := by simp [fresh_block, hfresh]
  have e1 : (rtr_attr ib_port mtu sl (received env my_dest k) sgid_idx).qp_state
      = ibv_qp_state.IBV_QPS_RTR := rfl
  have e2 : (rts_attr ib_port (my_dest.getD k zero_dest).psn mtu sl (received env my_dest k)
      sgid_idx).qp_state = ibv_qp_state.IBV_QPS_RTS := rfl
  simp only [received, server_record, hfb] at h1 h2 hw e1 e2
  unfold server_member
  simp only [connfd_getD env N k hk, hr, hfresh, hg, ne_eq, not_true_eq_false, if_false,
    pp_connect_ctx, ibv_modify_qp, World.log, h1, h2, hw, e1, e2, if_true, member_events,
    received, server_record, server_gid, hfb, List.append_assoc, List.cons_append,
    List.nil_append]

theorem exch_state_ok_gid (env : Env) (ib_port : Int) (mtu : Nat) (sl : Int)
    (my_dest : List pingpong_dest) (sgid_idx : Int) (w1 : World) (N k : Nat) :
    (exch_state_ok env ib_port mtu sl my_dest sgid_idx w1 N k).gid = server_gid env my_dest k := by
  cases k <;> rfl

theorem exch_state_ok_trace (env : Env) (ib_port : Int) (mtu : Nat) (sl : Int)
    (my_dest : List pingpong_dest) (sgid_idx : Int) (w1 : World) (N k : Nat) :
    (exch_state_ok env ib_port mtu sl my_dest sgid_idx w1 N k).w.trace
      = w1.trace ++ (List.range k).flatMap (member_events env ib_port mtu sl my_dest sgid_idx) := by
  induction k with
  | zero => simp [exch_state_ok]
  | succ k ih =>
    simp only [exch_state_ok, ih, List.range_succ, List.flatMap_append, List.flatMap_cons,
      List.flatMap_nil, List.append_nil, List.append_assoc]

theorem exch_state_ok_posted (env : Env) (ib_port : Int) (mtu : Nat) (sl : Int)
    (my_dest : List pingpong_dest) (sgid_idx : Int) (w1 : World) (N k : Nat) :
    (exch_state_ok env ib_port mtu sl my_dest sgid_idx w1 N k).w.posted = w1.posted := by
  induction k with
  | zero => rfl
  | succ k ih => simp only [exch_state_ok, ih]

theorem exch_state_ok_rem_dest (env : Env) (ib_port : Int) (mtu : Nat) (sl : Int)
    (my_dest : List pingpong_dest) (sgid_idx : Int) (w1 : World) (N k : Nat) :
    (exch_state_ok env ib_port mtu sl my_dest sgid_idx w1 N k).rem_dest
      = some ((List.range N).map
          (fun j => if j < k then Slot.ptr (received env my_dest j) else Slot.uninit)) := by
  induction k with
  | zero =>
    simp only [exch_state_ok, Nat.not_lt_zero, if_false]
    congr 1
    apply List.ext_getElem?
    intro i
    by_cases hi : i < N
    · simp [hi]
    · simp [hi]
  | succ k ih =>
    simp only [exch_state_ok, ih, Option.map_some']
    congr 1
    apply List.ext_getElem?
    intro i
    rw [List.getElem?_set]
    by_cases hi : i < N
    · by_cases hik : k = i
      · subst hik
        simp [hi]
      · have : (i < k + 1) = (i < k) := by
          apply propext; constructor <;> intro h <;> omega
        simp [hi, hik, this]
    · have hnone : (List.range N)[i]? = none := by
        rw [List.getElem?_eq_none]; simp; omega
      by_cases hik : k = i
      · subst hik; simp [hi, hnone]
      · simp [hik, hnone]

theorem member_loop_ok (env : Env) (ib_port : Int) (mtu : Nat) (sl : Int)
    (my_dest : List pingpong_dest) (sgid_idx : Int) (w1 : World) (N : Nat)
    (hok : ∀ k, k < N → member_ok env ib_port mtu sl my_dest sgid_idx k) :
    forRange N 0 (server_member env ib_port mtu sl my_dest sgid_idx ((List.range N).map env.accept))
        { w := w1, rem_dest := some (List.replicate N Slot.uninit), gid := env.stack_gid }
      = Step.next (exch_state_ok env ib_port mtu sl my_dest sgid_idx w1 N N) := by
  have := forRange_next
    (server_member env ib_port mtu sl my_dest sgid_idx ((List.range N).map env.accept))
    (exch_state_ok env ib_port mtu sl my_dest sgid_idx w1 N) N 0
    (fun k hk => by
      simp only [Nat.zero_add]
      rw [server_member_ok env ib_port mtu sl my_dest sgid_idx N k _ hk (hok k hk)
        (exch_state_ok_gid env ib_port mtu sl my_dest sgid_idx w1 N k)]
      rfl)
  simpa using this

theorem accepts_ok (env : Env) (N : Nat) (hacc : ∀ k, k < N → 0 ≤ env.accept k) :
    ((List.range N).map env.accept).any (fun fd => decide (fd < 0)) = false := by
  rw [Bool.eq_false_iff]
  intro h
  simp only [List.any_eq_true, List.mem_map, List.mem_range, decide_eq_true_eq] at h
  obtain ⟨fd, ⟨k, hk, rfl⟩, hneg⟩ := h
  have := hacc k hk
  omega

/-- The result of the server exchange when every step of every member succeeds. -/
theorem pp_server_exch_dest_ok (env : Env) (w : World) (ib_port : Int) (mtu : Nat) (sl : Int)
    (my_dest : List pingpong_dest) (sgid_idx : Int) (N : Nat)
    (h1 : 0 ≤ env.asprintf) (h2 : 0 ≤ env.getaddrinfo) (h3 : 0 ≤ env.sockfd)
    (hacc : ∀ k, k < N → 0 ≤ env.accept k)
    (hok : ∀ k, k < N → member_ok env ib_port mtu sl my_dest sgid_idx k) :
    pp_server_exch_dest env w ib_port mtu sl my_dest sgid_idx N
      = ((exch_state_ok env ib_port mtu sl my_dest sgid_idx (world_accepted env N w) N N).rem_dest,
         (List.range N).map env.accept,
         (exch_state_ok env ib_port mtu sl my_dest sgid_idx (world_accepted env N w) N N).w) := by
  unfold pp_server_exch_dest
  simp only [not_lt.mpr h1, not_lt.mpr h2, not_lt.mpr h3, if_false]
  have ha : (accept_all env N w).1 = (List.range N).map env.accept := rfl
  simp only [ha, accepts_ok env N hacc, Bool.false_eq_true, if_false]
  rw [show (accept_all env N w).2.log (Event.close env.sockfd) = world_accepted env N w from rfl,
    member_loop_ok env ib_port mtu sl my_dest sgid_idx _ N hok]
  rfl

theorem server_member_fail (env : Env) (ib_port : Int) (mtu : Nat) (sl : Int)
    (my_dest : List pingpong_dest) (sgid_idx : Int) (N k : Nat) (s : ExchState) (hk : k < N)
    (hfail : ¬ member_ok env ib_port mtu sl my_dest sgid_idx k)
    (hg : s.gid = server_gid env my_dest k) :
    ∃ s1 ev,
      server_member env ib_port mtu sl my_dest sgid_idx ((List.range N).map env.accept) k s
        = Step.out s1 ∧
      s1.w.trace = s.w.trace ++ ev ∧ (∀ e ∈ ev, member_event env k e) ∧
      s1.w.posted = s.w.posted ∧
      ((env.read (env.accept k) 0).1 = KEY_GID_MSG_SIZE → (env.malloc_dest k).isSome = true →
        s1.rem_dest = none) := by
  unfold server_member
  rw [connfd_getD env N k hk]
  by_cases hr : (env.read (env.accept k) 0).1 = KEY_GID_MSG_SIZE
  · cases hm : env.malloc_dest k with
    | none =>
      simp only [hr, ne_eq, not_true_eq_false, if_false]
      refine ⟨_, [Event.read (env.accept k) KEY_GID_MSG_SIZE], rfl, ?_, ?_, ?_, ?_⟩
      · simp [World.log]
      · intro e he; simp only [List.mem_singleton] at he; subst he; exact rfl
      · rfl
      · intro _ h; simp at h
    | some fresh =>
      have hfb : fresh_block env k = fresh := by simp [fresh_block, hm]
      have hrec : (deserialize env.le (env.v32 k) (env.read (env.accept k) 0).2 fresh s.gid).1
          = received env my_dest k := by
        simp only [received, hfb, hg]
      by_cases h1 : env.ibv_modify_qp k (rtr_attr ib_port mtu sl (received env my_dest k)
          sgid_idx) = 0
      · by_cases h2 : env.ibv_modify_qp k (rts_attr ib_port (my_dest.getD k zero_dest).psn mtu sl
            (received env my_dest k) sgid_idx) = 0
        · by_cases hw : env.write (env.accept k) 0 (server_record env my_dest k)
              = KEY_GID_MSG_SIZE
          · exact absurd ⟨hr, by simp [hm], h1, h2, hw⟩ hfail
          · have hw2 : ¬ env.write (env.accept k) 0 (msg_bytes (sprintf_KEY_GID
                (my_dest.getD k zero_dest)
                (my_gid_to_wire_gid env.le (my_dest.getD 0 zero_dest).gid)))
                = KEY_GID_MSG_SIZE := hw
            simp only [hr, ne_eq, not_true_eq_false, if_false, hrec, pp_connect_ctx,
              ibv_modify_qp, World.log, h1, h2, hw2, not_false_eq_true, if_true]
            refine ⟨_, [Event.read (env.accept k) KEY_GID_MSG_SIZE,
              Event.modify_qp k (rtr_attr ib_port mtu sl (received env my_dest k) sgid_idx)
                RTR_MASK 0,
              Event.modify_qp k (rts_attr ib_port (my_dest.getD k zero_dest).psn mtu sl
                (received env my_dest k) sgid_idx) RTS_MASK 0,
              Event.write (env.accept k) (server_record env my_dest k)
                (env.write (env.accept k) 0 (server_record env my_dest k)),
              Event.stderr "Couldn't send local address to node"], rfl, ?_, ?_, ?_, ?_⟩
            · simp [server_record]
            · intro e he
              simp only [List.mem_cons, List.mem_singleton, List.not_mem_nil, or_false] at he
              rcases he with rfl | rfl | rfl | rfl | rfl <;> first | exact rfl | exact trivial
            · rfl
            · intro _ _; rfl
        · simp only [hr, ne_eq, not_true_eq_false, if_false, hrec, pp_connect_ctx,
            ibv_modify_qp, World.log, h1, h2, not_false_eq_true, if_true]
          refine ⟨_, [Event.read (env.accept k) KEY_GID_MSG_SIZE,
            Event.modify_qp k (rtr_attr ib_port mtu sl (received env my_dest k) sgid_idx)
              RTR_MASK 0,
            Event.modify_qp k (rts_attr ib_port (my_dest.getD k zero_dest).psn mtu sl
              (received env my_dest k) sgid_idx) RTS_MASK
              (env.ibv_modify_qp k (rts_attr ib_port (my_dest.getD k zero_dest).psn mtu sl
                (received env my_dest k) sgid_idx)),
            Event.stderr "pp_connect_ctx: Failed to modify QP to RTS",
            Event.stderr "Couldn't connect to remote QP of node"], rfl, ?_, ?_, ?_, ?_⟩
          · simp
          · intro e he
            simp only [List.mem_cons, List.mem_singleton, List.not_mem_nil, or_false] at he
            rcases he with rfl | rfl | rfl | rfl | rfl <;> first | exact rfl | exact trivial
          · rfl
          · intro _ _; rfl
      · simp only [hr, ne_eq, not_true_eq_false, if_false, hrec, pp_connect_ctx,
          ibv_modify_qp, World.log, h1, not_false_eq_true, if_true]
        refine ⟨_, [Event.read (env.accept k) KEY_GID_MSG_SIZE,
          Event.modify_qp k (rtr_attr ib_port mtu sl (received env my_dest k) sgid_idx)
            RTR_MASK (env.ibv_modify_qp k (rtr_attr ib_port mtu sl (received env my_dest k)
              sgid_idx)),
          Event.stderr "pp_connect_ctx: Failed to modify QP to RTR",
          Event.stderr "Couldn't connect to remote QP of node"], rfl, ?_, ?_, ?_, ?_⟩
        · simp
        · intro e he
          simp only [List.mem_cons, List.mem_singleton, List.not_mem_nil, or_false] at he
          rcases he with rfl | rfl | rfl | rfl <;> first | exact rfl | exact trivial
        · rfl
        · intro _ _; rfl
  · simp only [hr, ne_eq, not_false_eq_true, if_true]
    refine ⟨_, [Event.read (env.accept k) (env.read (env.accept k) 0).1,
      Event.stderr "Couldn't read remote address"], rfl, ?_, ?_, ?_, ?_⟩
    · simp [World.log]
    · intro e he
      simp only [List.mem_cons, List.mem_singleton, List.not_mem_nil, or_false] at he
      rcases he with rfl | rfl <;> first | exact rfl | exact trivial
    · rfl
    · intro h; exact absurd h (by simp)

/-! ## A rejected wait of the first iteration, whatever the calc configuration -/

theorem schedule_head (ctx : pingpong_context) (size : Nat) (iters : Int)
    (rem_dest : List pingpong_dest) (N : Nat) (hI : 0 < iters) :
    ∃ tail, schedule ctx size iters rem_dest N
      = (List.range N).map (fun j => (j, request ctx size iters rem_dest N 0 j true, true))
        ++ tail := by
  obtain ⟨n, hn⟩ : ∃ n : Nat, iters.toNat = n + 1 := ⟨iters.toNat - 1, by omega⟩
  refine ⟨(List.range N).map
      (fun j => (j, request ctx size iters rem_dest N 0 j false, false))
    ++ (List.map Nat.succ (List.range n)).flatMap (schedule_iter ctx size iters rem_dest N), ?_⟩
  unfold schedule
  rw [hn, List.range_succ_eq_map, List.flatMap_cons, schedule_iter, List.append_assoc]

theorem first_wait_rejected (env : Env) (ctx : pingpong_context) (size : Nat) (w : World)
    (iters : Int) (rem_dest : List pingpong_dest) (N j : Nat) (hI : 0 < iters) (hj : j < N)
    (hacc : ∀ m e1, m < j →
      (schedule ctx size iters rem_dest N)[m]? = some e1 →
      env.ibv_post_send (w.posted + m) e1.1 e1.2.1 = 0)
    (hrej : env.ibv_post_send (w.posted + j) j (request ctx size iters rem_dest N 0 j true) ≠ 0) :
    server_pre_post_wqes env ctx size w iters rem_dest N
      = { w := { trace := w.trace ++ (((schedule ctx size iters rem_dest N).take j).map
                    (post_event 0)
                  ++ [post_event (env.ibv_post_send (w.posted + j) j
                        (request ctx size iters rem_dest N 0 j true))
                        (j, request ctx size iters rem_dest N 0 j true, true),
                      Event.stderr (post_error true)]),
                 qp_state := w.qp_state,
                 posted := w.posted + j + 1 },
          ret := -1, fault := false } := by
  obtain ⟨n, hn⟩ : ∃ n : Nat, iters.toNat = n + 1 := ⟨iters.toNat - 1, by omega⟩
  obtain ⟨tail, htail⟩ := schedule_head ctx size iters rem_dest N hI
  have hat : ((List.range N).map
      (fun j => (j, request ctx size iters rem_dest N 0 j true, true)))[j]?
      = some (j, request ctx size iters rem_dest N 0 j true, true) := by
    simp [hj]
  have hlenw : ((List.range N).map
      (fun j => (j, request ctx size iters rem_dest N 0 j true, true))).length = N := by simp
  have htake : (schedule ctx size iters rem_dest N).take j
      = ((List.range N).map
          (fun j => (j, request ctx size iters rem_dest N 0 j true, true))).take j := by
    rw [htail, List.take_append_of_le_length (by rw [hlenw]; omega)]
  have hlen : (((List.range N).map
      (fun j => (j, request ctx size iters rem_dest N 0 j true, true))).take j).length = j := by
    rw [List.length_take, hlenw]; omega
  have hfail := post_seq_fail env (j, request ctx size iters rem_dest N 0 j true, true)
    (((List.range N).map
      (fun j => (j, request ctx size iters rem_dest N 0 j true, true))).drop (j + 1))
    (((List.range N).map
      (fun j => (j, request ctx size iters rem_dest N 0 j true, true))).take j)
    { w := w, ret := 0, fault := false }
    (by
      intro m e1 hm
      rw [List.get?_eq_getElem?, List.getElem?_take] at hm
      split_ifs at hm with hmp
      refine hacc m e1 hmp ?_
      rw [htail, List.getElem?_append_left (by rw [hlenw]; omega)]
      exact hm)
    (by rw [hlen]; exact hrej)
  rw [← split_at _ _ _ hat, hlen, ← htake] at hfail
  unfold server_pre_post_wqes
  rw [hn]
  simp only [forRange, iter_body]
  rw [wait_loop_eq env ctx size iters rem_dest N 0 N 0, ← List.range_eq_range', hfail]
  rfl

/-! ## Layout of the record text -/

theorem sprintf_KEY_GID_fits (d : pingpong_dest) (W : List Char) (h1 : d.lid < 2 ^ 16)
    (h2 : d.out_reads < 2 ^ 16) (h3 : d.qpn < 2 ^ 24) (h4 : d.psn < 2 ^ 24)
    (h5 : d.rkey < 2 ^ 32) :
    sprintf_KEY_GID d W
      = recordText d.lid d.out_reads d.qpn d.psn d.rkey (d.vaddr % 2 ^ 64) W := by
  have e1 : d.lid % 2 ^ 32 = d.lid := Nat.mod_eq_of_lt (by omega)
  have e2 : d.out_reads % 2 ^ 32 = d.out_reads := Nat.mod_eq_of_lt (by omega)
  have e3 : d.qpn % 2 ^ 32 = d.qpn := Nat.mod_eq_of_lt (by omega)
  have e4 : d.psn % 2 ^ 32 = d.psn := Nat.mod_eq_of_lt (by omega)
  have e5 : d.rkey % 2 ^ 32 = d.rkey := Nat.mod_eq_of_lt (by omega)
  have e6 : d.vaddr % 2 ^ 64 < 16 ^ 16 := by
    have : (16 : Nat) ^ 16 = 2 ^ 64 := by norm_num
    rw [this]; exact Nat.mod_lt _ (by positivity)
  unfold sprintf_KEY_GID recordText
  rw [e1, e2, e3, e4, e5, fmt_0wx_eq 4 d.lid (by norm_num) (by norm_num; omega),
    fmt_0wx_eq 4 d.out_reads (by norm_num) (by norm_num; omega),
    fmt_0wx_eq 6 d.qpn (by norm_num) (by norm_num; omega),
    fmt_0wx_eq 6 d.psn (by norm_num) (by norm_num; omega),
    fmt_0wx_eq 8 d.rkey (by norm_num) (by norm_num; omega),
    fmt_0wx_eq 16 (d.vaddr % 2 ^ 64) (by norm_num) e6]
  simp only [List.append_assoc, List.cons_append]

theorem getElem?_sep (A R : List Char) (c : Char) (n : Nat) (h : A.length = n) :
    (A ++ c :: R)[n]? = some c := by
  rw [List.getElem?_append_right (by omega), h]
  simp

theorem getElem?_skip (A R : List Char) (c : Char) (n k : Nat) (h : A.length = n) :
    (A ++ c :: R)[n + 1 + k]? = R[k]? := by
  rw [List.getElem?_append_right (by omega), h,
    show n + 1 + k - n = k + 1 by omega, List.getElem?_cons_succ]

theorem recordText_separators (a b c e f g : Nat) (W : List Char) :
    (recordText a b c e f g W)[4]? = some ':' ∧ (recordText a b c e f g W)[9]? = some ':' ∧
    (recordText a b c e f g W)[16]? = some ':' ∧ (recordText a b c e f g W)[23]? = some ':' ∧
    (recordText a b c e f g W)[32]? = some ':' ∧ (recordText a b c e f g W)[49]? = some ':' := by
  unfold recordText
  refine ⟨?_, ?_, ?_, ?_, ?_, ?_⟩
  · exact getElem?_sep _ _ _ 4 (fixedHex_length 4 a)
  · rw [getElem?_skip _ _ _ 4 4 (fixedHex_length 4 a)]
    exact getElem?_sep _ _ _ 4 (fixedHex_length 4 b)
  · rw [getElem?_skip _ _ _ 4 11 (fixedHex_length 4 a),
      getElem?_skip _ _ _ 4 6 (fixedHex_length 4 b)]
    exact getElem?_sep _ _ _ 6 (fixedHex_length 6 c)
  · rw [getElem?_skip _ _ _ 4 18 (fixedHex_length 4 a),
      getElem?_skip _ _ _ 4 13 (fixedHex_length 4 b),
      getElem?_skip _ _ _ 6 6 (fixedHex_length 6 c)]
    exact getElem?_sep _ _ _ 6 (fixedHex_length 6 e)
  · rw [getElem?_skip _ _ _ 4 27 (fixedHex_length 4 a),
      getElem?_skip _ _ _ 4 22 (fixedHex_length 4 b),
      getElem?_skip _ _ _ 6 15 (fixedHex_length 6 c),
      getElem?_skip _ _ _ 6 8 (fixedHex_length 6 e)]
    exact getElem?_sep _ _ _ 8 (fixedHex_length 8 f)
  · rw [getElem?_skip _ _ _ 4 44 (fixedHex_length 4 a),
      getElem?_skip _ _ _ 4 39 (fixedHex_length 4 b),
      getElem?_skip _ _ _ 6 32 (fixedHex_length 6 c),
      getElem?_skip _ _ _ 6 25 (fixedHex_length 6 e),
      getElem?_skip _ _ _ 8 16 (fixedHex_length 8 f)]
    exact getElem?_sep _ _ _ 16 (fixedHex_length 16 g)

/-! ## The notification loop of the server -/

theorem notify_loop_trace (env : Env) (connfd : List Int) :
    ∀ (n k0 : Nat) (w : World), ∃ ev,
      (forRange n k0 (fun nodeind w0 =>
        let fd := connfd.getD nodeind (-1)
        let n := env.write fd 1 READY_MSG
        let w1 := w0.log (Event.write fd READY_MSG n)
        let w2 := if n ≠ READY_MSG.length then
          w1.log (Event.stderr "Couldn't write to node with ready notification") else w1
        Step.next (w2.log (Event.close fd))) w).state.trace = w.trace ++ ev ∧
      ∀ k, k0 ≤ k → k < k0 + n →
        Event.write (connfd.getD k (-1)) READY_MSG (env.write (connfd.getD k (-1)) 1 READY_MSG)
          ∈ ev := by
  intro n
  induction n with
  | zero =>
    intro k0 w
    exact ⟨[], by simp [forRange, Step.state], fun k h1 h2 => by omega⟩
  | succ n ih =>
    intro k0 w
    simp only [forRange]
    obtain ⟨ev, hev, hmem⟩ := ih (k0 + 1)
      ((if env.write (connfd.getD k0 (-1)) 1 READY_MSG ≠ READY_MSG.length then
          (w.log (Event.write (connfd.getD k0 (-1)) READY_MSG
            (env.write (connfd.getD k0 (-1)) 1 READY_MSG))).log
            (Event.stderr "Couldn't write to node with ready notification")
        else w.log (Event.write (connfd.getD k0 (-1)) READY_MSG
            (env.write (connfd.getD k0 (-1)) 1 READY_MSG))).log
        (Event.close (connfd.getD k0 (-1))))
    by_cases hn : env.write (connfd.getD k0 (-1)) 1 READY_MSG = READY_MSG.length
    · refine ⟨Event.write (connfd.getD k0 (-1)) READY_MSG
          (env.write (connfd.getD k0 (-1)) 1 READY_MSG) ::
          Event.close (connfd.getD k0 (-1)) :: ev, ?_, ?_⟩
      · rw [hev]
        simp only [World.log, hn, ne_eq, not_true_eq_false, if_false, List.append_assoc,
          List.singleton_append, List.cons_append, List.nil_append]
      · intro k hk1 hk2
        by_cases hk : k = k0
        · subst hk; exact List.mem_cons_self _ _
        · exact List.mem_cons_of_mem _ (List.mem_cons_of_mem _ (hmem k (by omega) (by omega)))
    · refine ⟨Event.write (connfd.getD k0 (-1)) READY_MSG
          (env.write (connfd.getD k0 (-1)) 1 READY_MSG) ::
          Event.stderr "Couldn't write to node with ready notification" ::
          Event.close (connfd.getD k0 (-1)) :: ev, ?_, ?_⟩
      · rw [hev]
        simp only [World.log, hn, ne_eq, not_false_eq_true, if_true, List.append_assoc,
          List.singleton_append, List.cons_append, List.nil_append]
      · intro k hk1 hk2
        by_cases hk : k = k0
        · subst hk; exact List.mem_cons_self _ _
        · exact List.mem_cons_of_mem _ (List.mem_cons_of_mem _
            (List.mem_cons_of_mem _ (hmem k (by omega) (by omega))))

/-! ## The member loop makes no call of `accept` -/

theorem ewa_refl (w : World) : extends_without_accept w w :=
  ⟨[], by simp, by simp⟩

theorem ewa_log (w w1 : World) (e : Event) (h : extends_without_accept w w1)
    (he : is_accept e = false) : extends_without_accept w (w1.log e) := by
  obtain ⟨ev, h1, h2⟩ := h
  refine ⟨ev ++ [e], by simp [World.log, h1], ?_⟩
  intro x hx
  rcases List.mem_append.mp hx with hx | hx
  · exact h2 x hx
  · simp only [List.mem_singleton] at hx; subst hx; exact he

theorem ewa_modify (env : Env) (w w1 : World) (qp : Nat) (attr : ibv_qp_attr)
    (mask : List ibv_qp_attr_mask) (h : extends_without_accept w w1) :
    extends_without_accept w (ibv_modify_qp env w1 qp attr mask).2 := by
  obtain ⟨ev, h1, h2⟩ := ewa_log w w1 (Event.modify_qp qp attr mask (env.ibv_modify_qp qp attr)) h rfl
  exact ⟨ev, h1, h2⟩

theorem ewa_connect (env : Env) (w w1 : World) (qp : Nat) (port : Int) (my_psn mtu : Nat)
    (sl : Int) (dest : pingpong_dest) (sgid_idx : Int) (h : extends_without_accept w w1) :
    extends_without_accept w (pp_connect_ctx env w1 qp port my_psn mtu sl dest sgid_idx).2 := by
  unfold pp_connect_ctx
  simp only
  split_ifs
  · exact ewa_log _ _ _ (ewa_modify env _ _ _ _ _ h) rfl
  · exact ewa_log _ _ _ (ewa_modify env _ _ _ _ _ (ewa_modify env _ _ _ _ _ h)) rfl
  · exact ewa_modify env _ _ _ _ _ (ewa_modify env _ _ _ _ _ h)

theorem ewa_server_member (env : Env) (ib_port : Int) (mtu : Nat) (sl : Int)
    (my_dest : List pingpong_dest) (sgid_idx : Int) (connfd : List Int) (k : Nat)
    (w : World) (s : ExchState) (h : extends_without_accept w s.w) :
    extends_without_accept w
      (server_member env ib_port mtu sl my_dest sgid_idx connfd k s).state.w := by
  unfold server_member
  simp only
  split
  · exact ewa_log _ _ _ (ewa_log _ _ _ h rfl) rfl
  · split
    · exact ewa_log _ _ _ h rfl
    · split
      · exact ewa_log _ _ _ (ewa_connect env _ _ _ _ _ _ _ _ _ (ewa_log _ _ _ h rfl)) rfl
      · split
        · exact ewa_log _ _ _ (ewa_log _ _ _
            (ewa_connect env _ _ _ _ _ _ _ _ _ (ewa_log _ _ _ h rfl)) rfl) rfl
        · exact ewa_log _ _ _ (ewa_log _ _ _
            (ewa_connect env _ _ _ _ _ _ _ _ _ (ewa_log _ _ _ h rfl)) rfl) rfl

theorem ewa_member_loop (env : Env) (ib_port : Int) (mtu : Nat) (sl : Int)
    (my_dest : List pingpong_dest) (sgid_idx : Int) (connfd : List Int) (w : World) :
    ∀ (n k0 : Nat) (s : ExchState), extends_without_accept w s.w →
      extends_without_accept w
        (forRange n k0 (server_member env ib_port mtu sl my_dest sgid_idx connfd) s).state.w := by
  intro n
  induction n with
  | zero => intro k0 s h; exact h
  | succ n ih =>
    intro k0 s h
    have hk := ewa_server_member env ib_port mtu sl my_dest sgid_idx connfd k0 w s h
    simp only [forRange]
    cases hb : server_member env ib_port mtu sl my_dest sgid_idx connfd k0 s with
    | next s1 =>
      rw [hb] at hk
      exact ih (k0 + 1) s1 hk
    | out s1 =>
      rw [hb] at hk
      exact hk

/-! ## The run in which every post is accepted -/

/-- When every post is accepted the scheduler returns 0 having posted the whole schedule. -/
theorem server_pre_post_wqes_all_ok (env : Env) (ctx : pingpong_context) (size : Nat)
    (w : World) (iters : Int) (rem_dest : List pingpong_dest) (N : Nat) (hnd : no_div_zero ctx)
    (hacc : ∀ m e1, (schedule ctx size iters rem_dest N)[m]? = some e1 →
      env.ibv_post_send (w.posted + m) e1.1 e1.2.1 = 0) :
    server_pre_post_wqes env ctx size w iters rem_dest N
      = { w := { trace := w.trace ++ (schedule ctx size iters rem_dest N).map (post_event 0),
                 qp_state := w.qp_state,
                 posted := w.posted + (schedule ctx size iters rem_dest N).length },
          ret := 0, fault := false } := by
  rw [server_pre_post_wqes_eq env ctx size w iters rem_dest N hnd,
    post_seq_ok env (schedule ctx size iters rem_dest N) { w := w, ret := 0, fault := false } rfl
      (by intro m e1 hm; exact hacc m e1 (by simpa using hm))]
  rfl

/-- In that run the call number `position N i j is_wait` is the post of the request of
`(i, j)` of that kind on queue pair `j`. -/
theorem posted_at (env : Env) (ctx : pingpong_context) (size : Nat)
    (w : World) (iters : Int) (rem_dest : List pingpong_dest) (N i j : Nat) (is_wait : Bool)
    (hnd : no_div_zero ctx) (hi : (i : Int) < iters) (hj : j < N)
    (hacc : ∀ m e1, (schedule ctx size iters rem_dest N)[m]? = some e1 →
      env.ibv_post_send (w.posted + m) e1.1 e1.2.1 = 0) :
    (server_pre_post_wqes env ctx size w iters rem_dest N).w.trace[
        w.trace.length + position N i j is_wait]?
      = some (Event.post_send j (request ctx size iters rem_dest N i j is_wait) 0) := by
  rw [server_pre_post_wqes_all_ok env ctx size w iters rem_dest N hnd hacc]
  simp only
  rw [List.getElem?_append_right (by omega), Nat.add_sub_cancel_left, List.getElem?_map,
    schedule_at ctx size iters rem_dest N i j is_wait (by omega) hj]
  rfl

theorem schedule_iter_waits (ctx : pingpong_context) (size : Nat) (iters : Int)
    (rem_dest : List pingpong_dest) (N i : Nat) :
    ((schedule_iter ctx size iters rem_dest N i).map (post_event 0)).countP is_wait_post = N ∧
    ((schedule_iter ctx size iters rem_dest N i).map (post_event 0)).countP is_forward_post
      = N := by
  have hw : ∀ a ∈ (List.range N).map (fun j =>
      post_event 0 (j, request ctx size iters rem_dest N i j true, true)),
      is_wait_post a = true ∧ is_forward_post a = false := by
    intro a ha
    simp only [List.mem_map] at ha
    obtain ⟨j, -, rfl⟩ := ha
    exact ⟨rfl, rfl⟩
  have hf : ∀ a ∈ (List.range N).map (fun j =>
      post_event 0 (j, request ctx size iters rem_dest N i j false, false)),
      is_wait_post a = false ∧ is_forward_post a = true := by
    intro a ha
    simp only [List.mem_map] at ha
    obtain ⟨j, -, rfl⟩ := ha
    exact ⟨rfl, rfl⟩
  have l1 : ((List.range N).map (fun j =>
      post_event 0 (j, request ctx size iters rem_dest N i j true, true))).length = N := by simp
  have l2 : ((List.range N).map (fun j =>
      post_event 0 (j, request ctx size iters rem_dest N i j false, false))).length = N := by
    simp
  simp only [schedule_iter, List.map_append, List.map_map, Function.comp_def,
    List.countP_append]
  rw [List.countP_eq_length.mpr (fun a ha => (hw a ha).1),
    List.countP_eq_zero.mpr (fun a ha => by simp [(hf a ha).1]),
    List.countP_eq_zero.mpr (fun a ha => by simp [(hw a ha).2]),
    List.countP_eq_length.mpr (fun a ha => (hf a ha).2), l1, l2]
  exact ⟨rfl, by omega⟩

theorem schedule_counts (ctx : pingpong_context) (size : Nat) (iters : Int)
    (rem_dest : List pingpong_dest) (N : Nat) :
    ∀ n : Nat,
      (((List.range n).flatMap (schedule_iter ctx size iters rem_dest N)).map
          (post_event 0)).countP is_wait_post = N * n ∧
      (((List.range n).flatMap (schedule_iter ctx size iters rem_dest N)).map
          (post_event 0)).countP is_forward_post = N * n := by
  intro n
  induction n with
  | zero => simp
  | succ n ih =>
    obtain ⟨a, b⟩ := schedule_iter_waits ctx size iters rem_dest N n
    rw [List.range_succ, List.flatMap_append, List.map_append, List.countP_append,
      List.countP_append, ih.1, ih.2]
    simp only [List.flatMap_cons, List.flatMap_nil, List.append_nil, a, b]
    constructor <;> ring

/-! ## Projection of the schedule onto one send queue -/

theorem filter_range_eq (q : Nat) : ∀ N : Nat,
    (List.range N).filter (fun j => decide (j = q)) = if q < N then [q] else [] := by
  intro N
  induction N with
  | zero => simp
  | succ N ih =>
    rw [List.range_succ, List.filter_append, ih]
    by_cases h1 : q < N
    · have h2 : ¬ (N = q) := by omega
      simp [h1, h2, Nat.lt_succ_of_lt h1]
    · by_cases h2 : N = q
      · subst h2; simp
      · have h3 : ¬ (q < N + 1) := by omega
        simp [h1, h2, h3]

theorem on_queue_map (q N : Nat) (f : Nat → ibv_send_wr × Bool) :
    on_queue q ((List.range N).map (fun j => (j, f j))) = if q < N then [(q, f q)] else [] := by
  unfold on_queue
  rw [List.filter_map]
  have : ((fun e : Nat × ibv_send_wr × Bool => decide (e.1 = q)) ∘ fun j => (j, f j))
      = fun j => decide (j = q) := rfl
  rw [this, filter_range_eq]
  split_ifs <;> rfl

theorem on_queue_pairs (q : Nat) (f g : Nat → ibv_send_wr × Bool) : ∀ N : Nat,
    on_queue q ((List.range N).flatMap (fun j => [(j, f j), (j, g j)]))
      = if q < N then [(q, f q), (q, g q)] else [] := by
  intro N
  induction N with
  | zero => simp [on_queue]
  | succ N ih =>
    unfold on_queue at ih ⊢
    rw [List.range_succ, List.flatMap_append, List.filter_append, ih]
    by_cases h1 : q < N
    · have h2 : ¬ (N = q) := by omega
      simp [h1, h2, Nat.lt_succ_of_lt h1, List.filter_cons]
    · by_cases h2 : N = q
      · subst h2; simp [List.filter_cons]
      · have h3 : ¬ (q < N + 1) := by omega
        simp [h1, h2, h3, List.filter_cons]

theorem on_queue_schedule_iter (ctx : pingpong_context) (size : Nat) (iters : Int)
    (rem_dest : List pingpong_dest) (N i q : Nat) :
    on_queue q (schedule_iter ctx size iters rem_dest N i)
      = if q < N then
          [(q, request ctx size iters rem_dest N i q true, true),
           (q, request ctx size iters rem_dest N i q false, false)]
        else [] := by
  have h1 := on_queue_map q N (fun j => (request ctx size iters rem_dest N i j true, true))
  have h2 := on_queue_map q N (fun j => (request ctx size iters rem_dest N i j false, false))
  unfold on_queue at h1 h2 ⊢
  unfold schedule_iter
  rw [List.filter_append, h1, h2]
  split_ifs <;> rfl

theorem on_queue_schedule (ctx : pingpong_context) (size : Nat) (iters : Int)
    (rem_dest : List pingpong_dest) (N q : Nat) :
    on_queue q (schedule ctx size iters rem_dest N)
      = (List.range iters.toNat).flatMap (fun i =>
          if q < N then
            [(q, request ctx size iters rem_dest N i q true, true),
             (q, request ctx size iters rem_dest N i q false, false)]
          else []) := by
  have h : ∀ i, List.filter (fun e : Nat × ibv_send_wr × Bool => decide (e.1 = q))
      (schedule_iter ctx size iters rem_dest N i)
      = if q < N then
          [(q, request ctx size iters rem_dest N i q true, true),
           (q, request ctx size iters rem_dest N i q false, false)]
        else [] := fun i => on_queue_schedule_iter ctx size iters rem_dest N i q
  unfold on_queue schedule
  rw [List.filter_flatMap]
  simp only [h]

theorem on_queue_spec_schedule (ctx : pingpong_context) (size : Nat) (iters : Int)
    (rem_dest : List pingpong_dest) (N q : Nat) :
    on_queue q (spec_schedule ctx size iters rem_dest N)
      = (List.range iters.toNat).flatMap (fun i =>
          if q < N then
            [(q, request ctx size iters rem_dest N i q true, true),
             (q, request ctx size iters rem_dest N i q false, false)]
          else []) := by
  have h : ∀ i, List.filter (fun e : Nat × ibv_send_wr × Bool => decide (e.1 = q))
      ((List.range N).flatMap (fun j =>
        [(j, request ctx size iters rem_dest N i j true, true),
         (j, request ctx size iters rem_dest N i j false, false)]))
      = if q < N then
          [(q, request ctx size iters rem_dest N i q true, true),
           (q, request ctx size iters rem_dest N i q false, false)]
        else [] := fun i =>
    on_queue_pairs q (fun j => (request ctx size iters rem_dest N i j true, true))
      (fun j => (request ctx size iters rem_dest N i j false, false)) N
  unfold on_queue spec_schedule
  rw [List.filter_flatMap]
  simp only [h]

/-! ## The local descriptors -/

theorem pp_get_local_lid_some (q : Int × ibv_port_attr) (lid : Nat)
    (h : pp_get_local_lid q = some lid) :
    q.1 = 0 ∧ lid = q.2.lid ∧
    (q.2.link_layer ≠ ibv_link_layer.IBV_LINK_LAYER_ETHERNET → lid ≠ 0) := by
  unfold pp_get_local_lid at h
  split_ifs at h with h1 h2
  simp only [Option.some.injEq] at h
  subst h
  refine ⟨by simpa using h1, rfl, ?_⟩
  intro hl h0
  exact h2 ⟨hl, h0⟩

theorem more_dests_spec (h : HostEnv) (ctx : pingpong_context) (user_param : perftest_parameters)
    (temp_gid : List Nat) :
    ∀ (cnt j0 : Nat) (ds : List pingpong_dest),
      more_dests h ctx user_param temp_gid cnt j0 = some ds →
      ds.length = cnt ∧
      ∀ k d, ds[k]? = some d →
        ∃ lid, pp_get_local_lid (h.ibv_query_port (j0 + k)) = some lid ∧
          d = fill_dest h ctx user_param temp_gid (j0 + k) (j0 + k) lid
                (h.stack_mac (j0 + k)) := by
  intro cnt
  induction cnt with
  | zero =>
    intro j0 ds hds
    simp only [more_dests, Option.some.injEq] at hds
    subst hds
    exact ⟨rfl, fun k d hk => by simp at hk⟩
  | succ cnt ih =>
    intro j0 ds hds
    simp only [more_dests] at hds
    cases hl : pp_get_local_lid (h.ibv_query_port j0) with
    | none => rw [hl] at hds; simp at hds
    | some lid =>
      rw [hl] at hds
      cases hm : more_dests h ctx user_param temp_gid cnt (j0 + 1) with
      | none => rw [hm] at hds; simp at hds
      | some ds1 =>
        rw [hm] at hds
        simp only [Option.some.injEq] at hds
        subst hds
        obtain ⟨hlen, hall⟩ := ih (j0 + 1) ds1 hm
        refine ⟨by simp [hlen], ?_⟩
        intro k d hk
        cases k with
        | zero =>
          simp only [List.getElem?_cons_zero, Option.some.injEq] at hk
          subst hk
          exact ⟨lid, hl, rfl⟩
        | succ k =>
          simp only [List.getElem?_cons_succ] at hk
          obtain ⟨lid1, h1, h2⟩ := hall k d hk
          rw [show j0 + 1 + k = j0 + (k + 1) by omega] at h1 h2
          exact ⟨lid1, h1, h2⟩

/-! ## The test of the interface identifier -/

theorem interface_id_nonzero_iff (d : pingpong_dest) :
    interface_id_nonzero d = true ↔ ∃ i, 8 ≤ i ∧ i < 16 ∧ d.gid.getD i 0 % 256 ≠ 0 := by
  unfold interface_id_nonzero
  rw [List.any_eq_true]
  constructor
  · rintro ⟨x, hx, hp⟩
    rw [List.mem_iff_getElem?] at hx
    obtain ⟨i, hi⟩ := hx
    rw [List.getElem?_take] at hi
    split at hi
    · rw [List.getElem?_drop] at hi
      refine ⟨8 + i, by omega, by omega, ?_⟩
      rw [List.getD_eq_getElem?_getD, hi]
      simpa using hp
    · exact absurd hi (by simp)
  · rintro ⟨i, h8, h16, hne⟩
    have hlen : i < d.gid.length := by
      by_contra hge
      rw [List.getD_eq_default _ _ (by omega)] at hne
      exact hne rfl
    refine ⟨d.gid.getD i 0, ?_, by simpa using hne⟩
    rw [List.mem_iff_getElem?]
    refine ⟨i - 8, ?_⟩
    rw [List.getElem?_take, if_pos (by omega), List.getElem?_drop,
      show 8 + (i - 8) = i by omega, List.getD_eq_getElem _ _ hlen]
    exact List.getElem?_eq_getElem hlen

/-! ## The digits of the wire form -/

theorem fixedHex8_beWord (b0 b1 b2 b3 : Nat) :
    fixedHex 8 (beWord b0 b1 b2 b3)
      = [hexChar (b0 % 256 / 16), hexChar (b0 % 256 % 16), hexChar (b1 % 256 / 16),
         hexChar (b1 % 256 % 16), hexChar (b2 % 256 / 16), hexChar (b2 % 256 % 16),
         hexChar (b3 % 256 / 16), hexChar (b3 % 256 % 16)] := by
  have h0 : b0 % 256 < 256 := Nat.mod_lt _ (by norm_num)
  have h1 : b1 % 256 < 256 := Nat.mod_lt _ (by norm_num)
  have h2 : b2 % 256 < 256 := Nat.mod_lt _ (by norm_num)
  have h3 : b3 % 256 < 256 := Nat.mod_lt _ (by norm_num)
  simp only [fixedHex, beWord, Nat.reducePow]
  generalize b0 % 256 = x at h0 ⊢
  generalize b1 % 256 = y at h1 ⊢
  generalize b2 % 256 = z at h2 ⊢
  generalize b3 % 256 = t at h3 ⊢
  have e7 : (x * 16777216 + y * 65536 + z * 256 + t) / 268435456 % 16 = x / 16 := by omega
  have e6 : (x * 16777216 + y * 65536 + z * 256 + t) / 16777216 % 16 = x % 16 := by omega
  have e5 : (x * 16777216 + y * 65536 + z * 256 + t) / 1048576 % 16 = y / 16 := by omega
  have e4 : (x * 16777216 + y * 65536 + z * 256 + t) / 65536 % 16 = y % 16 := by omega
  have e3 : (x * 16777216 + y * 65536 + z * 256 + t) / 4096 % 16 = z / 16 := by omega
  have e2 : (x * 16777216 + y * 65536 + z * 256 + t) / 256 % 16 = z % 16 := by omega
  have e1 : (x * 16777216 + y * 65536 + z * 256 + t) / 16 % 16 = t / 16 := by omega
  have e0 : (x * 16777216 + y * 65536 + z * 256 + t) / 1 % 16 = t % 16 := by omega
  rw [e7, e6, e5, e4, e3, e2, e1, e0]

theorem hexChar_lower : ∀ d, d < 16 → is_lower_hex (hexChar d) = true := by
  decide

/-! ## The poll loop of the client -/

theorem client_poll_loop_spec : ∀ (polls : List PollResult) (w : World) (r : PollLoop)
    (rest : List PollResult) (w1 : World), client_poll_loop polls w = (r, rest, w1) →
    w1.posted = w.posted ∧
    (∀ c, r = PollLoop.got c → ∃ zs p, polls = zs ++ p :: rest ∧ empty_polls zs ∧ 1 ≤ p.ne ∧
      p.status = 0 ∧ w1.trace = w.trace ++ (zs ++ [p]).map poll_event) ∧
    (∀ code, r = PollLoop.returned code → code = 1 ∧ ∃ zs p msg, polls = zs ++ p :: rest ∧
      empty_polls zs ∧ failed_poll p ∧
      w1.trace = w.trace ++ ((zs ++ [p]).map poll_event ++ [Event.stderr msg])) ∧
    (r = PollLoop.polling → empty_polls polls ∧ rest = [] ∧
      w1.trace = w.trace ++ polls.map poll_event) := by
  intro polls
  induction polls with
  | nil =>
    intro w r rest w1 h
    simp only [client_poll_loop, Prod.mk.injEq] at h
    obtain ⟨rfl, rfl, rfl⟩ := h
    refine ⟨rfl, (fun c hc => by cases hc), (fun c hc => by cases hc), fun _ => ⟨?_, rfl, by simp⟩⟩
    intro z hz
    cases hz
  | cons p ps ih =>
    intro w r rest w1 h
    by_cases h1 : p.ne < 0
    · simp only [client_poll_loop, h1, if_true, Prod.mk.injEq] at h
      obtain ⟨rfl, rfl, rfl⟩ := h
      refine ⟨rfl, (fun c hc => by cases hc), ?_, fun hc => by cases hc⟩
      intro code hc
      cases hc
      exact ⟨rfl, [], p, "poll CQ failed", rfl, (fun z hz => by cases hz), Or.inl h1,
        by simp [World.log]⟩
    · by_cases h2 : p.ne > 0 ∧ p.status ≠ 0
      · simp only [client_poll_loop, h1, h2, and_self, if_true, if_false, Prod.mk.injEq,
          ne_eq, not_false_eq_true] at h
        obtain ⟨rfl, rfl, rfl⟩ := h
        refine ⟨rfl, (fun c hc => by cases hc), ?_, fun hc => by cases hc⟩
        intro code hc
        cases hc
        exact ⟨rfl, [], p, "poll CQ returned with an error", rfl, (fun z hz => by cases hz),
          Or.inr h2, by simp [World.log]⟩
      · by_cases h3 : p.ne < 1
        · have h0 : p.ne = 0 := by omega
          have hrec : client_poll_loop ps (w.log (poll_event p)) = (r, rest, w1) := by
            rw [← h]
            simp only [client_poll_loop, h1, h2, h3, if_true, if_false]
          obtain ⟨q1, q2, q3, q4⟩ := ih _ _ _ _ hrec
          have hz : ∀ zs, empty_polls zs → empty_polls (p :: zs) := by
            intro zs hzs z hz
            rcases List.mem_cons.mp hz with rfl | hz
            · exact h0
            · exact hzs z hz
          refine ⟨q1, ?_, ?_, ?_⟩
          · intro c hc
            obtain ⟨zs, p1, e1, e2, e3, e4, e5⟩ := q2 c hc
            refine ⟨p :: zs, p1, by rw [e1]; rfl, hz zs e2, e3, e4, ?_⟩
            rw [e5]
            simp [World.log]
          · intro code hc
            obtain ⟨e0, zs, p1, msg, e1, e2, e3, e5⟩ := q3 code hc
            refine ⟨e0, p :: zs, p1, msg, by rw [e1]; rfl, hz zs e2, e3, ?_⟩
            rw [e5]
            simp [World.log]
          · intro hc
            obtain ⟨e1, e2, e3⟩ := q4 hc
            refine ⟨hz ps e1, e2, ?_⟩
            rw [e3]
            simp [World.log]
        · simp only [client_poll_loop, h1, h2, h3, if_false, Prod.mk.injEq] at h
          obtain ⟨rfl, rfl, rfl⟩ := h
          refine ⟨rfl, ?_, (fun c hc => by cases hc), fun hc => by cases hc⟩
          intro c _
          refine ⟨[], p, rfl, (fun z hz => by cases hz), by omega, ?_, by simp [World.log]⟩
          by_contra hs
          exact h2 ⟨by omega, hs⟩

/-- The poll loop is left with a completion when the polls start with a complete cycle. -/
theorem client_poll_loop_good : ∀ (zs : List PollResult) (p : PollResult)
    (rest : List PollResult) (w : World), empty_polls zs → 1 ≤ p.ne → p.status = 0 →
    client_poll_loop (zs ++ p :: rest) w
      = (PollLoop.got p.ne, rest,
          { w with trace := w.trace ++ (zs ++ [p]).map poll_event }) := by
  intro zs
  induction zs with
  | nil =>
    intro p rest w _ h1 h2
    have a1 : ¬ p.ne < 0 := by omega
    have a3 : ¬ p.ne < 1 := by omega
    simp [client_poll_loop, a1, a3, h2, World.log]
  | cons z zs ih =>
    intro p rest w hz h1 h2
    have hz0 : z.ne = 0 := hz z (List.mem_cons_self _ _)
    have a1 : ¬ z.ne < 0 := by omega
    have a2 : ¬ (z.ne > 0 ∧ z.status ≠ 0) := by omega
    have a3 : z.ne < 1 := by omega
    have hrec := ih p rest (w.log (poll_event z))
      (fun y hy => hz y (List.mem_cons_of_mem _ hy)) h1 h2
    simp only [List.cons_append, client_poll_loop, a1, a2, a3, if_true, if_false, List.append_eq]
    rw [hrec]
    simp [World.log]

/-! ## The benchmark loop of the client -/

theorem pp_post_send_eq (env : Env) (w : World) (ctx : pingpong_context)
    (rem_dest : pingpong_dest) :
    pp_post_send env w ctx rem_dest
      = (env.ibv_post_send w.posted 0 (pp_post_send_wr ctx rem_dest),
         { trace := w.trace ++ [Event.post_send 0 (pp_post_send_wr ctx rem_dest)
             (env.ibv_post_send w.posted 0 (pp_post_send_wr ctx rem_dest))],
           qp_state := w.qp_state, posted := w.posted + 1 }) := rfl

/-- Every run of the client loop consists of complete cycles, followed by nothing (all
iterations done), by a rejected post or a failed poll (`return 1`), or by polls that delivered
nothing (still polling). -/
theorem client_loop_spec (env : Env) (ctx : pingpong_context) (rem_dest : pingpong_dest) :
    ∀ (n : Nat) (polls : List PollResult) (w : World) (r : ClientLoop)
      (rest : List PollResult) (w1 : World),
      client_loop env ctx rem_dest n polls w = (r, rest, w1) →
      ∃ cycles : List (List PollResult), (∀ c ∈ cycles, good_cycle c) ∧
        (r = ClientLoop.finished →
          cycles.length = n ∧ polls = cycles.flatten ++ rest ∧
          w1.trace = w.trace ++ cycles.flatMap (cycle_events ctx rem_dest)) ∧
        (∀ code, r = ClientLoop.returned code →
          code = 1 ∧ cycles.length < n ∧
          ((∃ ret, ret ≠ 0 ∧
              w1.trace = w.trace ++ (cycles.flatMap (cycle_events ctx rem_dest) ++
                [Event.post_send 0 (pp_post_send_wr ctx rem_dest) ret,
                 Event.stderr "Couldn't post send"])) ∨
           (∃ zs p msg, empty_polls zs ∧ failed_poll p ∧
              polls = cycles.flatten ++ (zs ++ p :: rest) ∧
              w1.trace = w.trace ++ (cycles.flatMap (cycle_events ctx rem_dest) ++
                (Event.post_send 0 (pp_post_send_wr ctx rem_dest) 0 ::
                  ((zs ++ [p]).map poll_event ++ [Event.stderr msg])))))) ∧
        (r = ClientLoop.polling →
          cycles.length < n ∧ rest = [] ∧
          ∃ zs, empty_polls zs ∧ polls = cycles.flatten ++ zs ∧
            w1.trace = w.trace ++ (cycles.flatMap (cycle_events ctx rem_dest) ++
              (Event.post_send 0 (pp_post_send_wr ctx rem_dest) 0 :: zs.map poll_event))) := by
  intro n
  induction n with
  | zero =>
    intro polls w r rest w1 h
    simp only [client_loop, Prod.mk.injEq] at h
    obtain ⟨rfl, rfl, rfl⟩ := h
    refine ⟨[], (fun c hc => by cases hc), (fun _ => ⟨rfl, by simp, by simp⟩),
      (fun code hc => by cases hc), (fun hc => by cases hc)⟩
  | succ n ih =>
    intro polls w r rest w1 h
    by_cases hp : env.ibv_post_send w.posted 0 (pp_post_send_wr ctx rem_dest) = 0
    · rw [client_loop, pp_post_send_eq] at h
      simp only [hp, ne_eq, not_true_eq_false, if_false] at h
      rcases hx : client_poll_loop polls
          { trace := w.trace ++ [Event.post_send 0 (pp_post_send_wr ctx rem_dest) 0],
            qp_state := w.qp_state, posted := w.posted + 1 } with ⟨pr, rest1, w2⟩
      rw [hx] at h
      obtain ⟨-, q2, q3, q4⟩ := client_poll_loop_spec _ _ _ _ _ hx
      cases pr with
      | got c =>
        simp only at h
        obtain ⟨zs, p, e1, e2, e3, e4, e5⟩ := q2 c rfl
        obtain ⟨cycles, g1, g2, g3, g4⟩ := ih _ _ _ _ _ h
        have hg : ∀ c1 ∈ (zs ++ [p]) :: cycles, good_cycle c1 := by
          intro c1 hc1
          rcases List.mem_cons.mp hc1 with rfl | hc1
          · exact ⟨zs, p, rfl, e2, e3, e4⟩
          · exact g1 c1 hc1
        simp only at e5
        refine ⟨(zs ++ [p]) :: cycles, hg, ?_, ?_, ?_⟩
        · intro hr
          obtain ⟨f1, f2, f3⟩ := g2 hr
          refine ⟨by simp [f1], ?_, ?_⟩
          · rw [e1, f2]; simp
          · rw [f3, e5]; simp [cycle_events]
        · intro code hr
          obtain ⟨f1, f2, f3⟩ := g3 code hr
          refine ⟨f1, by simp; omega, ?_⟩
          rcases f3 with ⟨ret, r1, r2⟩ | ⟨zs1, p1, msg, r1, r2, r3, r4⟩
          · left
            refine ⟨ret, r1, ?_⟩
            rw [r2, e5]; simp [cycle_events]
          · right
            refine ⟨zs1, p1, msg, r1, r2, ?_, ?_⟩
            · rw [e1, r3]; simp
            · rw [r4, e5]; simp [cycle_events]
        · intro hr
          obtain ⟨f1, f2, zs1, r1, r3, r4⟩ := g4 hr
          refine ⟨by simp; omega, f2, zs1, r1, ?_, ?_⟩
          · rw [e1, r3]; simp
          · rw [r4, e5]; simp [cycle_events]
      | returned code =>
        simp only [Prod.mk.injEq] at h
        obtain ⟨rfl, rfl, rfl⟩ := h
        obtain ⟨e0, zs, p, msg, e1, e2, e3, e5⟩ := q3 code rfl
        simp only at e5
        refine ⟨[], (fun c hc => by cases hc), (fun hc => by cases hc), ?_,
          (fun hc => by cases hc)⟩
        intro code1 hc
        cases hc
        refine ⟨e0, by simp, Or.inr ⟨zs, p, msg, e2, e3, by simpa using e1, ?_⟩⟩
        rw [e5]; simp
      | polling =>
        simp only [Prod.mk.injEq] at h
        obtain ⟨rfl, rfl, rfl⟩ := h
        obtain ⟨e1, e2, e5⟩ := q4 rfl
        simp only at e5
        refine ⟨[], (fun c hc => by cases hc), (fun hc => by cases hc),
          (fun code hc => by cases hc), ?_⟩
        intro _
        refine ⟨by simp, e2, polls, e1, by simp, ?_⟩
        rw [e5]; simp
    · rw [client_loop, pp_post_send_eq] at h
      simp only [hp, ne_eq, not_false_eq_true, if_true, Prod.mk.injEq] at h
      obtain ⟨rfl, rfl, rfl⟩ := h
      refine ⟨[], (fun c hc => by cases hc), (fun hc => by cases hc), ?_,
        (fun hc => by cases hc)⟩
      intro code hc
      cases hc
      exact ⟨rfl, by simp, Or.inl ⟨_, hp, by simp [World.log]⟩⟩

/-- When every post is accepted and the polls are `n` complete cycles, the loop does all `n`
iterations. -/
theorem client_loop_good (env : Env) (ctx : pingpong_context) (rem_dest : pingpong_dest) :
    ∀ (cycles : List (List PollResult)) (rest : List PollResult) (w : World),
      (∀ c ∈ cycles, good_cycle c) →
      (∀ k, k < cycles.length →
        env.ibv_post_send (w.posted + k) 0 (pp_post_send_wr ctx rem_dest) = 0) →
      client_loop env ctx rem_dest cycles.length (cycles.flatten ++ rest) w
        = (ClientLoop.finished, rest,
            { trace := w.trace ++ cycles.flatMap (cycle_events ctx rem_dest),
              qp_state := w.qp_state, posted := w.posted + cycles.length }) := by
  intro cycles
  induction cycles with
  | nil => intro rest w _ _; simp [client_loop]
  | cons c cycles ih =>
    intro rest w hg hacc
    obtain ⟨zs, p, rfl, e2, e3, e4⟩ := hg c (List.mem_cons_self _ _)
    have h0 := hacc 0 (by simp)
    rw [Nat.add_zero] at h0
    have hrec := ih rest
      { trace := w.trace ++ [Event.post_send 0 (pp_post_send_wr ctx rem_dest) 0]
          ++ (zs ++ [p]).map poll_event,
        qp_state := w.qp_state, posted := w.posted + 1 }
      (fun c1 hc1 => hg c1 (List.mem_cons_of_mem _ hc1))
      (fun k hk => by
        have := hacc (k + 1) (by simp; omega)
        rw [show w.posted + 1 + k = w.posted + (k + 1) by omega]
        exact this)
    have hpoll := client_poll_loop_good zs p (cycles.flatten ++ rest)
      { trace := w.trace ++ [Event.post_send 0 (pp_post_send_wr ctx rem_dest) 0],
        qp_state := w.qp_state, posted := w.posted + 1 } e2 e3 e4
    rw [List.length_cons, client_loop, pp_post_send_eq]
    simp only [h0, ne_eq, not_true_eq_false, if_false, List.flatten_cons, List.append_assoc,
      List.singleton_append, List.cons_append, List.nil_append]
    simp only [List.append_assoc, List.singleton_append] at hpoll hrec
    rw [hpoll]
    simp only
    rw [hrec]
    simp [cycle_events, Nat.add_assoc, Nat.add_comm 1]

theorem cycles_posts (ctx : pingpong_context) (rem_dest : pingpong_dest) :
    ∀ cycles : List (List PollResult),
      (cycles.flatMap (cycle_events ctx rem_dest)).countP is_post = cycles.length := by
  intro cycles
  induction cycles with
  | nil => rfl
  | cons c cycles ih =>
    have hc : (c.map poll_event).countP is_post = 0 := by
      rw [List.countP_eq_zero]
      intro a ha
      simp only [List.mem_map] at ha
      obtain ⟨p, -, rfl⟩ := ha
      simp [poll_event, is_post]
    rw [List.flatMap_cons, List.countP_append, ih, cycle_events, List.countP_cons, hc]
    simp [is_post]
    omega

/-! ## The parameters of an accepted option sequence -/

theorem parser_success (enum_signed : Bool) (user_param1 up : perftest_parameters)
    (opts : List Opt) (hp : parser enum_signed user_param1 opts = ParserResult.SUCCESS up) :
    int_ok (2 * up.iters) ∧ up.tx_depth = 2 * up.iters ∧
    up.num_of_nodes = user_param1.num_of_nodes := by
  unfold parser at hp
  cases hl : parser_loop enum_signed opts parser_init with
  | go l =>
    rw [hl] at hp
    simp only at hp
    split_ifs at hp with hok
    simp only [ParserResult.SUCCESS.injEq] at hp
    subst hp
    exact ⟨hok, rfl, rfl⟩
  | ret code => rw [hl] at hp; simp at hp
  | undefined => rw [hl] at hp; simp at hp

theorem on_queue_schedule_length (ctx : pingpong_context) (size : Nat) (iters : Int)
    (rem_dest : List pingpong_dest) (N q : Nat) (hq : q < N) :
    (on_queue q (schedule ctx size iters rem_dest N)).length = iters.toNat * 2 := by
  rw [on_queue_schedule]
  apply flatMap_range_length
  intro i
  simp [hq]

/-! ## The return values of the initialisation functions -/

theorem pp_init_ctx_result (e : InitEnv) (use_event : Int) :
    (pp_init_ctx e use_event).result = InitResult.returned 0 := by
  simp only [pp_init_ctx, apply_ite InitOutcome.result, client_cleanup, ite_self]

theorem server_cleanup_result (l : CleanupLabel) : zero_or_fault (server_cleanup l) = true := by
  unfold server_cleanup zero_or_fault
  simp only
  split_ifs <;> rfl

theorem pp_init_ctx_server_cases (e : InitEnv) (use_event : Int) (N : Nat) :
    zero_or_fault (pp_init_ctx_server e use_event N) = true := by
  have hz : zero_or_fault { result := InitResult.returned 0, failed_at := none } = true := rfl
  unfold pp_init_ctx_server
  generalize List.find? _ (List.range N) = o
  cases o <;> simp only [apply_ite zero_or_fault, server_cleanup_result, hz, ite_self]

theorem pp_init_ctx_server_result (e : InitEnv) (use_event : Int) (N : Nat) (code : Int)
    (h : (pp_init_ctx_server e use_event N).result = InitResult.returned code) : code = 0 := by
  have h0 := pp_init_ctx_server_cases e use_event N
  unfold zero_or_fault at h0
  rw [h] at h0
  simpa using h0

/-- Once the listening socket is set up, the calls of `pp_server_exch_dest` are `N` calls of
`accept`, the close of the listening socket, then calls none of which is an `accept`; a failed
accept makes the function return NULL after printing the error. -/
theorem accepts_then_rest (env : Env) (w : World) (ib_port : Int) (mtu : Nat) (sl : Int)
    (my_dest : List pingpong_dest) (sgid_idx : Int) (N : Nat)
    (h1 : 0 ≤ env.asprintf) (h2 : 0 ≤ env.getaddrinfo) (h3 : 0 ≤ env.sockfd) :
    ∃ rest,
      (pp_server_exch_dest env w ib_port mtu sl my_dest sgid_idx N).2.2.trace
        = w.trace ++ ((List.range N).map (fun k => Event.accept k (env.accept k))
            ++ Event.close env.sockfd :: rest) ∧
      ((List.range N).map (fun k => Event.accept k (env.accept k))).countP is_accept = N ∧
      (∀ e ∈ rest, is_accept e = false) ∧
      ((∃ k, k < N ∧ env.accept k < 0) →
        (pp_server_exch_dest env w ib_port mtu sl my_dest sgid_idx N).1 = none ∧
        rest = [Event.stderr "accept() failed for node"]) := by
  have hcount : ((List.range N).map (fun k => Event.accept k (env.accept k))).countP is_accept
      = N := by
    have : ∀ e ∈ (List.range N).map (fun k => Event.accept k (env.accept k)),
        is_accept e = true := by
      intro e he
      simp only [List.mem_map] at he
      obtain ⟨k, -, rfl⟩ := he
      rfl
    have hl : ((List.range N).map (fun k => Event.accept k (env.accept k))).length = N := by
      simp
    conv_rhs => rw [← hl]
    exact List.countP_eq_length.mpr this
  unfold pp_server_exch_dest
  simp only [not_lt.mpr h1, not_lt.mpr h2, not_lt.mpr h3, if_false]
  by_cases hany : (accept_all env N w).1.any (fun fd => decide (fd < 0)) = true
  · refine ⟨[Event.stderr "accept() failed for node"], ?_, hcount, ?_, ?_⟩
    · rw [if_pos hany]
      simp [accept_all, World.log]
    · intro e he
      simp only [List.mem_singleton] at he
      subst he; rfl
    · intro _
      rw [if_pos hany]
      exact ⟨rfl, rfl⟩
  · obtain ⟨ev, hev, hno⟩ := ewa_member_loop env ib_port mtu sl my_dest sgid_idx
      (accept_all env N w).1 ((accept_all env N w).2.log (Event.close env.sockfd)) N 0
      { w := (accept_all env N w).2.log (Event.close env.sockfd),
        rem_dest := some (List.replicate N Slot.uninit), gid := env.stack_gid }
      (ewa_refl _)
    refine ⟨ev, ?_, hcount, hno, ?_⟩
    · rw [if_neg hany]
      simp only [hev]
      simp [accept_all, World.log]
    · rintro ⟨k, hk, hneg⟩
      exfalso
      apply hany
      simp only [accept_all, List.any_eq_true, List.mem_map, List.mem_range, decide_eq_true_eq]
      exact ⟨env.accept k, ⟨k, hk, rfl⟩, hneg⟩


/-! ## Every run of the scheduler posts a prefix of the schedule -/

theorem post_seq_trace (env : Env) :
    ∀ (l : List (Nat × ibv_send_wr × Bool)) (s : SchedState),
      (post_seq env l s).state.w.trace = s.w.trace ++ post_run env l s.w.posted := by
  intro l
  induction l with
  | nil => intro s; simp [post_seq, post_run, Step.state]
  | cons e l ih =>
    intro s
    have hc : (ibv_post_send env s.w e.1 e.2.1).1 = env.ibv_post_send s.w.posted e.1 e.2.1 := rfl
    simp only [post_seq, post_run, hc]
    by_cases h : env.ibv_post_send s.w.posted e.1 e.2.1 ≠ 0
    · rw [if_pos h, if_pos h]
      simp [Step.state, World.log, ibv_post_send]
    · rw [if_neg h, if_neg h, ih]
      simp [ibv_post_send, World.log]

theorem send_loop_fault (env : Env) (ctx : pingpong_context) (size : Nat) (iters : Int)
    (rem_dest : List pingpong_dest) (N i : Nat) (hz : ¬ no_div_zero ctx) (cnt k : Nat)
    (s : SchedState) :
    forRange (cnt + 1) k (send_body env ctx size iters rem_dest N i) s
      = Step.out { s with fault := true } := by
  have hb : ((ctx.calc_op.opcode != IBV_CALC_OP_NA) && (ctx.calc_op.vector_count % 256 == 0))
      = true := by
    unfold no_div_zero at hz
    push_neg at hz
    simp [hz.1, hz.2]
  simp only [forRange, send_body, hb, if_true]

theorem empty_ring_loop (env : Env) (ctx : pingpong_context) (size : Nat) (iters : Int)
    (rem_dest : List pingpong_dest) :
    ∀ (cnt k : Nat) (s : SchedState),
      forRange cnt k (iter_body env ctx size iters rem_dest 0) s = Step.next s := by
  intro cnt
  induction cnt with
  | zero => intro k s; rfl
  | succ cnt ih =>
    intro k s
    simp only [forRange, iter_body]
    exact ih (k + 1) s

theorem schedule_take_waits (ctx : pingpong_context) (size : Nat) (iters : Int)
    (rem_dest : List pingpong_dest) (N : Nat) (hI : 0 < iters) :
    (schedule ctx size iters rem_dest N).take N
      = (List.range N).map (fun j => (j, request ctx size iters rem_dest N 0 j true, true)) := by
  obtain ⟨tail, ht⟩ := schedule_head ctx size iters rem_dest N hI
  rw [ht]
  exact List.take_left' (by simp)

/-- With a reduction opcode and a zero vector count, the calls of the scheduler are the posts of
the wait requests of iteration 0, up to the first rejected one. -/
theorem server_trace_fault (env : Env) (ctx : pingpong_context) (size : Nat) (w : World)
    (iters : Int) (rem_dest : List pingpong_dest) (N : Nat) (hz : ¬ no_div_zero ctx) :
    (server_pre_post_wqes env ctx size w iters rem_dest N).w.trace
      = w.trace ++ post_run env ((schedule ctx size iters rem_dest N).take N) w.posted := by
  unfold server_pre_post_wqes
  cases hI : iters.toNat with
  | zero =>
    have : schedule ctx size iters rem_dest N = [] := by
      unfold schedule
      rw [hI]
      rfl
    rw [this]
    simp [forRange, Step.state, post_run]
  | succ n =>
    have hpos : 0 < iters := by omega
    rw [schedule_take_waits ctx size iters rem_dest N hpos]
    cases N with
    | zero =>
      rw [empty_ring_loop]
      simp [Step.state, post_run]
    | succ M =>
      have ht := post_seq_trace env
        ((List.range (M + 1)).map
          (fun j => (j, request ctx size iters rem_dest (M + 1) 0 j true, true)))
        { w := w, ret := 0, fault := false }
      rw [forRange]
      simp only [iter_body]
      rw [wait_loop_eq env ctx size iters rem_dest (M + 1) 0 (M + 1) 0, ← List.range_eq_range']
      cases hp : post_seq env ((List.range (M + 1)).map
          (fun j => (j, request ctx size iters rem_dest (M + 1) 0 j true, true)))
          { w := w, ret := 0, fault := false } with
      | out s1 =>
        rw [hp] at ht
        simpa [Step.state] using ht
      | next s1 =>
        rw [hp] at ht
        simp only
        rw [send_loop_fault env ctx size iters rem_dest (M + 1) 0 hz M 0 s1]
        simpa [Step.state] using ht

/-- In every run the calls of the scheduler are the posts of the entries of the schedule, in
order, up to some entry; a rejected post is followed by the error message only. -/
theorem server_trace_prefix (env : Env) (ctx : pingpong_context) (size : Nat) (w : World)
    (iters : Int) (rem_dest : List pingpong_dest) (N : Nat) :
    ∃ n, (server_pre_post_wqes env ctx size w iters rem_dest N).w.trace
      = w.trace ++ post_run env ((schedule ctx size iters rem_dest N).take n) w.posted := by
  by_cases hnd : no_div_zero ctx
  · refine ⟨(schedule ctx size iters rem_dest N).length, ?_⟩
    rw [server_pre_post_wqes_eq env ctx size w iters rem_dest N hnd, post_seq_trace,
      List.take_length]
  · exact ⟨N, server_trace_fault env ctx size w iters rem_dest N hnd⟩

theorem post_run_index (env : Env) :
    ∀ (l : List (Nat × ibv_send_wr × Bool)) (p m qp : Nat) (wr : ibv_send_wr) (r : Int),
      (post_run env l p)[m]? = some (Event.post_send qp wr r) →
      (∃ b, l[m]? = some (qp, wr, b)) ∧ r = env.ibv_post_send (p + m) qp wr := by
  intro l
  induction l with
  | nil => intro p m qp wr r h; simp [post_run] at h
  | cons e l ih =>
    intro p m qp wr r h
    cases m with
    | zero =>
      simp only [post_run, List.getElem?_cons_zero, Option.some.injEq, Event.post_send.injEq] at h
      obtain ⟨h1, h2, h3⟩ := h
      refine ⟨⟨e.2.2, ?_⟩, ?_⟩
      · simp [← h1, ← h2]
      · rw [← h3, ← h1, ← h2]
        rfl
    | succ m =>
      simp only [post_run, List.getElem?_cons_succ] at h
      by_cases hr : env.ibv_post_send p e.1 e.2.1 ≠ 0
      · rw [if_pos hr] at h
        cases m with
        | zero => simp at h
        | succ m => simp at h
      · rw [if_neg hr] at h
        obtain ⟨hb, hret⟩ := ih (p + 1) m qp wr r h
        refine ⟨?_, ?_⟩
        · simpa using hb
        · rw [hret]
          congr 1
          omega

theorem getElem?_of_take {α : Type} :
    ∀ (l : List α) (n m : Nat) (x : α), (l.take n)[m]? = some x → l[m]? = some x := by
  intro l
  induction l with
  | nil => intro n m x h; simp at h
  | cons a l ih =>
    intro n m x h
    cases n with
    | zero => simp at h
    | succ n =>
      cases m with
      | zero => simpa using h
      | succ m =>
        simp only [List.take_succ_cons, List.getElem?_cons_succ] at h ⊢
        exact ih n m x h

/-- In every run, the call number `m` of the scheduler, if it is made, posts the entry number `m`
of the schedule, and the event records the answer of the transport. -/
theorem posted_request (env : Env) (ctx : pingpong_context) (size : Nat) (w : World)
    (iters : Int) (rem_dest : List pingpong_dest) (N m qp : Nat) (wr : ibv_send_wr) (r : Int)
    (h : (server_pre_post_wqes env ctx size w iters rem_dest N).w.trace[w.trace.length + m]?
      = some (Event.post_send qp wr r)) :
    (∃ b, (schedule ctx size iters rem_dest N)[m]? = some (qp, wr, b)) ∧
    r = env.ibv_post_send (w.posted + m) qp wr := by
  obtain ⟨n, hn⟩ := server_trace_prefix env ctx size w iters rem_dest N
  rw [hn, List.getElem?_append_right (by omega), Nat.add_sub_cancel_left] at h
  obtain ⟨⟨b, hb⟩, hr⟩ := post_run_index env _ w.posted m qp wr r h
  exact ⟨⟨b, getElem?_of_take _ n m _ hb⟩, hr⟩

theorem queue_posts_post_run (env : Env) (q : Nat) :
    ∀ (l : List (Nat × ibv_send_wr × Bool)) (p : Nat),
      queue_posts q (post_run env l p) <+: (on_queue q l).map (fun e => e.2.1) := by
  intro l
  induction l with
  | nil => intro p; simp [post_run, queue_posts]
  | cons e l ih =>
    intro p
    by_cases hr : env.ibv_post_send p e.1 e.2.1 ≠ 0
    · have : queue_posts q (post_run env (e :: l) p) = [] := by
        simp [post_run, queue_posts, hr]
      rw [this]
      exact List.nil_prefix
    · have hr0 : env.ibv_post_send p e.1 e.2.1 = 0 := not_not.mp hr
      by_cases hq : e.1 = q
      · subst hq
        have h1 : queue_posts e.1 (post_run env (e :: l) p)
            = e.2.1 :: queue_posts e.1 (post_run env l (p + 1)) := by
          simp [post_run, queue_posts, hr0]
        have h2 : on_queue e.1 (e :: l) = e :: on_queue e.1 l := by
          simp [on_queue]
        rw [h1, h2, List.map_cons]
        exact (List.prefix_cons_inj _).mpr (ih (p + 1))
      · have h1 : queue_posts q (post_run env (e :: l) p)
            = queue_posts q (post_run env l (p + 1)) := by
          simp [post_run, queue_posts, hr0, hq]
        have h2 : on_queue q (e :: l) = on_queue q l := by
          simp [on_queue, hq]
        rw [h1, h2]
        exact ih (p + 1)

theorem queue_posts_accepted (q : Nat) :
    ∀ l : List (Nat × ibv_send_wr × Bool),
      queue_posts q (l.map (post_event 0)) = (on_queue q l).map (fun e => e.2.1) := by
  intro l
  induction l with
  | nil => rfl
  | cons e l ih =>
    have ih1 : List.filterMap (fun e =>
        match e with
        | Event.post_send qp wr ret => if qp = q ∧ ret = 0 then some wr else none
        | _ => none) (List.map (post_event 0) l)
        = List.map (fun e => e.2.1) (List.filter (fun e => decide (e.1 = q)) l) := ih
    by_cases hq : e.1 = q
    · simp [queue_posts, on_queue, post_event, hq, ih1]
    · simp [queue_posts, on_queue, post_event, hq, ih1]

/-- In every run, what the send queue of member `q` received of the scheduler is a prefix of the
entries of the schedule for that queue. -/
theorem queue_posts_prefix (env : Env) (ctx : pingpong_context) (size : Nat) (w : World)
    (iters : Int) (rem_dest : List pingpong_dest) (N q : Nat) :
    ∃ ev, (server_pre_post_wqes env ctx size w iters rem_dest N).w.trace = w.trace ++ ev ∧
      queue_posts q ev
        <+: (on_queue q (schedule ctx size iters rem_dest N)).map (fun e => e.2.1) := by
  obtain ⟨n, hn⟩ := server_trace_prefix env ctx size w iters rem_dest N
  refine ⟨_, hn, ?_⟩
  refine (queue_posts_post_run env q _ w.posted).trans ?_
  unfold on_queue
  exact ((List.take_prefix n _).filter _).map _

theorem post_run_reached (env : Env) :
    ∀ (l : List (Nat × ibv_send_wr × Bool)) (p m : Nat) (e : Nat × ibv_send_wr × Bool),
      l[m]? = some e →
      (∀ k e1, k < m → l[k]? = some e1 → env.ibv_post_send (p + k) e1.1 e1.2.1 = 0) →
      (post_run env l p)[m]?
        = some (Event.post_send e.1 e.2.1 (env.ibv_post_send (p + m) e.1 e.2.1)) := by
  intro l
  induction l with
  | nil => intro p m e h; simp at h
  | cons a l ih =>
    intro p m e h hacc
    cases m with
    | zero =>
      simp only [List.getElem?_cons_zero, Option.some.injEq] at h
      subst h
      simp [post_run]
    | succ m =>
      have h0 : env.ibv_post_send p a.1 a.2.1 = 0 := by
        have := hacc 0 a (by omega) (by simp)
        simpa using this
      simp only [List.getElem?_cons_succ] at h
      simp only [post_run, h0, ne_eq, not_true_eq_false, if_false, List.getElem?_cons_succ]
      rw [ih (p + 1) m e h (fun k e1 hk hk1 => by
        have := hacc (k + 1) e1 (by omega) (by simpa using hk1)
        rw [← this]
        congr 1
        omega)]
      congr 3
      omega

theorem getElem?_take_lt {α : Type} :
    ∀ (l : List α) (n m : Nat), m < n → (l.take n)[m]? = l[m]? := by
  intro l
  induction l with
  | nil => intro n m _; simp
  | cons a l ih =>
    intro n m h
    cases n with
    | zero => omega
    | succ n =>
      cases m with
      | zero => simp
      | succ m =>
        simp only [List.take_succ_cons, List.getElem?_cons_succ]
        exact ih n m (by omega)

/-- The call number `m` of the scheduler is made, and posts the entry number `m` of the
schedule, when every post before it is accepted and no division by zero comes before it (the
configuration does not divide by zero, or the entry is a wait request of iteration 0). -/
theorem posted_when_reached (env : Env) (ctx : pingpong_context) (size : Nat) (w : World)
    (iters : Int) (rem_dest : List pingpong_dest) (N m : Nat) (e : Nat × ibv_send_wr × Bool)
    (hm : (schedule ctx size iters rem_dest N)[m]? = some e)
    (hreach : no_div_zero ctx ∨ m < N)
    (hacc : ∀ k e1, k < m → (schedule ctx size iters rem_dest N)[k]? = some e1 →
      env.ibv_post_send (w.posted + k) e1.1 e1.2.1 = 0) :
    (server_pre_post_wqes env ctx size w iters rem_dest N).w.trace[w.trace.length + m]?
      = some (Event.post_send e.1 e.2.1 (env.ibv_post_send (w.posted + m) e.1 e.2.1)) := by
  by_cases hnd : no_div_zero ctx
  · rw [server_pre_post_wqes_eq env ctx size w iters rem_dest N hnd, post_seq_trace,
      List.getElem?_append_right (by simp), ]
    simp only [Nat.add_sub_cancel_left]
    exact post_run_reached env _ w.posted m e hm hacc
  · have hlt : m < N := by
      rcases hreach with h | h
      · exact absurd h hnd
      · exact h
    rw [server_trace_fault env ctx size w iters rem_dest N hnd,
      List.getElem?_append_right (by omega), Nat.add_sub_cancel_left]
    apply post_run_reached env _ w.posted m e
    · rw [getElem?_take_lt _ N m hlt]
      exact hm
    · intro k e1 hk hk1
      rw [getElem?_take_lt _ N k (by omega)] at hk1
      exact hacc k e1 hk hk1

/-! ## The writes of the server exchange -/

theorem eb_refl (P : Event → Prop) (w : World) : extends_by P w w :=
  ⟨[], by simp, by simp⟩

theorem eb_log (P : Event → Prop) (w w1 : World) (e : Event) (h : extends_by P w w1)
    (he : P e) : extends_by P w (w1.log e) := by
  obtain ⟨ev, h1, h2⟩ := h
  refine ⟨ev ++ [e], by simp [World.log, h1], ?_⟩
  intro x hx
  rcases List.mem_append.mp hx with hx | hx
  · exact h2 x hx
  · simp only [List.mem_singleton] at hx; subst hx; exact he

theorem eb_modify (P : Event → Prop) (env : Env) (w w1 : World) (qp : Nat) (attr : ibv_qp_attr)
    (mask : List ibv_qp_attr_mask) (h : extends_by P w w1)
    (hP : ∀ q a m r, P (Event.modify_qp q a m r)) :
    extends_by P w (ibv_modify_qp env w1 qp attr mask).2 := by
  obtain ⟨ev, h1, h2⟩ := eb_log P w w1
    (Event.modify_qp qp attr mask (env.ibv_modify_qp qp attr)) h (hP _ _ _ _)
  exact ⟨ev, h1, h2⟩

theorem eb_connect (P : Event → Prop) (env : Env) (w w1 : World) (qp : Nat) (port : Int)
    (my_psn mtu : Nat) (sl : Int) (dest : pingpong_dest) (sgid_idx : Int)
    (h : extends_by P w w1) (hP : ∀ q a m r, P (Event.modify_qp q a m r))
    (hS : ∀ m, P (Event.stderr m)) :
    extends_by P w (pp_connect_ctx env w1 qp port my_psn mtu sl dest sgid_idx).2 := by
  unfold pp_connect_ctx
  simp only
  split_ifs
  · exact eb_log P _ _ _ (eb_modify P env _ _ _ _ _ h hP) (hS _)
  · exact eb_log P _ _ _ (eb_modify P env _ _ _ _ _ (eb_modify P env _ _ _ _ _ h hP) hP) (hS _)
  · exact eb_modify P env _ _ _ _ _ (eb_modify P env _ _ _ _ _ h hP) hP

theorem eb_server_member (env : Env) (ib_port : Int) (mtu : Nat) (sl : Int)
    (my_dest : List pingpong_dest) (sgid_idx : Int) (connfd : List Int) (N k : Nat) (hk : k < N)
    (w : World) (s : ExchState) (h : extends_by (write_back_of env my_dest connfd N) w s.w) :
    extends_by (write_back_of env my_dest connfd N) w
      (server_member env ib_port mtu sl my_dest sgid_idx connfd k s).state.w := by
  have hP : ∀ q a m r, write_back_of env my_dest connfd N (Event.modify_qp q a m r) :=
    fun _ _ _ _ => trivial
  have hS : ∀ m, write_back_of env my_dest connfd N (Event.stderr m) := fun _ => trivial
  have hW : ∀ r, write_back_of env my_dest connfd N
      (Event.write (connfd.getD k (-1)) (server_record env my_dest k) r) :=
    fun _ => ⟨k, hk, rfl, rfl⟩
  unfold server_member
  simp only
  split
  · exact eb_log _ _ _ _ (eb_log _ _ _ _ h trivial) trivial
  · split
    · exact eb_log _ _ _ _ h trivial
    · split
      · exact eb_log _ _ _ _ (eb_connect _ env _ _ _ _ _ _ _ _ _ (eb_log _ _ _ _ h trivial) hP hS)
          trivial
      · split
        · exact eb_log _ _ _ _ (eb_log _ _ _ _
            (eb_connect _ env _ _ _ _ _ _ _ _ _ (eb_log _ _ _ _ h trivial) hP hS) (hW _)) trivial
        · exact eb_log _ _ _ _ (eb_log _ _ _ _
            (eb_connect _ env _ _ _ _ _ _ _ _ _ (eb_log _ _ _ _ h trivial) hP hS) (hW _)) trivial

theorem eb_member_loop (env : Env) (ib_port : Int) (mtu : Nat) (sl : Int)
    (my_dest : List pingpong_dest) (sgid_idx : Int) (connfd : List Int) (N : Nat) (w : World) :
    ∀ (n k0 : Nat) (s : ExchState), k0 + n ≤ N →
      extends_by (write_back_of env my_dest connfd N) w s.w →
      extends_by (write_back_of env my_dest connfd N) w
        (forRange n k0 (server_member env ib_port mtu sl my_dest sgid_idx connfd) s).state.w := by
  intro n
  induction n with
  | zero => intro k0 s _ h; exact h
  | succ n ih =>
    intro k0 s hle h
    have hk := eb_server_member env ib_port mtu sl my_dest sgid_idx connfd N k0 (by omega) w s h
    simp only [forRange]
    cases hb : server_member env ib_port mtu sl my_dest sgid_idx connfd k0 s with
    | next s1 =>
      rw [hb] at hk
      exact ih (k0 + 1) s1 (by omega) hk
    | out s1 =>
      rw [hb] at hk
      exact hk

/-- In every run of `pp_server_exch_dest`, every write is the write to the connection of a
member `k < N` of the record built for that member. -/
theorem server_writes (env : Env) (w : World) (ib_port : Int) (mtu : Nat) (sl : Int)
    (my_dest : List pingpong_dest) (sgid_idx : Int) (N : Nat) :
    ∃ ev, (pp_server_exch_dest env w ib_port mtu sl my_dest sgid_idx N).2.2.trace
        = w.trace ++ ev ∧
      ∀ fd data ret, Event.write fd data ret ∈ ev →
        ∃ k, k < N ∧ fd = env.accept k ∧ data = server_record env my_dest k := by
  have key : extends_by (write_back_of env my_dest ((List.range N).map env.accept) N) w
      (pp_server_exch_dest env w ib_port mtu sl my_dest sgid_idx N).2.2 := by
    unfold pp_server_exch_dest
    have ha : (accept_all env N w).1 = (List.range N).map env.accept := rfl
    have h0 : extends_by (write_back_of env my_dest ((List.range N).map env.accept) N) w
        (accept_all env N w).2 := by
      refine ⟨(List.range N).map (fun k => Event.accept k (env.accept k)), rfl, ?_⟩
      intro e he
      simp only [List.mem_map] at he
      obtain ⟨k, -, rfl⟩ := he
      trivial
    have hc : extends_by (write_back_of env my_dest ((List.range N).map env.accept) N) w
        ((accept_all env N w).2.log (Event.close env.sockfd)) :=
      eb_log _ _ _ _ h0 trivial
    simp only
    split_ifs
    · exact eb_refl _ w
    · exact eb_log _ _ _ _ (eb_refl _ w) trivial
    · exact eb_log _ _ _ _ (eb_refl _ w) trivial
    · exact eb_log _ _ _ _ hc trivial
    · simp only [ha]
      exact eb_member_loop env ib_port mtu sl my_dest sgid_idx _ N w N 0 _ (by omega) hc
  obtain ⟨ev, h1, h2⟩ := key
  refine ⟨ev, h1, ?_⟩
  intro fd data ret hmem
  obtain ⟨k, hk, hfd, hdata⟩ := h2 _ hmem
  refine ⟨k, hk, ?_, hdata⟩
  rw [hfd]
  simp [List.getD, hk]

/-- Every descriptor of an array `main` builds carries the global address `main` queried once:
all entries have the global address of entry 0, and the array has an entry for every member. -/
theorem main_build_dest_gid (h : HostEnv) (ctx : pingpong_context)
    (user_param : perftest_parameters) (my_dest : List pingpong_dest)
    (hb : main_build_dest h ctx user_param false = Except.ok my_dest) :
    user_param.num_of_nodes ≤ my_dest.length ∧
    ∀ k, k < my_dest.length →
      (my_dest.getD k zero_dest).gid = (my_dest.getD 0 zero_dest).gid := by
  unfold main_build_dest at hb
  by_cases hg : user_param.gid_index ≠ -1 ∧ h.ibv_query_gid.1 ≠ 0
  · rw [if_pos hg] at hb
    cases hb
  rw [if_neg hg] at hb
  simp only at hb
  cases hl : pp_get_local_lid (h.ibv_query_port 0) with
  | none => rw [hl] at hb; simp at hb
  | some lid =>
    rw [hl] at hb
    simp only [Bool.false_eq_true, if_false] at hb
    cases hm : more_dests h ctx user_param
        (if user_param.gid_index ≠ -1 then h.ibv_query_gid.2 else h.temp_gid)
        (user_param.num_of_nodes - 1) 1 with
    | none => rw [hm] at hb; simp at hb
    | some ds =>
      rw [hm] at hb
      simp only [Except.ok.injEq] at hb
      obtain ⟨hlen, hds⟩ := more_dests_spec h ctx user_param _ _ 1 ds hm
      subst hb
      refine ⟨by simp only [List.length_cons]; omega, ?_⟩
      intro k hk
      cases k with
      | zero => rfl
      | succ k =>
        simp only [List.length_cons] at hk
        have hk1 : k < ds.length := by omega
        obtain ⟨lid1, -, hd⟩ := hds k ds[k] (List.getElem?_eq_getElem hk1)
        simp only [List.getD_cons_succ, List.getD_cons_zero]
        rw [List.getD_eq_getElem _ _ hk1, hd]
        rfl

/-! # Claims -/

/-- C1. Round trip of the descriptor codec: for every valid descriptor `d`, whatever the byte
orders of the two hosts, the prior content of the destination descriptor and of the gid buffer,
deserializing the record produced by serializing `d` yields a descriptor equal to `d` on lid,
out_reads, qpn, psn, rkey, vaddr and gid. -/
theorem descriptor_round_trip (le1 le2 : Bool) (v32 : Nat) (d fresh : pingpong_dest)
    (gidbuf : List Char) (hd : valid_dest d) :
    (deserialize le2 v32 (serialize le1 d) fresh gidbuf).1.lid = d.lid ∧
    (deserialize le2 v32 (serialize le1 d) fresh gidbuf).1.out_reads = d.out_reads ∧
    (deserialize le2 v32 (serialize le1 d) fresh gidbuf).1.qpn = d.qpn ∧
    (deserialize le2 v32 (serialize le1 d) fresh gidbuf).1.psn = d.psn ∧
    (deserialize le2 v32 (serialize le1 d) fresh gidbuf).1.rkey = d.rkey ∧
    (deserialize le2 v32 (serialize le1 d) fresh gidbuf).1.vaddr = d.vaddr ∧
    (deserialize le2 v32 (serialize le1 d) fresh gidbuf).1.gid = d.gid := by
  rw [deserialize_serialize le1 le2 v32 d fresh gidbuf hd]
  exact ⟨rfl, rfl, rfl, rfl, rfl, rfl, rfl⟩

theorem descriptor_round_trip_witness :
    valid_dest exD ∧
    (deserialize false 9 (serialize true exD) junkD []).1.lid = exD.lid ∧
    (deserialize false 9 (serialize true exD) junkD []).1.out_reads = exD.out_reads ∧
    (deserialize false 9 (serialize true exD) junkD []).1.qpn = exD.qpn ∧
    (deserialize false 9 (serialize true exD) junkD []).1.psn = exD.psn ∧
    (deserialize false 9 (serialize true exD) junkD []).1.rkey = exD.rkey ∧
    (deserialize false 9 (serialize true exD) junkD []).1.vaddr = exD.vaddr ∧
    (deserialize false 9 (serialize true exD) junkD []).1.gid = exD.gid :=
  ⟨by decide, descriptor_round_trip true false 9 exD junkD [] (by decide)⟩

/-- C5, the code at the failing input. Ring of 2 members, 1 iteration, so the target count is
`2 * 1 + 2 = 4`; four successful completions are available. The loop adds every poll result to
the counter twice and exits after polling two completions, leaving two unpolled. -/
theorem server_poll_loop_exits_early :
    server_poll_loop 2 1 [⟨1, 0⟩, ⟨1, 0⟩, ⟨1, 0⟩, ⟨1, 0⟩] 0
      = LoopResult.exited 4 [⟨1, 0⟩, ⟨1, 0⟩] := by
  decide

/-- C6, the code at the failing input. Ring of 2 members, 1 iteration; the second member closes
its control connection before sending its descriptor. `pp_server_exch_dest` returns a non-NULL
array whose second entry was never assigned, `main` does not stop; when the read through that entry
does not fault, the scheduler posts all four work requests although the second queue pair is
still in state INIT; when it faults the process is killed. In neither case does `main` report
the failed exchange. -/
theorem schedules_with_unconnected_member :
    (pp_server_exch_dest (envSecondReadFails (some junkD)) (world0 2) 1 3 0 [exD, exD] (-1) 2).1
      = some [Slot.ptr { exD with mac := junkD.mac }, Slot.uninit] ∧
    (main_server (envSecondReadFails (some junkD)) ctx2 (params 2 1) [exD, exD] (world0 2)).1
      = MainOutcome.running ∧
    (main_server (envSecondReadFails (some junkD)) ctx2 (params 2 1) [exD, exD] (world0 2)).2.posted
      = 4 ∧
    (main_server (envSecondReadFails (some junkD)) ctx2 (params 2 1) [exD, exD]
      (world0 2)).2.qp_state = [ibv_qp_state.IBV_QPS_RTS, ibv_qp_state.IBV_QPS_INIT] ∧
    (main_server (envSecondReadFails none) ctx2 (params 2 1) [exD, exD] (world0 2)).1
      = MainOutcome.fault := by
  decide

/-- C9, the code at the failing input. The client's write of its descriptor fails.
`pp_client_exch_dest` returns a non-NULL array whose only entry was never assigned; `main` does
not report the failed exchange. When the read through that entry does not fault, `main` connects
`ctx->qp[0]` with what it finds there and goes on to the timed phase; otherwise the process is
killed by the fault. -/
theorem client_io_failure_not_reported :
    (pp_client_exch_dest (envClientWriteFails (some junkD)) (world0 1) exD).1
      = some [Slot.uninit] ∧
    (main_client (envClientWriteFails (some junkD)) (params 2 1) [exD] (world0 1)).1
      = MainOutcome.running ∧
    (main_client (envClientWriteFails (some junkD)) (params 2 1) [exD] (world0 1)).2.qp_state
      = [ibv_qp_state.IBV_QPS_RTS] ∧
    (main_client (envClientWriteFails none) (params 2 1) [exD] (world0 1)).1
      = MainOutcome.fault := by
  decide

/-- C4, counterexample. Ring of 2 members, 3 iterations, every post accepted: the number of
work requests posted with the signaled flag is not `2 * (3 + 1)`. -/
theorem signaled_count_counterexample :
    (server_pre_post_wqes (envAllOk []) ctx2 4096 (world0 2) 3 [exD, exD] 2).w.trace.countP
      is_signaled_post ≠ 2 * (3 + 1) := by
  decide

/-- C4, as amended. For every ring size `N` and iteration count `I >= 1`, when every post is
accepted, `server_pre_post_wqes` returns 0 and the number of work requests it posts with the
signaled flag set is exactly `2 * N`: the `N` waits and the `N` forwards of the final iteration. -/
theorem signaled_count (env : Env) (ctx : pingpong_context) (size : Nat) (w : World)
    (iters : Int) (rem_dest : List pingpong_dest) (N : Nat) (hnd : no_div_zero ctx)
    (hI : 1 ≤ iters)
    (hacc : ∀ m e1, (schedule ctx size iters rem_dest N)[m]? = some e1 →
      env.ibv_post_send (w.posted + m) e1.1 e1.2.1 = 0) :
    (server_pre_post_wqes env ctx size w iters rem_dest N).ret = 0 ∧
    (server_pre_post_wqes env ctx size w iters rem_dest N).fault = false ∧
    (server_pre_post_wqes env ctx size w iters rem_dest N).w.trace.countP is_signaled_post
      = w.trace.countP is_signaled_post + 2 * N := by
  rw [server_pre_post_wqes_eq env ctx size w iters rem_dest N hnd,
    post_seq_ok env (schedule ctx size iters rem_dest N) { w := w, ret := 0, fault := false } rfl
      (by intro m e1 hm; exact hacc m e1 (by simpa using hm))]
  refine ⟨rfl, rfl, ?_⟩
  simp only [Step.state, List.countP_append, schedule_signaled ctx size iters rem_dest N hI]

theorem signaled_count_witness :
    (server_pre_post_wqes (envAllOk []) ctx2 4096 (world0 2) 3 [exD, exD] 2).ret = 0 ∧
    (server_pre_post_wqes (envAllOk []) ctx2 4096 (world0 2) 3 [exD, exD] 2).fault = false ∧
    (server_pre_post_wqes (envAllOk []) ctx2 4096 (world0 2) 3 [exD, exD] 2).w.trace.countP
      is_signaled_post = (world0 2).trace.countP is_signaled_post + 2 * 2 :=
  signaled_count (envAllOk []) ctx2 4096 (world0 2) 3 [exD, exD] 2 (by decide) (by decide)
    (fun _ _ _ => rfl)

/-- C10. Scheduling failure: for every ring size, iteration count, iteration `i`, member `j` and
request kind, if the transport rejects a post for the first time at the request of `(i, j)` of
that kind, `server_pre_post_wqes` returns -1; the calls it has made are the accepted posts of
exactly the requests that precede it in the full schedule, in order, followed by the rejected
post and the error message; nothing is posted after it and nothing is undone (no other call is
made, the queue pairs keep their state). -/
theorem scheduling_failure (env : Env) (ctx : pingpong_context) (size : Nat) (w : World)
    (iters : Int) (rem_dest : List pingpong_dest) (N i j : Nat) (is_wait : Bool)
    (hnd : no_div_zero ctx ∨ (i = 0 ∧ is_wait = true)) (hi : (i : Int) < iters) (hj : j < N)
    (hacc : ∀ m e1, m < position N i j is_wait →
      (schedule ctx size iters rem_dest N)[m]? = some e1 →
      env.ibv_post_send (w.posted + m) e1.1 e1.2.1 = 0)
    (hrej : env.ibv_post_send (w.posted + position N i j is_wait) j
      (request ctx size iters rem_dest N i j is_wait) ≠ 0) :
    (server_pre_post_wqes env ctx size w iters rem_dest N).ret = -1 ∧
    (server_pre_post_wqes env ctx size w iters rem_dest N).fault = false ∧
    (server_pre_post_wqes env ctx size w iters rem_dest N).w.trace
      = w.trace ++ (((schedule ctx size iters rem_dest N).take (position N i j is_wait)).map
            (post_event 0)
          ++ [Event.post_send j (request ctx size iters rem_dest N i j is_wait)
                (env.ibv_post_send (w.posted + position N i j is_wait) j
                  (request ctx size iters rem_dest N i j is_wait)),
              Event.stderr (post_error is_wait)]) ∧
    (server_pre_post_wqes env ctx size w iters rem_dest N).w.posted
      = w.posted + position N i j is_wait + 1 ∧
    (server_pre_post_wqes env ctx size w iters rem_dest N).w.qp_state = w.qp_state := by
  rcases hnd with hnd | ⟨hi0, hw⟩
  · have hat := schedule_at ctx size iters rem_dest N i j is_wait (by omega) hj
    have hlt : position N i j is_wait < (schedule ctx size iters rem_dest N).length := by
      by_contra hge
      rw [List.getElem?_eq_none (by omega)] at hat
      exact absurd hat (by simp)
    have hlen : ((schedule ctx size iters rem_dest N).take (position N i j is_wait)).length
        = position N i j is_wait := by
      rw [List.length_take]; omega
    have hsplit := split_at _ _ _ hat
    have hfail := post_seq_fail env (j, request ctx size iters rem_dest N i j is_wait, is_wait)
      ((schedule ctx size iters rem_dest N).drop (position N i j is_wait + 1))
      ((schedule ctx size iters rem_dest N).take (position N i j is_wait))
      { w := w, ret := 0, fault := false }
      (by
        intro m e1 hm
        rw [List.get?_eq_getElem?, List.getElem?_take] at hm
        split_ifs at hm with hmp
        exact hacc m e1 hmp hm)
      (by rw [hlen]; exact hrej)
    rw [← hsplit, hlen] at hfail
    rw [server_pre_post_wqes_eq env ctx size w iters rem_dest N hnd, hfail]
    exact ⟨rfl, rfl, rfl, rfl, rfl⟩
  · subst hi0 hw
    have hpos : position N 0 j true = j := by simp [position]
    rw [hpos] at hacc hrej ⊢
    rw [first_wait_rejected env ctx size w iters rem_dest N j (by omega) hj hacc hrej]
    exact ⟨rfl, rfl, rfl, rfl, rfl⟩

theorem scheduling_failure_witness :
    (server_pre_post_wqes envRejectSixthPost ctx2 4096 (world0 2) 2 [exD, exD] 2).ret = -1 ∧
    (server_pre_post_wqes envRejectSixthPost ctx2 4096 (world0 2) 2 [exD, exD] 2).w.posted
      = 0 + position 2 1 1 true + 1 :=
  have h := scheduling_failure envRejectSixthPost ctx2 4096 (world0 2) 2 [exD, exD] 2 1 1 true
    (Or.inl (by decide)) (by decide) (by decide)
    (by
      intro m e1 hm _
      have hm5 : m < 5 := hm
      have hne : ¬ (0 + m = 5) := by omega
      simp only [envRejectSixthPost, world0, if_neg hne])
    (by decide)
  ⟨h.1, h.2.2.2.1⟩

/-- C7. State-machine monotonicity of `pp_connect_ctx`: the run is one of three. If the transport
rejects the RTR modify, the function returns 1 and the only verbs call made is that RTR modify
(no RTS modify is issued). If it accepts the RTR modify and rejects the RTS modify, the function
returns 1 after exactly the RTR modify followed by the RTS modify. The function returns 0 if and
only if both modifies were accepted, and then the calls made are the accepted RTR modify followed
by the accepted RTS modify on the same queue pair, which is left in state RTS. -/
theorem pp_connect_ctx_monotone (env : Env) (w : World) (qp : Nat) (port : Int) (my_psn mtu : Nat)
    (sl : Int) (dest : pingpong_dest) (sgid_idx : Int) :
    (env.ibv_modify_qp qp (rtr_attr port mtu sl dest sgid_idx) ≠ 0 →
      (pp_connect_ctx env w qp port my_psn mtu sl dest sgid_idx).1 = 1 ∧
      (pp_connect_ctx env w qp port my_psn mtu sl dest sgid_idx).2.trace = w.trace ++
        [Event.modify_qp qp (rtr_attr port mtu sl dest sgid_idx) RTR_MASK
           (env.ibv_modify_qp qp (rtr_attr port mtu sl dest sgid_idx)),
         Event.stderr "pp_connect_ctx: Failed to modify QP to RTR"]) ∧
    (env.ibv_modify_qp qp (rtr_attr port mtu sl dest sgid_idx) = 0 →
      env.ibv_modify_qp qp (rts_attr port my_psn mtu sl dest sgid_idx) ≠ 0 →
      (pp_connect_ctx env w qp port my_psn mtu sl dest sgid_idx).1 = 1 ∧
      (pp_connect_ctx env w qp port my_psn mtu sl dest sgid_idx).2.trace = w.trace ++
        [Event.modify_qp qp (rtr_attr port mtu sl dest sgid_idx) RTR_MASK 0,
         Event.modify_qp qp (rts_attr port my_psn mtu sl dest sgid_idx) RTS_MASK
           (env.ibv_modify_qp qp (rts_attr port my_psn mtu sl dest sgid_idx)),
         Event.stderr "pp_connect_ctx: Failed to modify QP to RTS"]) ∧
    ((pp_connect_ctx env w qp port my_psn mtu sl dest sgid_idx).1 = 0 ↔
      env.ibv_modify_qp qp (rtr_attr port mtu sl dest sgid_idx) = 0 ∧
      env.ibv_modify_qp qp (rts_attr port my_psn mtu sl dest sgid_idx) = 0) ∧
    ((pp_connect_ctx env w qp port my_psn mtu sl dest sgid_idx).1 = 0 →
      (pp_connect_ctx env w qp port my_psn mtu sl dest sgid_idx).2.trace = w.trace ++
        [Event.modify_qp qp (rtr_attr port mtu sl dest sgid_idx) RTR_MASK 0,
         Event.modify_qp qp (rts_attr port my_psn mtu sl dest sgid_idx) RTS_MASK 0] ∧
      (pp_connect_ctx env w qp port my_psn mtu sl dest sgid_idx).2.qp_state =
        (w.qp_state.set qp ibv_qp_state.IBV_QPS_RTR).set qp ibv_qp_state.IBV_QPS_RTS) := by
  have e1 : (rtr_attr port mtu sl dest sgid_idx).qp_state = ibv_qp_state.IBV_QPS_RTR := rfl
  have e2 : (rts_attr port my_psn mtu sl dest sgid_idx).qp_state = ibv_qp_state.IBV_QPS_RTS := rfl
  by_cases h1 : env.ibv_modify_qp qp (rtr_attr port mtu sl dest sgid_idx) = 0
  · by_cases h2 : env.ibv_modify_qp qp (rts_attr port my_psn mtu sl dest sgid_idx) = 0
    · simp [pp_connect_ctx, ibv_modify_qp, World.log, h1, h2, e1, e2]
    · simp [pp_connect_ctx, ibv_modify_qp, World.log, h1, h2]
  · simp [pp_connect_ctx, ibv_modify_qp, World.log, h1]

/-- C11. Fixed record length: for every descriptor with lid and out_reads below 2^16, qpn and psn
below 2^24 and rkey below 2^32 (any vaddr, any gid, either byte order), the record printed with
`KEY_GID_PRINT_FMT` is 4, 4, 6, 6, 8, 16 and 32 hexadecimal digits separated by `':'` at the
offsets 4, 9, 16, 23, 32 and 49; it has 82 characters, and with its terminator it is exactly the
`KEY_GID_MSG_SIZE = 83` bytes handed to `write`. -/
theorem record_length_fixed (le : Bool) (d : pingpong_dest) (h1 : d.lid < 2 ^ 16)
    (h2 : d.out_reads < 2 ^ 16) (h3 : d.qpn < 2 ^ 24) (h4 : d.psn < 2 ^ 24)
    (h5 : d.rkey < 2 ^ 32) :
    sprintf_KEY_GID d (my_gid_to_wire_gid le d.gid)
      = recordText d.lid d.out_reads d.qpn d.psn d.rkey (d.vaddr % 2 ^ 64)
          (wireText (fun i => d.gid.getD i 0)) ∧
    (sprintf_KEY_GID d (my_gid_to_wire_gid le d.gid)).length = 82 ∧
    (sprintf_KEY_GID d (my_gid_to_wire_gid le d.gid))[4]? = some ':' ∧
    (sprintf_KEY_GID d (my_gid_to_wire_gid le d.gid))[9]? = some ':' ∧
    (sprintf_KEY_GID d (my_gid_to_wire_gid le d.gid))[16]? = some ':' ∧
    (sprintf_KEY_GID d (my_gid_to_wire_gid le d.gid))[23]? = some ':' ∧
    (sprintf_KEY_GID d (my_gid_to_wire_gid le d.gid))[32]? = some ':' ∧
    (sprintf_KEY_GID d (my_gid_to_wire_gid le d.gid))[49]? = some ':' ∧
    serialize le d = sprintf_KEY_GID d (my_gid_to_wire_gid le d.gid) ++ ['\x00'] ∧
    (serialize le d).length = KEY_GID_MSG_SIZE ∧ KEY_GID_MSG_SIZE = 83 := by
  have ht : sprintf_KEY_GID d (my_gid_to_wire_gid le d.gid)
      = recordText d.lid d.out_reads d.qpn d.psn d.rkey (d.vaddr % 2 ^ 64)
          (wireText (fun i => d.gid.getD i 0)) := by
    rw [sprintf_KEY_GID_fits d _ h1 h2 h3 h4 h5, my_gid_to_wire_gid_eq]
    rfl
  have hl : (sprintf_KEY_GID d (my_gid_to_wire_gid le d.gid)).length = 82 := by
    rw [ht, recordText_length, wireText_length]
  have hs : serialize le d = sprintf_KEY_GID d (my_gid_to_wire_gid le d.gid) ++ ['\x00'] := by
    unfold serialize msg_bytes
    apply List.take_of_length_le
    simp [hl, KEY_GID_MSG_SIZE]
  obtain ⟨s1, s2, s3, s4, s5, s6⟩ := recordText_separators d.lid d.out_reads d.qpn d.psn d.rkey
    (d.vaddr % 2 ^ 64) (wireText (fun i => d.gid.getD i 0))
  refine ⟨ht, hl, ?_, ?_, ?_, ?_, ?_, ?_, hs, ?_, rfl⟩
  · rw [ht]; exact s1
  · rw [ht]; exact s2
  · rw [ht]; exact s3
  · rw [ht]; exact s4
  · rw [ht]; exact s5
  · rw [ht]; exact s6
  · rw [hs]; simp [hl, KEY_GID_MSG_SIZE]

theorem record_length_fixed_witness :
    (sprintf_KEY_GID { exD with vaddr := 2 ^ 64 - 1, gid := [] }
      (my_gid_to_wire_gid true [])).length = 82 ∧
    (serialize true { exD with vaddr := 2 ^ 64 - 1, gid := [] }).length = KEY_GID_MSG_SIZE :=
  have h := record_length_fixed true { exD with vaddr := 2 ^ 64 - 1, gid := [] }
    (by decide) (by decide) (by decide) (by decide) (by decide)
  ⟨h.2.1, h.2.2.2.2.2.2.2.2.2.1⟩

/-- C12, counterexample. In a run in which every call succeeds, the acknowledgment the client
writes has 5 bytes, not 4, and the notification the server writes to a ring member has 6 bytes,
not 5: both literals are written with their terminating NUL (`sizeof "done"`, `sizeof "ready"`). -/
theorem control_message_sizes_counterexample :
    Event.write 3 ['d', 'o', 'n', 'e', '\x00'] 5 ∈
      (pp_client_exch_dest (envAllOk (serialize true exD)) (world0 1) exD).2.2.trace ∧
    (['d', 'o', 'n', 'e', '\x00'] : List Char).length ≠ 4 ∧
    Event.write 4 ['r', 'e', 'a', 'd', 'y', '\x00'] 6 ∈
      (main_server (envAllOk (serialize true exD)) ctx2 (params 2 1) [exD, exD] (world0 2)).2.trace ∧
    (['r', 'e', 'a', 'd', 'y', '\x00'] : List Char).length ≠ 5 := by
  decide

/-- C12, as amended. The acknowledgment the client writes after the descriptor exchange is the
literal "done" followed by its terminating NUL, 5 bytes; the notification the server writes to
every ring member after pre-posting is the literal "ready" followed by its terminating NUL,
6 bytes, and the client goes on to the timed phase only when its read of the notification
returns 6. -/
theorem control_messages (env : Env) (w : World) (my_dest : pingpong_dest)
    (h1 : 0 ≤ env.asprintf) (h2 : 0 ≤ env.getaddrinfo) (h3 : 0 ≤ env.sockfd)
    (hw : env.write env.sockfd 0 (serialize env.le my_dest) = KEY_GID_MSG_SIZE)
    (hr : (env.read env.sockfd 0).1 = KEY_GID_MSG_SIZE) :
    DONE_MSG = ['d', 'o', 'n', 'e', '\x00'] ∧ DONE_MSG.length = 5 ∧
    Event.write env.sockfd DONE_MSG (env.write env.sockfd 1 DONE_MSG)
      ∈ (pp_client_exch_dest env w my_dest).2.2.trace ∧
    READY_MSG = ['r', 'e', 'a', 'd', 'y', '\x00'] ∧ READY_MSG.length = 6 ∧
    (∀ (connfd : List Int) (N : Nat) (w0 : World) (k : Nat), k < N →
      Event.write (connfd.getD k (-1)) READY_MSG (env.write (connfd.getD k (-1)) 1 READY_MSG)
        ∈ (notify_ready env connfd N w0).trace) ∧
    (∀ (user_param : perftest_parameters) (dests : List pingpong_dest) (w0 : World),
      (main_client env user_param dests w0).1 = MainOutcome.running →
      (env.read (pp_client_exch_dest env w0 (dests.getD 0 zero_dest)).2.1 1).1 = 6) := by
  refine ⟨rfl, rfl, ?_, rfl, rfl, ?_, ?_⟩
  · have hw2 : env.write env.sockfd 0
        (msg_bytes (sprintf_KEY_GID my_dest (my_gid_to_wire_gid env.le my_dest.gid)))
        = KEY_GID_MSG_SIZE := hw
    simp only [pp_client_exch_dest, not_lt.mpr h1, not_lt.mpr h2, not_lt.mpr h3, if_false, hw2,
      hr, ne_eq, not_true_eq_false]
    split_ifs with hdone
    · cases env.malloc_dest 0 <;> simp [World.log]
    · simp [World.log]
  · intro connfd N w0 k hk
    obtain ⟨ev, hev, hmem⟩ := notify_loop_trace env connfd N 0 w0
    unfold notify_ready
    rw [hev]
    exact List.mem_append_right _ (hmem k (by omega) (by omega))
  · intro user_param dests w0 h
    unfold main_client at h
    simp only at h
    split at h
    · exact absurd h (by simp)
    · split at h
      · exact absurd h (by simp)
      · split_ifs at h with hc hrd
        simpa [READY_MSG] using hrd

theorem control_messages_witness :
    Event.write 3 DONE_MSG 5
      ∈ (pp_client_exch_dest (envAllOk (serialize true exD)) (world0 1) exD).2.2.trace ∧
    DONE_MSG.length = 5 ∧ READY_MSG.length = 6 :=
  have h := control_messages (envAllOk (serialize true exD)) (world0 1) exD
    (by decide) (by decide) (by decide) (by decide) (by decide)
  ⟨h.2.2.1, h.2.1, h.2.2.2.2.1⟩

/-- C13, counterexample. Ring of 3 members; no listening socket can be set up. The function
prints the error and returns NULL: its trace holds no `accept` call, not 3. -/
theorem no_listener_no_accept :
    (pp_server_exch_dest envNoListen (world0 3) 1 3 0 [exD, exD, exD] (-1) 3).1 = none ∧
    (pp_server_exch_dest envNoListen (world0 3) 1 3 0 [exD, exD, exD] (-1) 3).2.2.trace
      = (world0 3).trace ++ [Event.stderr "Couldn't listen to port"] ∧
    (pp_server_exch_dest envNoListen (world0 3) 1 3 0 [exD, exD, exD] (-1) 3).2.2.trace.countP
      is_accept = 0 := by
  decide

/-- C13, as amended. Accept-all-first: for every ring size `N`, in every trace of
`pp_server_exch_dest` in which the listening socket is set up, the calls are exactly `N` calls of
`accept`, then the close of the listening socket, then calls none of which is an `accept`; so
every read, write and modify of a member comes after all `N` accepts, and if one of the accepts
failed the function returns NULL and makes no further call besides printing the error. When the
listening socket cannot be set up, the function returns NULL and makes no call at all besides
printing an error, so no `accept`. -/
theorem accept_all_first (env : Env) (w : World) (ib_port : Int) (mtu : Nat) (sl : Int)
    (my_dest : List pingpong_dest) (sgid_idx : Int) (N : Nat) :
    ((0 ≤ env.asprintf ∧ 0 ≤ env.getaddrinfo ∧ 0 ≤ env.sockfd) →
      ∃ rest,
        (pp_server_exch_dest env w ib_port mtu sl my_dest sgid_idx N).2.2.trace
          = w.trace ++ ((List.range N).map (fun k => Event.accept k (env.accept k))
              ++ Event.close env.sockfd :: rest) ∧
        ((List.range N).map (fun k => Event.accept k (env.accept k))).countP is_accept = N ∧
        (∀ e ∈ rest, is_accept e = false) ∧
        ((∃ k, k < N ∧ env.accept k < 0) →
          (pp_server_exch_dest env w ib_port mtu sl my_dest sgid_idx N).1 = none ∧
          rest = [Event.stderr "accept() failed for node"])) ∧
    ((env.asprintf < 0 ∨ env.getaddrinfo < 0 ∨ env.sockfd < 0) →
      (pp_server_exch_dest env w ib_port mtu sl my_dest sgid_idx N).1 = none ∧
      ((pp_server_exch_dest env w ib_port mtu sl my_dest sgid_idx N).2.2.trace = w.trace ∨
        ∃ m, (pp_server_exch_dest env w ib_port mtu sl my_dest sgid_idx N).2.2.trace
          = w.trace ++ [Event.stderr m])) := by
  refine ⟨fun h => accepts_then_rest env w ib_port mtu sl my_dest sgid_idx N h.1 h.2.1 h.2.2, ?_⟩
  intro h
  unfold pp_server_exch_dest
  by_cases c1 : env.asprintf < 0
  · rw [if_pos c1]
    exact ⟨rfl, Or.inl rfl⟩
  · rw [if_neg c1]
    by_cases c2 : env.getaddrinfo < 0
    · rw [if_pos c2]
      exact ⟨rfl, Or.inr ⟨_, rfl⟩⟩
    · rw [if_neg c2]
      have c3 : env.sockfd < 0 := by
        rcases h with h | h | h
        · exact absurd h c1
        · exact absurd h c2
        · exact h
      rw [if_pos c3]
      exact ⟨rfl, Or.inr ⟨_, rfl⟩⟩

theorem accept_all_first_witness :
    (0 ≤ envCAB.asprintf ∧ 0 ≤ envCAB.getaddrinfo ∧ 0 ≤ envCAB.sockfd) ∧
    (∃ rest,
      (pp_server_exch_dest envCAB (world0 3) 1 3 0 [exD, exD, exD] (-1) 3).2.2.trace
        = (world0 3).trace ++ ((List.range 3).map (fun k => Event.accept k (envCAB.accept k))
            ++ Event.close envCAB.sockfd :: rest) ∧
      ((List.range 3).map (fun k => Event.accept k (envCAB.accept k))).countP is_accept = 3 ∧
      (∀ e ∈ rest, is_accept e = false) ∧
      ((∃ k, k < 3 ∧ envCAB.accept k < 0) →
        (pp_server_exch_dest envCAB (world0 3) 1 3 0 [exD, exD, exD] (-1) 3).1 = none ∧
        rest = [Event.stderr "accept() failed for node"])) ∧
    (envNoListen.asprintf < 0 ∨ envNoListen.getaddrinfo < 0 ∨ envNoListen.sockfd < 0) ∧
    (pp_server_exch_dest envNoListen (world0 3) 1 3 0 [exD, exD, exD] (-1) 3).1 = none :=
  ⟨by decide,
   (accept_all_first envCAB (world0 3) 1 3 0 [exD, exD, exD] (-1) 3).1 (by decide),
   by decide,
   ((accept_all_first envNoListen (world0 3) 1 3 0 [exD, exD, exD] (-1) 3).2 (by decide)).1⟩

/-- C14, the code at the failing input. The options `-n 3 -c 1 -o 0` are accepted (ring of 2
members, 3 iterations, reduction opcode 1, vector count 0), and every post is accepted:
`server_pre_post_wqes` does not return 0 after 6 wait requests and 6 forward requests; it is
stopped by the division by the zero vector count after 2 posts, both wait requests, and no
forward request. -/
theorem schedule_size_zero_divisor :
    ∀ enum_signed : Bool,
      (parser enum_signed main_user_param [Opt.n 3, Opt.c 1, Opt.o 0]).accepted.map
          (fun up =>
            (up.num_of_nodes, up.iters,
             (server_pre_post_wqes (envAllOk []) (main_init_server_ctx up ctx2) up.size
               (world0 2) up.iters [exD, exD] up.num_of_nodes).fault,
             (server_pre_post_wqes (envAllOk []) (main_init_server_ctx up ctx2) up.size
               (world0 2) up.iters [exD, exD] up.num_of_nodes).w.posted,
             (server_pre_post_wqes (envAllOk []) (main_init_server_ctx up ctx2) up.size
               (world0 2) up.iters [exD, exD] up.num_of_nodes).w.trace.countP is_wait_post,
             (server_pre_post_wqes (envAllOk []) (main_init_server_ctx up ctx2) up.size
               (world0 2) up.iters [exD, exD] up.num_of_nodes).w.trace.countP is_forward_post))
        = some (2, 3, true, 2, 2, 0) := by
  intro enum_signed
  cases enum_signed <;> decide

/-- The schedule size in every configuration that does not divide by a zero vector count: for
every ring size `N` and iteration count `I >= 0`, when every post is accepted
`server_pre_post_wqes` returns 0 having made exactly `2 * N * I` posts, of which exactly `N * I`
are wait requests and `N * I` are forward requests (6 + 6 = 12 for `N = 2`, `I = 3`). -/
theorem schedule_size (env : Env) (ctx : pingpong_context) (size : Nat) (w : World)
    (I : Nat) (rem_dest : List pingpong_dest) (N : Nat) (hnd : no_div_zero ctx)
    (hacc : ∀ m e1, (schedule ctx size (I : Int) rem_dest N)[m]? = some e1 →
      env.ibv_post_send (w.posted + m) e1.1 e1.2.1 = 0) :
    (server_pre_post_wqes env ctx size w (I : Int) rem_dest N).ret = 0 ∧
    (server_pre_post_wqes env ctx size w (I : Int) rem_dest N).fault = false ∧
    (server_pre_post_wqes env ctx size w (I : Int) rem_dest N).w.posted
      = w.posted + 2 * N * I ∧
    (server_pre_post_wqes env ctx size w (I : Int) rem_dest N).w.trace.countP is_wait_post
      = w.trace.countP is_wait_post + N * I ∧
    (server_pre_post_wqes env ctx size w (I : Int) rem_dest N).w.trace.countP is_forward_post
      = w.trace.countP is_forward_post + N * I := by
  rw [server_pre_post_wqes_all_ok env ctx size w (I : Int) rem_dest N hnd hacc]
  have hc := schedule_counts ctx size (I : Int) rem_dest N I
  have hl := schedule_length ctx size (I : Int) rem_dest N
  simp only [Int.toNat_ofNat] at hl
  refine ⟨rfl, rfl, ?_, ?_, ?_⟩
  · simp only [hl]
  · simp only [List.countP_append]
    unfold schedule
    rw [Int.toNat_ofNat, hc.1]
  · simp only [List.countP_append]
    unfold schedule
    rw [Int.toNat_ofNat, hc.2]

theorem schedule_size_witness :
    (server_pre_post_wqes (envAllOk []) ctx2 4096 (world0 2) ((3 : Nat) : Int) [exD, exD] 2).ret
      = 0 ∧
    (server_pre_post_wqes (envAllOk []) ctx2 4096 (world0 2) ((3 : Nat) : Int) [exD, exD]
      2).w.posted = 0 + 2 * 2 * 3 ∧
    (server_pre_post_wqes (envAllOk []) ctx2 4096 (world0 2) ((3 : Nat) : Int) [exD, exD]
      2).w.trace.countP is_wait_post = (world0 2).trace.countP is_wait_post + 2 * 3 ∧
    (server_pre_post_wqes (envAllOk []) ctx2 4096 (world0 2) ((3 : Nat) : Int) [exD, exD]
      2).w.trace.countP is_forward_post = (world0 2).trace.countP is_forward_post + 2 * 3 :=
  have h := schedule_size (envAllOk []) ctx2 4096 (world0 2) 3 [exD, exD] 2 (by decide)
    (fun _ _ _ => rfl)
  ⟨h.1, h.2.2.1, h.2.2.2.1, h.2.2.2.2⟩

/-- C16, counterexample. Ring of 2 members, 1 iteration; the transport rejects the first post.
`server_pre_post_wqes` returns -1 after that post and the error message: the wait request of
iteration 0 for member 1 is never posted, nothing reaches the send queue of member 1. -/
theorem wait_request_never_posted :
    (server_pre_post_wqes (envRejectPost 0) ctx2 4096 (world0 2) 1 [exD, exD] 2).ret = -1 ∧
    (server_pre_post_wqes (envRejectPost 0) ctx2 4096 (world0 2) 1 [exD, exD] 2).w.trace
      = [Event.post_send 0 (wait_wr ctx2 1 2 0 0) 22,
         Event.stderr "-E- ibv_post_send verb wait_cqe failed"] ∧
    (server_pre_post_wqes (envRejectPost 0) ctx2 4096 (world0 2) 1 [exD, exD]
      2).w.trace.countP (posts_on 1) = 0 := by
  decide

/-- C16, as amended. Wait request: for every iteration `i < I` and member `j < N`, the wait
request of `(i, j)` is the call number `2 * N * i + j` of `server_pre_post_wqes`. In every run,
if that call is made it posts, on the send queue of member `j`, a request with opcode CQE-wait
and no scatter/gather entry that waits on the receive completion queue of member `(j + 1) mod N`
with a completion count of 1, and that carries the signaled flag if and only if `i = I - 1`. The
call is made in every run in which every post before it is accepted and no division by a zero
vector count comes before it (`i = 0`, or the configuration does not divide by zero). -/
theorem wait_request (env : Env) (ctx : pingpong_context) (size : Nat) (w : World)
    (iters : Int) (rem_dest : List pingpong_dest) (N i j : Nat)
    (hi : (i : Int) < iters) (hj : j < N) :
    (∀ qp wr r,
      (server_pre_post_wqes env ctx size w iters rem_dest N).w.trace[
          w.trace.length + (2 * N * i + j)]? = some (Event.post_send qp wr r) →
      qp = j ∧ wr = wait_wr ctx iters N i j ∧
      r = env.ibv_post_send (w.posted + (2 * N * i + j)) j (wait_wr ctx iters N i j)) ∧
    ((i = 0 ∨ no_div_zero ctx) →
      (∀ m e1, m < 2 * N * i + j → (schedule ctx size iters rem_dest N)[m]? = some e1 →
        env.ibv_post_send (w.posted + m) e1.1 e1.2.1 = 0) →
      (server_pre_post_wqes env ctx size w iters rem_dest N).w.trace[
          w.trace.length + (2 * N * i + j)]?
        = some (Event.post_send j (wait_wr ctx iters N i j)
            (env.ibv_post_send (w.posted + (2 * N * i + j)) j (wait_wr ctx iters N i j)))) ∧
    (wait_wr ctx iters N i j).opcode = ibv_wr_opcode.IBV_WR_CQE_WAIT ∧
    (wait_wr ctx iters N i j).sg_list = [] ∧
    (wait_wr ctx iters N i j).num_sge = 0 ∧
    (wait_wr ctx iters N i j).wr = wr_union.cqe_wait (ctx.rx_cq.getD ((j + 1) % N) 0) 1 ∧
    ((wait_wr ctx iters N i j).flags.IBV_SEND_SIGNALED = true ↔ (i : Int) = iters - 1) := by
  have hat := schedule_at ctx size iters rem_dest N i j true (by omega) hj
  simp only [position, if_true, request] at hat
  refine ⟨?_, ?_, rfl, rfl, rfl, rfl, by simp [wait_wr]⟩
  · intro qp wr r h
    obtain ⟨⟨b, hb⟩, hr⟩ := posted_request env ctx size w iters rem_dest N _ qp wr r h
    rw [hat] at hb
    simp only [Option.some.injEq, Prod.mk.injEq] at hb
    obtain ⟨h1, h2, -⟩ := hb
    subst h1
    subst h2
    exact ⟨rfl, rfl, hr⟩
  · intro hz hacc
    have hreach : no_div_zero ctx ∨ 2 * N * i + j < N := by
      rcases hz with h | h
      · right
        subst h
        omega
      · exact Or.inl h
    exact posted_when_reached env ctx size w iters rem_dest N _ _ hat hreach hacc

theorem wait_request_witness :
    (((2 : Nat) : Int) < 3 ∧ 1 < 2) ∧
    (server_pre_post_wqes (envAllOk []) ctx2 4096 (world0 2) 3 [exD, exD] 2).w.trace[
        (world0 2).trace.length + (2 * 2 * 2 + 1)]?
      = some (Event.post_send 1 (wait_wr ctx2 3 2 2 1) 0) ∧
    (wait_wr ctx2 3 2 2 1).wr = wr_union.cqe_wait (ctx2.rx_cq.getD ((1 + 1) % 2) 0) 1 ∧
    ((wait_wr ctx2 3 2 2 1).flags.IBV_SEND_SIGNALED = true ↔ ((2 : Nat) : Int) = 3 - 1) :=
  have h := wait_request (envAllOk []) ctx2 4096 (world0 2) 3 [exD, exD] 2 2 1 (by decide)
    (by decide)
  ⟨by decide, h.2.1 (by decide) (fun _ _ _ _ => rfl), h.2.2.2.2.2.1, h.2.2.2.2.2.2⟩

/-- C17, counterexample. Ring of 2 members, 1 iteration; the transport rejects the second post
(the wait request of member 1). `server_pre_post_wqes` returns -1: no forward request is posted,
neither that of `(0, 0)` nor that of `(0, 1)`. -/
theorem forward_request_never_posted :
    (server_pre_post_wqes (envRejectPost 1) ctx2 4096 (world0 2) 1 [exD, exD] 2).ret = -1 ∧
    (server_pre_post_wqes (envRejectPost 1) ctx2 4096 (world0 2) 1 [exD, exD] 2).w.trace
      = [Event.post_send 0 (wait_wr ctx2 1 2 0 0) 0,
         Event.post_send 1 (wait_wr ctx2 1 2 0 1) 22,
         Event.stderr "-E- ibv_post_send verb wait_cqe failed"] ∧
    (server_pre_post_wqes (envRejectPost 1) ctx2 4096 (world0 2) 1 [exD, exD]
      2).w.trace.countP is_forward_post = 0 := by
  decide

/-- C17, as amended. Forward request: for every iteration `i < I` and member `j < N`, the forward
request of `(i, j)` is the call number `2 * N * i + N + j` of `server_pre_post_wqes`. In every
run, if that call is made it posts, on the send queue of member `j`, an RDMA write whose single
source segment is the buffer `net_buf[(j + 1) mod N]` with the local key of `mr[(j + 1) mod N]`,
whose destination is the address `rem_dest[j]->vaddr` with key `rem_dest[j]->rkey` (as 64-bit
and 32-bit values), and which carries the signaled flag if and only if `i = I - 1`. The call is
made in every run in which every post before it is accepted and the configuration does not
divide by a zero vector count. -/
theorem forward_request (env : Env) (ctx : pingpong_context) (size : Nat) (w : World)
    (iters : Int) (rem_dest : List pingpong_dest) (N i j : Nat)
    (hi : (i : Int) < iters) (hj : j < N) :
    (∀ qp wr r,
      (server_pre_post_wqes env ctx size w iters rem_dest N).w.trace[
          w.trace.length + (2 * N * i + (N + j))]? = some (Event.post_send qp wr r) →
      qp = j ∧ wr = send_wr ctx size iters rem_dest N i j ∧
      r = env.ibv_post_send (w.posted + (2 * N * i + (N + j))) j
            (send_wr ctx size iters rem_dest N i j)) ∧
    (no_div_zero ctx →
      (∀ m e1, m < 2 * N * i + (N + j) → (schedule ctx size iters rem_dest N)[m]? = some e1 →
        env.ibv_post_send (w.posted + m) e1.1 e1.2.1 = 0) →
      (server_pre_post_wqes env ctx size w iters rem_dest N).w.trace[
          w.trace.length + (2 * N * i + (N + j))]?
        = some (Event.post_send j (send_wr ctx size iters rem_dest N i j)
            (env.ibv_post_send (w.posted + (2 * N * i + (N + j))) j
              (send_wr ctx size iters rem_dest N i j)))) ∧
    (send_wr ctx size iters rem_dest N i j).opcode = ibv_wr_opcode.IBV_WR_RDMA_WRITE_WITH_IMM ∧
    (send_wr ctx size iters rem_dest N i j).num_sge = 1 ∧
    (∃ len, (send_wr ctx size iters rem_dest N i j).sg_list
      = [{ addr := ctx.net_buf.getD ((j + 1) % N) 0, length := len,
           lkey := ctx.mr_lkey.getD ((j + 1) % N) 0 }]) ∧
    (send_wr ctx size iters rem_dest N i j).wr
      = wr_union.rdma ((rem_dest.getD j zero_dest).vaddr % 2 ^ 64)
          ((rem_dest.getD j zero_dest).rkey % 2 ^ 32) ∧
    ((rem_dest.getD j zero_dest).vaddr < 2 ^ 64 → (rem_dest.getD j zero_dest).rkey < 2 ^ 32 →
      (send_wr ctx size iters rem_dest N i j).wr
        = wr_union.rdma (rem_dest.getD j zero_dest).vaddr (rem_dest.getD j zero_dest).rkey) ∧
    ((send_wr ctx size iters rem_dest N i j).flags.IBV_SEND_SIGNALED = true
      ↔ (i : Int) = iters - 1) := by
  have hat := schedule_at ctx size iters rem_dest N i j false (by omega) hj
  simp only [position, Bool.false_eq_true, if_false, request] at hat
  refine ⟨?_, ?_, rfl, rfl, ?_, rfl, ?_, by simp [send_wr]⟩
  · intro qp wr r h
    obtain ⟨⟨b, hb⟩, hr⟩ := posted_request env ctx size w iters rem_dest N _ qp wr r h
    rw [hat] at hb
    simp only [Option.some.injEq, Prod.mk.injEq] at hb
    obtain ⟨h1, h2, -⟩ := hb
    subst h1
    subst h2
    exact ⟨rfl, rfl, hr⟩
  · intro hnd hacc
    exact posted_when_reached env ctx size w iters rem_dest N _ _ hat (Or.inl hnd) hacc
  · simp only [send_wr]
    split_ifs <;> exact ⟨_, rfl⟩
  · intro hv hk
    simp only [send_wr, Nat.mod_eq_of_lt hv, Nat.mod_eq_of_lt hk]

theorem forward_request_witness :
    (((2 : Nat) : Int) < 3 ∧ 1 < 2) ∧
    (server_pre_post_wqes (envAllOk []) ctx2 4096 (world0 2) 3 [exD, exD] 2).w.trace[
        (world0 2).trace.length + (2 * 2 * 2 + (2 + 1))]?
      = some (Event.post_send 1 (send_wr ctx2 4096 3 [exD, exD] 2 2 1) 0) ∧
    (send_wr ctx2 4096 3 [exD, exD] 2 2 1).wr
      = wr_union.rdma (([exD, exD] : List pingpong_dest).getD 1 zero_dest).vaddr
          (([exD, exD] : List pingpong_dest).getD 1 zero_dest).rkey :=
  have h := forward_request (envAllOk []) ctx2 4096 (world0 2) 3 [exD, exD] 2 2 1 (by decide)
    (by decide)
  ⟨by decide, h.2.1 (by decide) (fun _ _ _ _ => rfl),
    h.2.2.2.2.2.2.1 (by decide) (by decide)⟩

/-- C19. Reduction tagging: for every iteration `i < I` and member `j < N`, the forward request
that `server_pre_post_wqes` posts for `(i, j)` is, when no calc opcode is configured, a plain
RDMA write (no vector-calc flag, no calc fields, segment length equal to the size as a 32-bit
value); otherwise it carries the vector-calc flag with the configured opcode, operand type,
operand size and vector count (as an 8-bit value), and its segment length is the size divided
(integer division) by the vector count. -/
theorem reduction_tagging (env : Env) (ctx : pingpong_context) (size : Nat) (w : World)
    (iters : Int) (rem_dest : List pingpong_dest) (N i j : Nat) (hnd : no_div_zero ctx)
    (hi : (i : Int) < iters) (hj : j < N)
    (hacc : ∀ m e1, (schedule ctx size iters rem_dest N)[m]? = some e1 →
      env.ibv_post_send (w.posted + m) e1.1 e1.2.1 = 0) :
    (server_pre_post_wqes env ctx size w iters rem_dest N).w.trace[
        w.trace.length + position N i j false]?
      = some (Event.post_send j (send_wr ctx size iters rem_dest N i j) 0) ∧
    (ctx.calc_op.opcode = IBV_CALC_OP_NA →
      (send_wr ctx size iters rem_dest N i j).flags.IBV_SEND_VECTOR_CALC = false ∧
      (send_wr ctx size iters rem_dest N i j).vector_calc = zero_vector_calc ∧
      (send_wr ctx size iters rem_dest N i j).sg_list
        = [{ addr := ctx.net_buf.getD ((j + 1) % N) 0, length := size % 2 ^ 32,
             lkey := ctx.mr_lkey.getD ((j + 1) % N) 0 }] ∧
      (size < 2 ^ 32 →
        (send_wr ctx size iters rem_dest N i j).sg_list
          = [{ addr := ctx.net_buf.getD ((j + 1) % N) 0, length := size,
               lkey := ctx.mr_lkey.getD ((j + 1) % N) 0 }])) ∧
    (ctx.calc_op.opcode ≠ IBV_CALC_OP_NA →
      (send_wr ctx size iters rem_dest N i j).flags.IBV_SEND_VECTOR_CALC = true ∧
      (send_wr ctx size iters rem_dest N i j).vector_calc.op = ctx.calc_op.opcode ∧
      (send_wr ctx size iters rem_dest N i j).vector_calc.operand_type
        = ctx.calc_op.operand_type ∧
      (send_wr ctx size iters rem_dest N i j).vector_calc.operand_size
        = ctx.calc_op.operand_size ∧
      (send_wr ctx size iters rem_dest N i j).vector_calc.vector_count
        = ctx.calc_op.vector_count % 256 ∧
      (send_wr ctx size iters rem_dest N i j).sg_list
        = [{ addr := ctx.net_buf.getD ((j + 1) % N) 0,
             length := size % 2 ^ 32 / (ctx.calc_op.vector_count % 256),
             lkey := ctx.mr_lkey.getD ((j + 1) % N) 0 }] ∧
      (size < 2 ^ 32 → ctx.calc_op.vector_count < 256 →
        (send_wr ctx size iters rem_dest N i j).sg_list
          = [{ addr := ctx.net_buf.getD ((j + 1) % N) 0,
               length := size / ctx.calc_op.vector_count,
               lkey := ctx.mr_lkey.getD ((j + 1) % N) 0 }])) := by
  have h := posted_at env ctx size w iters rem_dest N i j false hnd hi hj hacc
  simp only [request, Bool.false_eq_true, if_false] at h
  refine ⟨h, ?_, ?_⟩
  · intro hna
    have ht : (ctx.calc_op.opcode != IBV_CALC_OP_NA) = false := by simp [hna]
    refine ⟨?_, ?_, ?_, ?_⟩
    · simp only [send_wr, ht]
    · simp only [send_wr, ht, Bool.false_eq_true, if_false]
    · simp only [send_wr, ht, Bool.false_eq_true, if_false]
    · intro hs
      simp only [send_wr, ht, Bool.false_eq_true, if_false, Nat.mod_eq_of_lt hs]
  · intro hna
    have ht : (ctx.calc_op.opcode != IBV_CALC_OP_NA) = true := by simp [hna]
    refine ⟨?_, ?_, ?_, ?_, ?_, ?_, ?_⟩
    · simp only [send_wr, ht]
    · simp only [send_wr, ht, if_true]
    · simp only [send_wr, ht, if_true]
    · simp only [send_wr, ht, if_true]
    · simp only [send_wr, ht, if_true]
    · simp only [send_wr, ht, if_true]
    · intro hs hvc
      simp only [send_wr, ht, if_true, Nat.mod_eq_of_lt hs, Nat.mod_eq_of_lt hvc]

theorem reduction_tagging_witness :
    (server_pre_post_wqes (envAllOk []) ctx2 4096 (world0 2) 3 [exD, exD] 2).w.trace[
        (world0 2).trace.length + position 2 2 1 false]?
      = some (Event.post_send 1 (send_wr ctx2 4096 3 [exD, exD] 2 2 1) 0) ∧
    (send_wr ctx2 4096 3 [exD, exD] 2 2 1).flags.IBV_SEND_VECTOR_CALC = false ∧
    (send_wr ctx2Calc 4096 3 [exD, exD] 2 2 1).flags.IBV_SEND_VECTOR_CALC = true ∧
    (send_wr ctx2Calc 4096 3 [exD, exD] 2 2 1).sg_list
      = [{ addr := ctx2Calc.net_buf.getD ((1 + 1) % 2) 0,
           length := 4096 / ctx2Calc.calc_op.vector_count,
           lkey := ctx2Calc.mr_lkey.getD ((1 + 1) % 2) 0 }] :=
  have h := reduction_tagging (envAllOk []) ctx2 4096 (world0 2) 3 [exD, exD] 2 2 1 (by decide)
    (by decide) (by decide) (fun _ _ _ => rfl)
  have g := reduction_tagging (envAllOk []) ctx2Calc 4096 (world0 2) 3 [exD, exD] 2 2 1
    (by decide) (by decide) (by decide) (fun _ _ _ => rfl)
  ⟨h.1, (h.2.1 rfl).1, (g.2.2 (by decide)).1,
    (g.2.2 (by decide)).2.2.2.2.2.2 (by decide) (by decide)⟩

/-- C18, counterexample. Ring of 2 members, 2 iterations; the transport rejects the sixth post
(the wait request of `(1, 1)`). The send queue of member 0 receives wait(0,0), forward(0,0),
wait(1,0) and nothing more: forward(1,0) never reaches it. -/
theorem per_queue_order_cut_short :
    (server_pre_post_wqes (envRejectPost 5) ctx2 4096 (world0 2) 2 [exD, exD] 2).ret = -1 ∧
    queue_posts 0
        (server_pre_post_wqes (envRejectPost 5) ctx2 4096 (world0 2) 2 [exD, exD] 2).w.trace
      = [wait_wr ctx2 2 2 0 0, send_wr ctx2 4096 2 [exD, exD] 2 0 0, wait_wr ctx2 2 2 1 0] ∧
    queue_posts 0
        (server_pre_post_wqes (envRejectPost 5) ctx2 4096 (world0 2) 2 [exD, exD] 2).w.trace
      ≠ [wait_wr ctx2 2 2 0 0, send_wr ctx2 4096 2 [exD, exD] 2 0 0, wait_wr ctx2 2 2 1 0,
         send_wr ctx2 4096 2 [exD, exD] 2 1 0] := by
  decide

/-- C18, as amended. Per-queue order refinement: for every ring size `N` and iteration count
`I`, the schedule of the code (per iteration all waits, then all forwards) and the algorithm of
the specification (per iteration and member: wait, then forward) have the same projection onto
the send queue of every member `q`: for `q < N` it is wait(0,q), forward(0,q), wait(1,q),
forward(1,q), ..., wait(I-1,q), forward(I-1,q). In every run of `server_pre_post_wqes` what the
send queue of `q` receives is a prefix of that sequence, and it is the whole sequence in the run
in which every post is accepted and the configuration does not divide by a zero vector count. -/
theorem per_queue_order (env : Env) (ctx : pingpong_context) (size : Nat) (w : World)
    (iters : Int) (rem_dest : List pingpong_dest) (N : Nat) :
    (∀ q,
      on_queue q (schedule ctx size iters rem_dest N)
        = on_queue q (spec_schedule ctx size iters rem_dest N) ∧
      (q < N →
        (on_queue q (spec_schedule ctx size iters rem_dest N)).map (fun e => e.2.1)
          = (List.range iters.toNat).flatMap (fun i =>
              [wait_wr ctx iters N i q, send_wr ctx size iters rem_dest N i q])) ∧
      ∃ ev,
        (server_pre_post_wqes env ctx size w iters rem_dest N).w.trace = w.trace ++ ev ∧
        queue_posts q ev
          <+: (on_queue q (spec_schedule ctx size iters rem_dest N)).map (fun e => e.2.1)) ∧
    (no_div_zero ctx →
      (∀ m e1, (schedule ctx size iters rem_dest N)[m]? = some e1 →
        env.ibv_post_send (w.posted + m) e1.1 e1.2.1 = 0) →
      (server_pre_post_wqes env ctx size w iters rem_dest N).w.trace
        = w.trace ++ (schedule ctx size iters rem_dest N).map (post_event 0) ∧
      ∀ q, queue_posts q ((schedule ctx size iters rem_dest N).map (post_event 0))
        = (on_queue q (spec_schedule ctx size iters rem_dest N)).map (fun e => e.2.1)) := by
  have hsame : ∀ q, on_queue q (schedule ctx size iters rem_dest N)
      = on_queue q (spec_schedule ctx size iters rem_dest N) := by
    intro q
    rw [on_queue_schedule, on_queue_spec_schedule]
  refine ⟨?_, ?_⟩
  · intro q
    refine ⟨hsame q, ?_, ?_⟩
    · intro hq
      rw [on_queue_spec_schedule]
      simp only [hq, if_true, request, Bool.false_eq_true, if_false, List.map_flatMap,
        List.map_cons, List.map_nil]
    · rw [← hsame q]
      exact queue_posts_prefix env ctx size w iters rem_dest N q
  · intro hnd hacc
    refine ⟨?_, ?_⟩
    · rw [server_pre_post_wqes_all_ok env ctx size w iters rem_dest N hnd hacc]
    · intro q
      rw [queue_posts_accepted, hsame q]

theorem per_queue_order_witness :
    no_div_zero ctx2 ∧
    (server_pre_post_wqes (envAllOk []) ctx2 4096 (world0 2) 3 [exD, exD] 2).w.trace
      = (world0 2).trace ++ (schedule ctx2 4096 3 [exD, exD] 2).map (post_event 0) ∧
    queue_posts 1 ((schedule ctx2 4096 3 [exD, exD] 2).map (post_event 0))
      = (List.range 3).flatMap (fun i =>
          [wait_wr ctx2 3 2 i 1, send_wr ctx2 4096 3 [exD, exD] 2 i 1]) :=
  have h := per_queue_order (envAllOk []) ctx2 4096 (world0 2) 3 [exD, exD] 2
  have g := h.2 (by decide) (fun _ _ _ => rfl)
  ⟨by decide, g.1, (g.2 1).trans ((h.1 1).2.1 (by decide))⟩

/-- C15, counterexample. Server with two ring members on a port with an Ethernet link layer
(LID 0), `lrand48` returning a multiple of `2 ^ 24`, `user_param.out_reads` as `memset` left it:
both descriptors `main` builds have lid, psn and out_reads equal to zero. -/
theorem local_descriptor_zero_fields :
    main_build_dest hostEthernet ctx2Local (params 2 1) false
      = Except.ok
          [{ lid := 0, out_reads := 0, qpn := 0x105, psn := 0, rkey := 0x33, vaddr := 0x1000,
             gid := List.replicate 16 0, mac := List.replicate 6 0 },
           { lid := 0, out_reads := 0, qpn := 0x106, psn := 0, rkey := 0x44, vaddr := 0x2000,
             gid := List.replicate 16 0, mac := List.replicate 6 0 }] := by
  rfl

/-- C15, as amended. Every local descriptor `main` builds and hands to the exchange
(`my_dest[0]` on the client, `my_dest[0 .. N-1]` on the server) has as lid the LID the port query
reports, which is non-zero unless the link layer of the port is Ethernet; as qpn the number of
its queue pair; as psn the low 24 bits of `lrand48()`; as rkey and vaddr the remote key and the
address of the advertised buffer; as out_reads the value of `user_param.out_reads`; and, when a
GID index is configured, as global address the one `ibv_query_gid` reports. -/
theorem local_descriptors (h : HostEnv) (ctx : pingpong_context)
    (user_param : perftest_parameters) (is_client : Bool) (dests : List pingpong_dest)
    (hb : main_build_dest h ctx user_param is_client = Except.ok dests) :
    dests.length = (if is_client then 1 else 1 + (user_param.num_of_nodes - 1)) ∧
    ∀ j d, dests[j]? = some d →
      (h.ibv_query_port j).1 = 0 ∧
      d.lid = (h.ibv_query_port j).2.lid ∧
      ((h.ibv_query_port j).2.link_layer ≠ ibv_link_layer.IBV_LINK_LAYER_ETHERNET →
        d.lid ≠ 0) ∧
      d.qpn = ctx.qp_num.getD j 0 % 2 ^ 32 ∧
      d.psn = h.lrand48 j % 2 ^ 24 ∧ d.psn < 2 ^ 24 ∧
      d.rkey = ctx.mr_rkey.getD (if is_client then 1 else j) 0 % 2 ^ 32 ∧
      d.vaddr = ctx.net_buf.getD (if is_client then 1 else j) 0 % 2 ^ 64 ∧
      d.out_reads = (user_param.out_reads % 2 ^ 32).toNat ∧
      (user_param.gid_index ≠ -1 → d.gid = h.ibv_query_gid.2) := by
  unfold main_build_dest at hb
  by_cases hg : user_param.gid_index ≠ -1 ∧ h.ibv_query_gid.1 ≠ 0
  · rw [if_pos hg] at hb
    cases hb
  rw [if_neg hg] at hb
  simp only at hb
  cases hl : pp_get_local_lid (h.ibv_query_port 0) with
  | none => rw [hl] at hb; simp at hb
  | some lid =>
    rw [hl] at hb
    simp only at hb
    obtain ⟨q1, q2, q3⟩ := pp_get_local_lid_some _ _ hl
    have key : ∀ (j buf lid1 : Nat) (mac : List Nat) (d : pingpong_dest),
        pp_get_local_lid (h.ibv_query_port j) = some lid1 →
        d = fill_dest h ctx user_param
          (if user_param.gid_index ≠ -1 then h.ibv_query_gid.2 else h.temp_gid) j buf lid1 mac →
        (h.ibv_query_port j).1 = 0 ∧
        d.lid = (h.ibv_query_port j).2.lid ∧
        ((h.ibv_query_port j).2.link_layer ≠ ibv_link_layer.IBV_LINK_LAYER_ETHERNET →
          d.lid ≠ 0) ∧
        d.qpn = ctx.qp_num.getD j 0 % 2 ^ 32 ∧
        d.psn = h.lrand48 j % 2 ^ 24 ∧ d.psn < 2 ^ 24 ∧
        d.rkey = ctx.mr_rkey.getD buf 0 % 2 ^ 32 ∧
        d.vaddr = ctx.net_buf.getD buf 0 % 2 ^ 64 ∧
        d.out_reads = (user_param.out_reads % 2 ^ 32).toNat ∧
        (user_param.gid_index ≠ -1 → d.gid = h.ibv_query_gid.2) := by
      intro j buf lid1 mac d hl1 hd
      obtain ⟨p1, p2, p3⟩ := pp_get_local_lid_some _ _ hl1
      subst hd
      refine ⟨p1, p2, ?_, rfl, rfl, Nat.mod_lt _ (by norm_num), rfl, rfl, rfl, ?_⟩
      · intro hne; exact p3 hne
      · intro hne; simp [fill_dest, hne]
    cases is_client with
    | true =>
      simp only [if_true, Except.ok.injEq] at hb
      subst hb
      refine ⟨rfl, ?_⟩
      intro j d hj
      cases j with
      | zero =>
        simp only [List.getElem?_cons_zero, Option.some.injEq] at hj
        exact key 0 1 lid _ d hl hj.symm
      | succ j => simp at hj
    | false =>
      simp only [Bool.false_eq_true, if_false] at hb
      cases hm : more_dests h ctx user_param
          (if user_param.gid_index ≠ -1 then h.ibv_query_gid.2 else h.temp_gid)
          (user_param.num_of_nodes - 1) 1 with
      | none => rw [hm] at hb; simp at hb
      | some ds =>
        rw [hm] at hb
        simp only [Except.ok.injEq] at hb
        subst hb
        obtain ⟨hlen, hall⟩ := more_dests_spec h ctx user_param _ _ 1 ds hm
        refine ⟨by simp [hlen]; omega, ?_⟩
        intro j d hj
        cases j with
        | zero =>
          simp only [List.getElem?_cons_zero, Option.some.injEq] at hj
          exact key 0 0 lid _ d hl hj.symm
        | succ j =>
          simp only [List.getElem?_cons_succ] at hj
          obtain ⟨lid1, h1, h2⟩ := hall j d hj
          rw [show 1 + j = j + 1 by omega] at h1 h2
          simpa using key (j + 1) (j + 1) lid1 _ d h1 h2

theorem local_descriptors_witness :
    (hostInfiniband.ibv_query_port 1).1 = 0 ∧
    exLocal1.lid = (hostInfiniband.ibv_query_port 1).2.lid ∧
    ((hostInfiniband.ibv_query_port 1).2.link_layer ≠ ibv_link_layer.IBV_LINK_LAYER_ETHERNET →
      exLocal1.lid ≠ 0) ∧
    exLocal1.qpn = ctx2Local.qp_num.getD 1 0 % 2 ^ 32 ∧
    exLocal1.psn = hostInfiniband.lrand48 1 % 2 ^ 24 ∧ exLocal1.psn < 2 ^ 24 ∧
    exLocal1.rkey = ctx2Local.mr_rkey.getD (if false = true then 1 else 1) 0 % 2 ^ 32 ∧
    exLocal1.vaddr = ctx2Local.net_buf.getD (if false = true then 1 else 1) 0 % 2 ^ 64 ∧
    exLocal1.out_reads = (({ params 2 1 with gid_index := 0 } : perftest_parameters).out_reads
      % 2 ^ 32).toNat ∧
    ((({ params 2 1 with gid_index := 0 } : perftest_parameters).gid_index ≠ -1) →
      exLocal1.gid = hostInfiniband.ibv_query_gid.2) :=
  (local_descriptors hostInfiniband ctx2Local { params 2 1 with gid_index := 0 } false
    [{ exLocal1 with qpn := 0x105, psn := 0x123456, rkey := 0x33, vaddr := 0x1000 }, exLocal1]
    (by rfl)).2 1 exLocal1 rfl

/-- The write-back at the level of the function alone, for an array that `main` never builds:
ring of two members whose local descriptors `exD` and `exD2` differ in their global address. The
record `pp_server_exch_dest` writes to member 1 (descriptor 5) carries the six numeric fields of
`my_dest[1]` and the global address of `my_dest[0]`. Member 0 receives the serialization of
`my_dest[0]`. -/
theorem write_back_carries_first_gid :
    Event.write 4 (serialize true exD) 83 ∈
      (pp_server_exch_dest (envAllOk (serialize true exD)) (world0 2) 1 3 0 [exD, exD2] (-1)
        2).2.2.trace ∧
    Event.write 5 (msg_bytes (sprintf_KEY_GID exD2 (my_gid_to_wire_gid true exD.gid))) 83 ∈
      (pp_server_exch_dest (envAllOk (serialize true exD)) (world0 2) 1 3 0 [exD, exD2] (-1)
        2).2.2.trace ∧
    Event.write 5 (serialize true exD2) 83 ∉
      (pp_server_exch_dest (envAllOk (serialize true exD)) (world0 2) 1 3 0 [exD, exD2] (-1)
        2).2.2.trace ∧
    (deserialize true 0 (msg_bytes (sprintf_KEY_GID exD2 (my_gid_to_wire_gid true exD.gid)))
      junkD []).1 = { exD2 with gid := exD.gid, mac := junkD.mac } ∧
    exD2.gid ≠ exD.gid := by
  decide

/-- C22, counterexample. The options `-l 300 -i 257` are accepted and give `sl = 300`,
`ib_port = 257`; with them a successful `pp_connect_ctx` issues an RTR modify whose service level
is 44 and whose port is 1, the values the 8-bit attribute fields keep, not 300 and 257. -/
theorem transition_attribute_counterexample :
    ((parser false main_user_param [Opt.l 300, Opt.i 257]).accepted.map
      (fun up => (up.sl, up.ib_port))) = some (300, 257) ∧
    (pp_connect_ctx (envAllOk []) (world0 1) 0 257 0xabcdef 3 300 exD2 (-1)).1 = 0 ∧
    (pp_connect_ctx (envAllOk []) (world0 1) 0 257 0xabcdef 3 300 exD2 (-1)).2.trace
      = (world0 1).trace ++
        [Event.modify_qp 0 (rtr_attr 257 3 300 exD2 (-1)) RTR_MASK 0,
         Event.modify_qp 0 (rts_attr 257 0xabcdef 3 300 exD2 (-1)) RTS_MASK 0] ∧
    (rtr_attr 257 3 300 exD2 (-1)).ah_attr.sl = 44 ∧
    (rtr_attr 257 3 300 exD2 (-1)).ah_attr.port_num = 1 := by
  decide

/-- C22, as amended. Transition attribute sets: whenever `pp_connect_ctx` returns 0, exactly two
modify requests were issued on `qp`, both accepted. The first sets state RTR with path MTU `mtu`,
destination queue-pair number `dest.qpn` and receive sequence number `dest.psn` as 32-bit values,
destination LID `dest.lid` reduced to the 16-bit field, service level `sl` and port `port`
reduced to their 8-bit fields (these are `dest.qpn`, `dest.psn`, `dest.lid`, `sl`, `port`
themselves when they are within the range of the field), `max_dest_rd_atomic = 1` and
`min_rnr_timer = 12`; the second sets state RTS with send sequence number `my_psn` as a 32-bit
value, retry count 7, RNR retry count 7, timeout 14 and `max_rd_atomic = 1`. -/
theorem transition_attribute_sets (env : Env) (w : World) (qp : Nat) (port : Int)
    (my_psn mtu : Nat) (sl : Int) (dest : pingpong_dest) (sgid_idx : Int)
    (hret : (pp_connect_ctx env w qp port my_psn mtu sl dest sgid_idx).1 = 0) :
    ∃ a1 a2 : ibv_qp_attr,
      (pp_connect_ctx env w qp port my_psn mtu sl dest sgid_idx).2.trace
        = w.trace ++ [Event.modify_qp qp a1 RTR_MASK 0, Event.modify_qp qp a2 RTS_MASK 0] ∧
      a1.qp_state = ibv_qp_state.IBV_QPS_RTR ∧ a1.path_mtu = mtu ∧
      a1.dest_qp_num = dest.qpn % 2 ^ 32 ∧ a1.rq_psn = dest.psn % 2 ^ 32 ∧
      a1.ah_attr.dlid = dest.lid % 2 ^ 16 ∧ (a1.ah_attr.sl : Int) = sl % 256 ∧
      (a1.ah_attr.port_num : Int) = port % 256 ∧ a1.max_dest_rd_atomic = 1 ∧
      a1.min_rnr_timer = 12 ∧
      a2.qp_state = ibv_qp_state.IBV_QPS_RTS ∧ a2.sq_psn = my_psn % 2 ^ 32 ∧ a2.retry_cnt = 7 ∧
      a2.rnr_retry = 7 ∧ a2.timeout = 14 ∧ a2.max_rd_atomic = 1 ∧
      (dest.qpn < 2 ^ 32 → a1.dest_qp_num = dest.qpn) ∧
      (dest.psn < 2 ^ 32 → a1.rq_psn = dest.psn) ∧
      (dest.lid < 2 ^ 16 → a1.ah_attr.dlid = dest.lid) ∧
      (0 ≤ sl ∧ sl < 256 → (a1.ah_attr.sl : Int) = sl) ∧
      (0 ≤ port ∧ port < 256 → (a1.ah_attr.port_num : Int) = port) ∧
      (my_psn < 2 ^ 32 → a2.sq_psn = my_psn) := by
  have h1 : env.ibv_modify_qp qp (rtr_attr port mtu sl dest sgid_idx) = 0 := by
    by_contra hne
    simp [pp_connect_ctx, ibv_modify_qp, hne] at hret
  have h2 : env.ibv_modify_qp qp (rts_attr port my_psn mtu sl dest sgid_idx) = 0 := by
    by_contra hne
    simp [pp_connect_ctx, ibv_modify_qp, h1, hne] at hret
  have elid : (rtr_attr port mtu sl dest sgid_idx).ah_attr.dlid = dest.lid % 2 ^ 16 := by
    unfold rtr_attr
    split_ifs <;> rfl
  have esl : (((rtr_attr port mtu sl dest sgid_idx).ah_attr.sl : Nat) : Int) = sl % 256 := by
    have e : (rtr_attr port mtu sl dest sgid_idx).ah_attr.sl = (sl % 256).toNat := by
      unfold rtr_attr
      split_ifs <;> rfl
    rw [e]
    exact Int.toNat_of_nonneg (Int.emod_nonneg _ (by norm_num))
  have eport : (((rtr_attr port mtu sl dest sgid_idx).ah_attr.port_num : Nat) : Int)
      = port % 256 := by
    have e : (rtr_attr port mtu sl dest sgid_idx).ah_attr.port_num = (port % 256).toNat := by
      unfold rtr_attr
      split_ifs <;> rfl
    rw [e]
    exact Int.toNat_of_nonneg (Int.emod_nonneg _ (by norm_num))
  refine ⟨rtr_attr port mtu sl dest sgid_idx, rts_attr port my_psn mtu sl dest sgid_idx, ?_, rfl,
    rfl, rfl, rfl, elid, esl, eport, rfl, rfl, rfl, rfl, rfl, rfl, rfl, rfl,
    fun h => Nat.mod_eq_of_lt h, fun h => Nat.mod_eq_of_lt h, ?_, ?_, ?_,
    fun h => Nat.mod_eq_of_lt h⟩
  · simp [pp_connect_ctx, ibv_modify_qp, World.log, h1, h2]
  · intro h
    rw [elid]
    exact Nat.mod_eq_of_lt h
  · intro h
    rw [esl]
    exact Int.emod_eq_of_lt h.1 h.2
  · intro h
    rw [eport]
    exact Int.emod_eq_of_lt h.1 h.2

theorem transition_attribute_sets_witness :
    (pp_connect_ctx (envAllOk []) (world0 1) 0 1 0xabcdef 3 0 exD2 (-1)).1 = 0 ∧
    ∃ a1 a2 : ibv_qp_attr,
      (pp_connect_ctx (envAllOk []) (world0 1) 0 1 0xabcdef 3 0 exD2 (-1)).2.trace
        = (world0 1).trace ++ [Event.modify_qp 0 a1 RTR_MASK 0, Event.modify_qp 0 a2 RTS_MASK 0] ∧
      a1.qp_state = ibv_qp_state.IBV_QPS_RTR ∧ a1.path_mtu = 3 ∧ a1.dest_qp_num = exD2.qpn ∧
      a1.rq_psn = exD2.psn ∧ a1.ah_attr.dlid = exD2.lid ∧ (a1.ah_attr.sl : Int) = 0 ∧
      (a1.ah_attr.port_num : Int) = 1 ∧ a1.max_dest_rd_atomic = 1 ∧ a1.min_rnr_timer = 12 ∧
      a2.qp_state = ibv_qp_state.IBV_QPS_RTS ∧ a2.sq_psn = 0xabcdef ∧ a2.retry_cnt = 7 ∧
      a2.rnr_retry = 7 ∧ a2.timeout = 14 ∧ a2.max_rd_atomic = 1 := by
  refine ⟨by decide, ?_⟩
  obtain ⟨a1, a2, ht, c1, c2, -, -, -, -, -, c8, c9, c10, -, c12, c13, c14, c15, i1, i2, i3,
    i4, i5, i6⟩ := transition_attribute_sets (envAllOk []) (world0 1) 0 1 0xabcdef 3 0 exD2 (-1)
      (by decide)
  exact ⟨a1, a2, ht, c1, c2, i1 (by decide), i2 (by decide), i3 (by decide), i4 (by decide),
    i5 (by decide), c8, c9, c10, i6 (by decide), c12, c13, c14, c15⟩

/-- C23, counterexample. A peer descriptor whose global address `fe80::` is not all-zero but has
a zero interface identifier: the RTR modify of `pp_connect_ctx` configures LID-only routing
(`is_global = 0`, no destination GID). -/
theorem global_routing_counterexample :
    (∃ b ∈ exPrefixOnly.gid, b ≠ 0) ∧
    Event.modify_qp 0 (rtr_attr 1 3 0 exPrefixOnly 0) RTR_MASK 0 ∈
      (pp_connect_ctx (envAllOk []) (world0 1) 0 1 0xabcdef 3 0 exPrefixOnly 0).2.trace ∧
    (rtr_attr 1 3 0 exPrefixOnly 0).ah_attr.is_global = 0 ∧
    (rtr_attr 1 3 0 exPrefixOnly 0).ah_attr.grh.dgid = List.replicate 16 0 := by
  decide

/-- C23, as amended. Global routing selection: for every peer descriptor, the RTR modify that
`pp_connect_ctx` issues first configures global routing (`is_global = 1`, hop limit 1,
destination GID = the peer's global address, source GID index = `sgid_idx` as stored in the 8-bit
field) if and only if the interface identifier of the peer's global address (its bytes 8 to 15)
is not zero; otherwise, in particular with an all-zero global address, it configures LID-only
routing (`is_global = 0`, the global route left zero). -/
theorem global_routing_selection (env : Env) (w : World) (qp : Nat) (port : Int)
    (my_psn mtu : Nat) (sl : Int) (dest : pingpong_dest) (sgid_idx : Int) :
    (pp_connect_ctx env w qp port my_psn mtu sl dest sgid_idx).2.trace[w.trace.length]?
      = some (Event.modify_qp qp (rtr_attr port mtu sl dest sgid_idx) RTR_MASK
          (env.ibv_modify_qp qp (rtr_attr port mtu sl dest sgid_idx))) ∧
    ((rtr_attr port mtu sl dest sgid_idx).ah_attr.is_global = 1 ↔
      ∃ i, 8 ≤ i ∧ i < 16 ∧ dest.gid.getD i 0 % 256 ≠ 0) ∧
    ((∃ i, 8 ≤ i ∧ i < 16 ∧ dest.gid.getD i 0 % 256 ≠ 0) →
      (rtr_attr port mtu sl dest sgid_idx).ah_attr.is_global = 1 ∧
      (rtr_attr port mtu sl dest sgid_idx).ah_attr.grh.hop_limit = 1 ∧
      (rtr_attr port mtu sl dest sgid_idx).ah_attr.grh.dgid = dest.gid ∧
      (rtr_attr port mtu sl dest sgid_idx).ah_attr.grh.sgid_index = (sgid_idx % 256).toNat ∧
      (0 ≤ sgid_idx → sgid_idx < 256 →
        ((rtr_attr port mtu sl dest sgid_idx).ah_attr.grh.sgid_index : Int) = sgid_idx)) ∧
    ((¬ ∃ i, 8 ≤ i ∧ i < 16 ∧ dest.gid.getD i 0 % 256 ≠ 0) →
      (rtr_attr port mtu sl dest sgid_idx).ah_attr.is_global = 0 ∧
      (rtr_attr port mtu sl dest sgid_idx).ah_attr.grh
        = { dgid := List.replicate 16 0, sgid_index := 0, hop_limit := 0 }) ∧
    ((∀ b ∈ dest.gid, b = 0) →
      (rtr_attr port mtu sl dest sgid_idx).ah_attr.is_global = 0) := by
  have hiff := interface_id_nonzero_iff dest
  have hzero : (∀ b ∈ dest.gid, b = 0) →
      ¬ ∃ i, 8 ≤ i ∧ i < 16 ∧ dest.gid.getD i 0 % 256 ≠ 0 := by
    rintro hall ⟨i, -, -, hne⟩
    by_cases hlen : i < dest.gid.length
    · rw [List.getD_eq_getElem _ _ hlen, hall _ (List.getElem_mem _)] at hne
      exact hne rfl
    · rw [List.getD_eq_default _ _ (by omega)] at hne
      exact hne rfl
  have hpos : (∃ i, 8 ≤ i ∧ i < 16 ∧ dest.gid.getD i 0 % 256 ≠ 0) →
      (rtr_attr port mtu sl dest sgid_idx).ah_attr
        = { grh := { dgid := dest.gid, sgid_index := (sgid_idx % 256).toNat, hop_limit := 1 },
            dlid := dest.lid % 2 ^ 16, sl := (sl % 256).toNat, src_path_bits := 0,
            is_global := 1, port_num := (port % 256).toNat } := by
    intro h
    simp only [rtr_attr, hiff.mpr h, if_true]
  have hneg : (¬ ∃ i, 8 ≤ i ∧ i < 16 ∧ dest.gid.getD i 0 % 256 ≠ 0) →
      (rtr_attr port mtu sl dest sgid_idx).ah_attr
        = { grh := { dgid := List.replicate 16 0, sgid_index := 0, hop_limit := 0 },
            dlid := dest.lid % 2 ^ 16, sl := (sl % 256).toNat, src_path_bits := 0,
            is_global := 0, port_num := (port % 256).toNat } := by
    intro h
    have : interface_id_nonzero dest = false := by
      cases hb : interface_id_nonzero dest
      · rfl
      · exact absurd (hiff.mp hb) h
    simp only [rtr_attr, this, Bool.false_eq_true, if_false]
  refine ⟨?_, ?_, ?_, ?_, ?_⟩
  · have key : ∀ (l r : List Event) (a : Event), (l ++ a :: r)[l.length]? = some a := by
      intro l r a
      rw [List.getElem?_append_right (le_refl _)]
      simp
    simp only [pp_connect_ctx, ibv_modify_qp, World.log]
    split_ifs <;>
      simp only [List.append_assoc, List.singleton_append, List.cons_append, List.nil_append] <;>
      exact key _ _ _
  · constructor
    · intro h1
      by_contra hn
      rw [hneg hn] at h1
      simp at h1
    · intro h; rw [hpos h]
  · intro h
    rw [hpos h]
    refine ⟨rfl, rfl, rfl, rfl, ?_⟩
    intro h0 h256
    simp only
    rw [Int.toNat_of_nonneg (Int.emod_nonneg _ (by norm_num))]
    exact Int.emod_eq_of_lt h0 h256
  · intro h
    rw [hneg h]
    exact ⟨rfl, rfl⟩
  · intro h
    rw [hneg (hzero h)]

theorem global_routing_selection_witness :
    (pp_connect_ctx (envAllOk []) (world0 1) 0 1 0xabcdef 3 0 exD 5).2.trace[
        (world0 1).trace.length]?
      = some (Event.modify_qp 0 (rtr_attr 1 3 0 exD 5) RTR_MASK 0) ∧
    (rtr_attr 1 3 0 exD 5).ah_attr.is_global = 1 ∧
    (rtr_attr 1 3 0 exD 5).ah_attr.grh.hop_limit = 1 ∧
    (rtr_attr 1 3 0 exD 5).ah_attr.grh.dgid = exD.gid ∧
    ((rtr_attr 1 3 0 exD 5).ah_attr.grh.sgid_index : Int) = 5 ∧
    (rtr_attr 1 3 0 zero_dest 5).ah_attr.is_global = 0 :=
  have h := global_routing_selection (envAllOk []) (world0 1) 0 1 0xabcdef 3 0 exD 5
  have g := h.2.2.1 ⟨8, by decide, by decide, by decide⟩
  ⟨h.1, g.1, g.2.1, g.2.2.1, g.2.2.2.2 (by decide) (by decide),
    (global_routing_selection (envAllOk []) (world0 1) 0 1 0xabcdef 3 0 zero_dest 5).2.2.2.2
      (by decide)⟩

/-- C29. Global-address wire form: for every 16-byte gid, on either host byte order,
`my_gid_to_wire_gid` writes exactly 32 lower-case hexadecimal digits, the two-digit hexadecimal
values of the bytes 0 to 15 in that order; and `my_wire_gid_to_gid`, on either host byte order,
whatever follows the text in the buffer and whatever its local `v32` held, returns the same 16
bytes from that text. -/
theorem gid_wire_form (le le2 : Bool) (v32 : Nat) (gid : List Nat) (tail : List Char)
    (hlen : gid.length = 16) (hb : ∀ b ∈ gid, b < 256) :
    my_gid_to_wire_gid le gid = gid.flatMap (fun b => [hexChar (b / 16), hexChar (b % 16)]) ∧
    (my_gid_to_wire_gid le gid).length = 32 ∧
    (∀ c ∈ my_gid_to_wire_gid le gid, is_lower_hex c = true) ∧
    my_gid_to_wire_gid true gid = my_gid_to_wire_gid false gid ∧
    my_wire_gid_to_gid le2 v32 (my_gid_to_wire_gid le gid ++ tail) = gid := by
  have hform : my_gid_to_wire_gid le gid
      = gid.flatMap (fun b => [hexChar (b / 16), hexChar (b % 16)]) := by
    conv_rhs => rw [← list16 gid hlen hb]
    rw [my_gid_to_wire_gid_eq]
    simp only [fixedHex8_beWord, List.flatMap_cons, List.flatMap_nil, List.cons_append,
      List.nil_append, List.append_nil]
  refine ⟨hform, ?_, ?_, ?_, ?_⟩
  · rw [my_gid_to_wire_gid_eq]
    simp [fixedHex_length]
  · intro c hc
    rw [hform, List.mem_flatMap] at hc
    obtain ⟨b, hbm, hc⟩ := hc
    have hb256 := hb b hbm
    simp only [List.mem_cons, List.mem_singleton, List.not_mem_nil, or_false] at hc
    rcases hc with rfl | rfl
    · exact hexChar_lower _ (by omega)
    · exact hexChar_lower _ (by omega)
  · rw [my_gid_to_wire_gid_eq, my_gid_to_wire_gid_eq]
  · rw [my_gid_to_wire_gid_eq]
    have hg := my_wire_gid_to_gid_wire le2 v32 (fun i => gid.getD i 0) tail
    rw [list16 gid hlen hb] at hg
    exact hg

theorem gid_wire_form_witness :
    my_gid_to_wire_gid true exD.gid
      = exD.gid.flatMap (fun b => [hexChar (b / 16), hexChar (b % 16)]) ∧
    (my_gid_to_wire_gid true exD.gid).length = 32 ∧
    (∀ c ∈ my_gid_to_wire_gid true exD.gid, is_lower_hex c = true) ∧
    my_gid_to_wire_gid true exD.gid = my_gid_to_wire_gid false exD.gid ∧
    my_wire_gid_to_gid false 7 (my_gid_to_wire_gid true exD.gid ++ ['\x00']) = exD.gid :=
  gid_wire_form true false 7 exD.gid ['\x00'] (by decide) (by decide)

/-- C24. Client benchmark loop: for every iteration count `I` and every sequence of poll results,
the run of the client loop consists of complete cycles, each being one accepted post of a write
of `ctx->size` bytes of `net_buf[0]` to the remote descriptor's vaddr and rkey followed by polls
that deliver nothing and one poll that delivers a completion with status success. A run that
does all iterations consists of exactly `I` such cycles (`I` posts); a run ends with `return 1`
exactly after a rejected post, or after a post and a poll that failed or delivered a completion
with a status other than success, and nothing is posted after it; otherwise the polls given are
used up and the loop is still polling. Whenever the posts are accepted and the polls are `I`
complete cycles, the loop does all `I` iterations. -/
theorem client_benchmark_loop (env : Env) (ctx : pingpong_context) (rem_dest : pingpong_dest)
    (iters : Int) (polls : List PollResult) (w : World) :
    (∃ cycles : List (List PollResult), (∀ c ∈ cycles, good_cycle c) ∧
      ((main_client_loop env ctx rem_dest iters polls w).1 = ClientLoop.finished →
        cycles.length = iters.toNat ∧
        polls = cycles.flatten ++ (main_client_loop env ctx rem_dest iters polls w).2.1 ∧
        (main_client_loop env ctx rem_dest iters polls w).2.2.trace
          = w.trace ++ cycles.flatMap (cycle_events ctx rem_dest) ∧
        (cycles.flatMap (cycle_events ctx rem_dest)).countP is_post = iters.toNat) ∧
      (∀ code, (main_client_loop env ctx rem_dest iters polls w).1 = ClientLoop.returned code →
        code = 1 ∧ cycles.length < iters.toNat ∧
        ((∃ ret, ret ≠ 0 ∧
            (main_client_loop env ctx rem_dest iters polls w).2.2.trace
              = w.trace ++ (cycles.flatMap (cycle_events ctx rem_dest) ++
                  [Event.post_send 0 (pp_post_send_wr ctx rem_dest) ret,
                   Event.stderr "Couldn't post send"])) ∨
         (∃ zs p msg, empty_polls zs ∧ failed_poll p ∧
            polls = cycles.flatten ++
              (zs ++ p :: (main_client_loop env ctx rem_dest iters polls w).2.1) ∧
            (main_client_loop env ctx rem_dest iters polls w).2.2.trace
              = w.trace ++ (cycles.flatMap (cycle_events ctx rem_dest) ++
                  (Event.post_send 0 (pp_post_send_wr ctx rem_dest) 0 ::
                    ((zs ++ [p]).map poll_event ++ [Event.stderr msg])))))) ∧
      ((main_client_loop env ctx rem_dest iters polls w).1 = ClientLoop.polling →
        cycles.length < iters.toNat ∧
        ∃ zs, empty_polls zs ∧ polls = cycles.flatten ++ zs ∧
          (main_client_loop env ctx rem_dest iters polls w).2.2.trace
            = w.trace ++ (cycles.flatMap (cycle_events ctx rem_dest) ++
                (Event.post_send 0 (pp_post_send_wr ctx rem_dest) 0 :: zs.map poll_event)))) ∧
    ((pp_post_send_wr ctx rem_dest).opcode = ibv_wr_opcode.IBV_WR_RDMA_WRITE_WITH_IMM ∧
      (pp_post_send_wr ctx rem_dest).sg_list
        = [{ addr := ctx.net_buf.getD 0 0, length := (ctx.size % 2 ^ 32).toNat,
             lkey := ctx.mr_lkey.getD 0 0 }] ∧
      (pp_post_send_wr ctx rem_dest).wr
        = wr_union.rdma (rem_dest.vaddr % 2 ^ 64) (rem_dest.rkey % 2 ^ 32)) ∧
    (∀ (cycles : List (List PollResult)) (rest : List PollResult),
      (∀ c ∈ cycles, good_cycle c) → cycles.length = iters.toNat →
      (∀ k, k < cycles.length →
        env.ibv_post_send (w.posted + k) 0 (pp_post_send_wr ctx rem_dest) = 0) →
      (main_client_loop env ctx rem_dest iters (cycles.flatten ++ rest) w).1
        = ClientLoop.finished ∧
      (main_client_loop env ctx rem_dest iters (cycles.flatten ++ rest) w).2.2.posted
        = w.posted + iters.toNat) := by
  refine ⟨?_, ⟨rfl, rfl, rfl⟩, ?_⟩
  · obtain ⟨cycles, g1, g2, g3, g4⟩ := client_loop_spec env ctx rem_dest iters.toNat polls w
      (main_client_loop env ctx rem_dest iters polls w).1
      (main_client_loop env ctx rem_dest iters polls w).2.1
      (main_client_loop env ctx rem_dest iters polls w).2.2 rfl
    refine ⟨cycles, g1, ?_, g3, ?_⟩
    · intro hr
      obtain ⟨f1, f2, f3⟩ := g2 hr
      exact ⟨f1, f2, f3, by rw [cycles_posts, f1]⟩
    · intro hr
      obtain ⟨f1, -, f3⟩ := g4 hr
      exact ⟨f1, f3⟩
  · intro cycles rest hg hlen hacc
    unfold main_client_loop
    rw [← hlen, client_loop_good env ctx rem_dest cycles rest w hg hacc]
    exact ⟨rfl, rfl⟩

theorem client_benchmark_loop_witness :
    (main_client_loop (envAllOk []) ctxClient exD 3 (polls3.flatten ++ []) (world0 1)).1
      = ClientLoop.finished ∧
    (main_client_loop (envAllOk []) ctxClient exD 3 (polls3.flatten ++ []) (world0 1)).2.2.posted
      = (world0 1).posted + (3 : Int).toNat ∧
    (main_client_loop (envAllOk []) ctxClient exD 3 (polls3.flatten ++ []) (world0 1)).2.2.trace
      = [Event.post_send 0 (pp_post_send_wr ctxClient exD) 0, Event.poll_cq 0 0,
         Event.poll_cq 1 0,
         Event.post_send 0 (pp_post_send_wr ctxClient exD) 0, Event.poll_cq 1 0,
         Event.post_send 0 (pp_post_send_wr ctxClient exD) 0, Event.poll_cq 0 5,
         Event.poll_cq 0 0, Event.poll_cq 1 0] :=
  have h := (client_benchmark_loop (envAllOk []) ctxClient exD 3 [] (world0 1)).2.2 polls3 []
    (by
      intro c hc
      simp only [polls3, List.mem_cons, List.mem_singleton, List.not_mem_nil, or_false] at hc
      rcases hc with rfl | rfl | rfl
      · exact ⟨[⟨0, 0⟩], ⟨1, 0⟩, rfl, by simp [empty_polls], by decide, rfl⟩
      · exact ⟨[], ⟨1, 0⟩, rfl, by simp [empty_polls], by decide, rfl⟩
      · exact ⟨[⟨0, 5⟩, ⟨0, 0⟩], ⟨1, 0⟩, rfl, by simp [empty_polls], by decide, rfl⟩)
    (by decide) (fun _ _ => rfl)
  ⟨h.1, h.2, by decide⟩

/-- C25, the code at the failing input. The options `-n 3 -c 1 -o 0` and `-n 3 -c 1 -o 256` are
accepted by `parser` with a reduction opcode and the vector count 0 in the 8-bit field;
`pp_init_ctx_server` stores that count in the context, and `server_pre_post_wqes` divides the
segment length by it at the first forward request: the server is stopped by the division by zero
after the two wait requests of the first iteration. -/
theorem vector_count_zero_accepted :
    ∀ enum_signed : Bool,
      (parser enum_signed main_user_param [Opt.n 3, Opt.c 1, Opt.o 0]).accepted.map
          (fun up => (up.calc_opcode, up.vector_count)) = some (1, 0) ∧
      (parser enum_signed main_user_param [Opt.n 3, Opt.c 1, Opt.o 256]).accepted.map
          (fun up => (up.calc_opcode, up.vector_count)) = some (1, 0) ∧
      (parser enum_signed main_user_param [Opt.n 3, Opt.c 1, Opt.o 0]).accepted.map
          (fun up => (main_init_server_ctx up ctx2).calc_op.vector_count) = some 0 ∧
      (parser enum_signed main_user_param [Opt.n 3, Opt.c 1, Opt.o 0]).accepted.map
          (fun up => (main_server (envAllOk (serialize true exD)) (main_init_server_ctx up ctx2)
            up [exD, exD] (world0 2)).1) = some MainOutcome.fault ∧
      (parser enum_signed main_user_param [Opt.n 3, Opt.c 1, Opt.o 0]).accepted.map
          (fun up => (main_server (envAllOk (serialize true exD)) (main_init_server_ctx up ctx2)
            up [exD, exD] (world0 2)).2.posted) = some 2 := by
  decide

/-- C27, the code at the failing input. The condition `iters * 2 > rx_depth` is tested only when
`-n` is handled, with the receive depth of that moment: `-r 10` alone (1000 iterations by
default) and `-n 100 -r 10` are accepted although `2 * iters > rx_depth`, while `-r 10 -n 100` is
rejected with -1. -/
theorem rx_depth_not_rechecked :
    ∀ enum_signed : Bool,
      (parser enum_signed main_user_param [Opt.r 10]).accepted.map
          (fun up => (up.iters, up.rx_depth, decide (2 * up.iters ≤ up.rx_depth)))
        = some (1000, 10, false) ∧
      (parser enum_signed main_user_param [Opt.n 100, Opt.r 10]).accepted.map
          (fun up => (up.iters, up.rx_depth, decide (2 * up.iters ≤ up.rx_depth)))
        = some (100, 10, false) ∧
      parser enum_signed main_user_param [Opt.r 10, Opt.n 100] = ParserResult.error (-1) ∧
      (parser enum_signed main_user_param []).accepted.map
          (fun up => (up.iters, up.rx_depth, decide (2 * up.iters ≤ up.rx_depth)))
        = some (1000, 8000, true) := by
  decide

/-- C28, counterexample. The option `-n 3` is accepted with `iters = 3` and `tx_depth = 6`, the
capacity requested for every send queue; the transport rejects the sixth post. The send queue of
member 1 receives 2 work requests, not 6. -/
theorem send_queue_not_filled :
    (parser false main_user_param [Opt.n 3]).accepted.map
        (fun up =>
          (up.iters, up.tx_depth, (qp_cap up.tx_depth up.rx_depth).max_send_wr,
           (server_pre_post_wqes (envRejectPost 5) (main_init_server_ctx up ctx2) up.size
             (world0 2) up.iters [exD, exD] up.num_of_nodes).ret,
           (queue_posts 1
             (server_pre_post_wqes (envRejectPost 5) (main_init_server_ctx up ctx2) up.size
               (world0 2) up.iters [exD, exD] up.num_of_nodes).w.trace).length))
      = some (3, 6, 6, -1, 2) ∧
    (parser true main_user_param [Opt.n 3]).accepted.map
        (fun up =>
          (up.iters, up.tx_depth, (qp_cap up.tx_depth up.rx_depth).max_send_wr,
           (server_pre_post_wqes (envRejectPost 5) (main_init_server_ctx up ctx2) up.size
             (world0 2) up.iters [exD, exD] up.num_of_nodes).ret,
           (queue_posts 1
             (server_pre_post_wqes (envRejectPost 5) (main_init_server_ctx up ctx2) up.size
               (world0 2) up.iters [exD, exD] up.num_of_nodes).w.trace).length))
      = some (3, 6, 6, -1, 2) := by
  constructor <;> decide

/-- C28, as amended. Send-queue capacity matches the schedule: for every option sequence accepted
by `parser` with `0 <= iters < 2^30`, `tx_depth = 2 * iters` is the `max_send_wr` capacity
requested for every queue pair; in every run of `server_pre_post_wqes` with the accepted
parameters the number of work requests the send queue of a member `q < N` receives is at most
that capacity, and in the run in which every post is accepted and the accepted configuration
does not divide by a zero vector count it is exactly `2 * iters = tx_depth = max_send_wr`: one
wait and one forward request per iteration. -/
theorem send_queue_capacity (enum_signed : Bool) (user_param1 up : perftest_parameters)
    (opts : List Opt) (env : Env) (ctx0 : pingpong_context) (w : World)
    (rem_dest : List pingpong_dest) (q : Nat)
    (hp : parser enum_signed user_param1 opts = ParserResult.SUCCESS up)
    (hi : 0 ≤ up.iters) (hi2 : up.iters < 2 ^ 30) (hq : q < up.num_of_nodes) :
    up.tx_depth = 2 * up.iters ∧
    ((qp_cap up.tx_depth up.rx_depth).max_send_wr : Int) = up.tx_depth ∧
    (∃ ev,
      (server_pre_post_wqes env (main_init_server_ctx up ctx0) up.size w up.iters rem_dest
        up.num_of_nodes).w.trace = w.trace ++ ev ∧
      (queue_posts q ev).length ≤ (qp_cap up.tx_depth up.rx_depth).max_send_wr) ∧
    (no_div_zero (main_init_server_ctx up ctx0) →
      (∀ m e1,
        (schedule (main_init_server_ctx up ctx0) up.size up.iters rem_dest
          up.num_of_nodes)[m]? = some e1 →
        env.ibv_post_send (w.posted + m) e1.1 e1.2.1 = 0) →
      ∃ ev,
        (server_pre_post_wqes env (main_init_server_ctx up ctx0) up.size w up.iters rem_dest
          up.num_of_nodes).w.trace = w.trace ++ ev ∧
        queue_posts q ev
          = (List.range up.iters.toNat).flatMap (fun i =>
              [wait_wr (main_init_server_ctx up ctx0) up.iters up.num_of_nodes i q,
               send_wr (main_init_server_ctx up ctx0) up.size up.iters rem_dest
                 up.num_of_nodes i q]) ∧
        (((queue_posts q ev).length : Nat) : Int) = 2 * up.iters ∧
        (queue_posts q ev).length = (qp_cap up.tx_depth up.rx_depth).max_send_wr) := by
  obtain ⟨-, htx, -⟩ := parser_success enum_signed user_param1 up opts hp
  have hcap : ((qp_cap up.tx_depth up.rx_depth).max_send_wr : Int) = up.tx_depth := by
    simp only [qp_cap]
    rw [Int.toNat_of_nonneg (Int.emod_nonneg _ (by norm_num))]
    apply Int.emod_eq_of_lt
    · omega
    · rw [htx]
      have : (2 : Int) ^ 32 = 4 * 2 ^ 30 := by norm_num
      omega
  have hlen := on_queue_schedule_length (main_init_server_ctx up ctx0) up.size up.iters rem_dest
    up.num_of_nodes q hq
  have hlenI : (((on_queue q (schedule (main_init_server_ctx up ctx0) up.size up.iters rem_dest
      up.num_of_nodes)).length : Nat) : Int) = up.tx_depth := by
    rw [hlen, htx]
    push_cast
    rw [Int.toNat_of_nonneg hi]
    ring
  have hlenC : (on_queue q (schedule (main_init_server_ctx up ctx0) up.size up.iters rem_dest
      up.num_of_nodes)).length = (qp_cap up.tx_depth up.rx_depth).max_send_wr := by
    have := hlenI.trans hcap.symm
    exact_mod_cast this
  refine ⟨htx, hcap, ?_, ?_⟩
  · obtain ⟨ev, hev, hpre⟩ := queue_posts_prefix env (main_init_server_ctx up ctx0) up.size w
      up.iters rem_dest up.num_of_nodes q
    refine ⟨ev, hev, ?_⟩
    have := hpre.length_le
    rw [List.length_map, hlenC] at this
    exact this
  · intro hnd hacc
    refine ⟨(schedule (main_init_server_ctx up ctx0) up.size up.iters rem_dest
      up.num_of_nodes).map (post_event 0), ?_, ?_, ?_, ?_⟩
    · rw [server_pre_post_wqes_all_ok env (main_init_server_ctx up ctx0) up.size w up.iters
        rem_dest up.num_of_nodes hnd hacc]
    · rw [queue_posts_accepted, on_queue_schedule]
      simp only [hq, if_true, request, Bool.false_eq_true, if_false, List.map_flatMap,
        List.map_cons, List.map_nil]
    · rw [queue_posts_accepted, List.length_map, hlenI, htx]
    · rw [queue_posts_accepted, List.length_map, hlenC]

theorem send_queue_capacity_witness :
    parser false main_user_param [Opt.n 3]
      = ParserResult.SUCCESS
          { main_user_param with
            port := 18515, ib_port := 1, size := 4096, mtu := 3, rx_depth := 8000, iters := 3,
            tx_depth := 6, gid_index := -1, vector_count := 2 } ∧
    (6 : Int) = 2 * 3 ∧
    ((qp_cap 6 8000).max_send_wr : Int) = 6 ∧
    ∃ ev,
      (server_pre_post_wqes (envAllOk []) ctx2 4096 (world0 2) 3 [exD, exD] 2).w.trace
        = (world0 2).trace ++ ev ∧
      queue_posts 1 ev
        = (List.range 3).flatMap (fun i =>
            [wait_wr ctx2 3 2 i 1, send_wr ctx2 4096 3 [exD, exD] 2 i 1]) ∧
      (queue_posts 1 ev).length = (qp_cap 6 8000).max_send_wr :=
  have h := send_queue_capacity false main_user_param
    { main_user_param with
      port := 18515, ib_port := 1, size := 4096, mtu := 3, rx_depth := 8000, iters := 3,
      tx_depth := 6, gid_index := -1, vector_count := 2 }
    [Opt.n 3] (envAllOk []) ctx2 (world0 2) [exD, exD] 1 (by decide) (by decide)
    (by decide) (by decide)
  ⟨by decide, h.1, h.2.1,
    Exists.elim (h.2.2.2 (by decide) (fun _ _ _ => rfl))
      (fun ev hev => ⟨ev, hev.1, hev.2.1, hev.2.2.2⟩)⟩

/-- C26, the code at the failing input. Both initialisation functions contain no `return` other
than `return 0`: `pp_init_ctx` returns 0 whatever step failed, and `pp_init_ctx_server` never
returns a status other than 0. When the first allocation fails, both free the context and return
0, and the check in `main` lets the run go on; likewise when the client cannot open the device
or cannot bring its queue pair to INIT. -/
theorem init_failure_returns_zero :
    (∀ (e : InitEnv) (use_event : Int),
      (pp_init_ctx e use_event).result = InitResult.returned 0) ∧
    (∀ (e : InitEnv) (use_event : Int) (N : Nat) (code : Int),
      (pp_init_ctx_server e use_event N).result = InitResult.returned code → code = 0) ∧
    pp_init_ctx initNoMemory 0
      = { result := InitResult.returned 0, failed_at := some CleanupLabel.clean_ctx } ∧
    pp_init_ctx_server initNoMemory 0 2
      = { result := InitResult.returned 0, failed_at := some CleanupLabel.clean_ctx } ∧
    main_init initNoMemory true 0 2 = MainOutcome.running ∧
    main_init initNoMemory false 0 2 = MainOutcome.running ∧
    pp_init_ctx initNoDevice 0
      = { result := InitResult.returned 0, failed_at := some CleanupLabel.clean_net_buf } ∧
    main_init initNoDevice true 0 2 = MainOutcome.running ∧
    pp_init_ctx initModifyFails 0
      = { result := InitResult.returned 0, failed_at := some CleanupLabel.clean_qp } ∧
    main_init initModifyFails true 0 2 = MainOutcome.running ∧
    pp_init_ctx initAllOk 0 = { result := InitResult.returned 0, failed_at := none } := by
  exact ⟨pp_init_ctx_result, pp_init_ctx_server_result, by decide, by decide, by decide,
    by decide, by decide, by decide, by decide, by decide, by decide⟩

end CC2Pingpong
